import Mathlib

/-!
# Conversation / message ingestion core of the OpenIM client SDK

Shallow embedding of `internal/conversation_msg/conversation_msg.go`:
the per-batch conversation aggregation (`updateConversation`, `diff`,
the hidden-conversation overlay) and the per-message classification loops of
`doMsgNew` and `doSuperGroupMsgNew`.

Conventions of the embedding

* A Go `map[string]*T` is an association list with at most one binding a key
  (`GoMap`); a pointer stored in a map is the value bound to its key, and an
  in-place write through the pointer is a rebinding of that key.
* Collaborators that are not part of the file (database, caches, JSON codec,
  helper package `utils`, package `constant`) are fields of `Env` and of
  `Constants`; every definition takes them as arguments.
* Integer fields, whose Go types are declared outside this file, are mathematical
  integers; the only arithmetic the pipeline does on them is the addition of unread
  counters.
-/

namespace OpenIM

/-! ## Go maps keyed by string -/

/-- Association-list model of a Go `map[string]*V`. -/
abbrev GoMap (V : Type) := List (String × V)

namespace GoMap

variable {V : Type}

/-- Lookup `m[k]` with its `ok` flag: `none` when the key is absent. -/
def get? : GoMap V → String → Option V
  | [], _ => none
  | (k', v) :: rest, k => if k' = k then some v else get? rest k

/-- Assignment `m[k] = v`: rebinds an existing key in place, else adds the key. -/
def set : GoMap V → String → V → GoMap V
  | [], k, v => [(k, v)]
  | (k', v') :: rest, k, v => if k' = k then (k, v) :: rest else (k', v') :: set rest k v

/-- Keys of the map. -/
def keys (m : GoMap V) : List String := m.map Prod.fst

/-- Values of the map, in iteration order. -/
def values (m : GoMap V) : List V := m.map Prod.snd

end GoMap

/-! ## Data model -/

/-- The conversion `int32(n)` of a Go `int`. -/
def toInt32 (n : Int) : Int := (n + 2 ^ 31) % 2 ^ 32 - 2 ^ 31

/-- A Go `int32`: an integer in the range from `-2^31` up to `2^31 - 1`. -/
@[ext]
structure GoInt32 where
  toInt : Int
  lo : -2 ^ 31 ≤ toInt
  hi : toInt < 2 ^ 31
  deriving DecidableEq, Repr

namespace GoInt32

/-- The `int32` with the low 32 bits of `n`. -/
def ofInt (n : Int) : GoInt32 :=
  ⟨toInt32 n, by unfold toInt32; omega, by unfold toInt32; omega⟩

instance : Inhabited GoInt32 := ⟨ofInt 0⟩

instance : Zero GoInt32 := ⟨ofInt 0⟩

instance : One GoInt32 := ⟨ofInt 1⟩

instance : NatCast GoInt32 := ⟨fun n => ofInt n⟩

/-- Go addition of two `int32` values: the sum wraps around on overflow. -/
instance : Add GoInt32 := ⟨fun a b => ofInt (a.toInt + b.toInt)⟩

/-- Wrapping addition is associative and commutative, with neutral element 0. -/
instance : AddCommMonoid GoInt32 where
  add_assoc a b c := by
    apply GoInt32.ext
    show toInt32 (toInt32 (a.toInt + b.toInt) + c.toInt) =
      toInt32 (a.toInt + toInt32 (b.toInt + c.toInt))
    unfold toInt32
    omega
  zero_add a := by
    apply GoInt32.ext
    show toInt32 (toInt32 0 + a.toInt) = a.toInt
    have h1 := a.lo
    have h2 := a.hi
    unfold toInt32
    omega
  add_zero a := by
    apply GoInt32.ext
    show toInt32 (a.toInt + toInt32 0) = a.toInt
    have h1 := a.lo
    have h2 := a.hi
    unfold toInt32
    omega
  add_comm a b := by
    apply GoInt32.ext
    show toInt32 (a.toInt + b.toInt) = toInt32 (b.toInt + a.toInt)
    rw [Int.add_comm]
  nsmul := nsmulRec

/-- The conversion of a natural number agrees with counting up from 0 in steps of 1. -/
instance : AddCommMonoidWithOne GoInt32 where
  add_comm := add_comm
  natCast_zero := rfl
  natCast_succ n := by
    apply GoInt32.ext
    show toInt32 ((n + 1 : Nat) : Int) = toInt32 (toInt32 (n : Int) + toInt32 1)
    unfold toInt32
    omega

end GoInt32

/-- Modelled from the spec: the declaration of `model_struct.LocalConversation` lies
outside this file; the fields are the attributes of the conversation aggregate of the
data model (section 3) that the code reads or writes. The unread count is a Go `int32`:
the additions of the code wrap around on overflow. -/
structure LocalConversation where
  ConversationID : String := ""
  ConversationType : Int := 0
  UserID : String := ""
  GroupID : String := ""
  ShowName : String := ""
  FaceURL : String := ""
  RecvMsgOpt : Int := 0
  UnreadCount : GoInt32 := 0
  GroupAtType : Int := 0
  LatestMsg : String := ""
  LatestMsgSendTime : Int := 0
  IsPinned : Bool := false
  IsPrivateChat : Bool := false
  BurnDuration : Int := 0
  IsNotInGroup : Bool := false
  UpdateUnreadCountTime : Int := 0
  AttachedInfo : String := ""
  Ex : String := ""
  deriving DecidableEq, Repr, Inhabited

/-- Constants of package `constant`, which is declared outside this file: they are
parameters of the embedding. A Go `switch` over them is an if-chain in source order. -/
structure Constants where
  MsgStatusSendSuccess : Int
  MsgStatusHasDeleted : Int
  MsgStatusRevoked : Int
  MsgStatusFiltered : Int
  SingleChatType : Int
  GroupChatType : Int
  SuperGroupChatType : Int
  NotificationChatType : Int
  Text : Int
  Picture : Int
  Voice : Int
  Video : Int
  File : Int
  AtText : Int
  Merger : Int
  Location : Int
  Custom : Int
  Revoke : Int
  HasReadReceipt : Int
  Typing : Int
  Quote : Int
  Face : Int
  GroupHasReadReceipt : Int
  AdvancedText : Int
  AdvancedRevoke : Int
  CustomMsgNotTriggerConversation : Int
  CustomMsgOnlineOnly : Int
  ReactionMessageModifier : Int
  ReactionMessageDeleter : Int
  NotificationBegin : Int
  NotificationEnd : Int
  FriendNotificationBegin : Int
  FriendNotificationEnd : Int
  UserNotificationBegin : Int
  UserNotificationEnd : Int
  GroupNotificationBegin : Int
  GroupNotificationEnd : Int
  SignalingNotificationBegin : Int
  SignalingNotificationEnd : Int
  ConversationChangeNotification : Int
  ConversationPrivateChatNotification : Int
  ConversationUnreadNotification : Int
  SuperGroupUpdateNotification : Int
  MsgDeleteNotification : Int
  BusinessNotification : Int
  WorkMomentNotification : Int
  OANotification : Int
  GroupApplicationRejectedNotification : Int
  GroupApplicationAcceptedNotification : Int
  JoinGroupApplicationNotification : Int
  AtMe : Int
  AtAll : Int
  AtAllAtMe : Int
  AtAllString : String
  AddMessageExtensions : Int
  SetMessageExtensions : Int

/-- The switches read from `v.Options`: each field is the value of
`utils.GetSwitchFromOptions(v.Options, constant.X)` for the key of that name. -/
structure MsgOptions where
  IsHistory : Bool := true
  IsUnreadCount : Bool := true
  IsConversationUpdate : Bool := true
  IsNotPrivate : Bool := true
  IsSenderConversationUpdate : Bool := true
  IsSenderNotificationPush : Bool := true
  deriving DecidableEq, Repr, Inhabited

/-- Modelled from the spec: the declaration of `sdkws.MsgData`, the inbound server
message, lies outside this file; the fields are the message attributes of section 3
that the pipeline reads. -/
structure MsgData where
  SendID : String := ""
  RecvID : String := ""
  GroupID : String := ""
  ClientMsgID : String := ""
  ServerMsgID : String := ""
  SenderPlatformID : Int := 0
  SenderNickname : String := ""
  SenderFaceURL : String := ""
  SessionType : Int := 0
  MsgFrom : Int := 0
  ContentType : Int := 0
  Content : String := ""
  Seq : Int := 0
  SendTime : Int := 0
  CreateTime : Int := 0
  Status : Int := 0
  Options : MsgOptions := {}
  OfflinePushInfo : Option String := none
  AttachedInfo : String := ""
  Ex : String := ""
  deriving DecidableEq, Repr, Inhabited

/-- Modelled from the spec: the declaration of `sdk_struct.AttachedInfoElem`, the decoded
attached-info blob, lies outside this file; the fields are those the code reads or
writes. -/
structure AttachedInfoElem where
  HasReadUserIDList : List String := []
  HasReadCount : Int := 0
  IsPrivateChat : Bool := false
  HasReadTime : Int := 0
  NotSenderNotificationPush : Bool := false
  IsEncryption : Bool := false
  InEncryptStatus : Bool := false
  deriving DecidableEq, Repr, Inhabited

/-- Modelled from the spec: the declaration of `sdk_struct.AtElem`, the at-text element,
lies outside this file. -/
structure AtElem where
  Text : String := ""
  AtUserList : List String := []
  IsAtSelf : Bool := false
  deriving DecidableEq, Repr, Inhabited

/-- Modelled from the spec: the declaration of the notification element of a message
lies outside this file; it holds the `detail` and `default_tips` of section 4.2. -/
structure NotificationElem where
  Detail : String := ""
  DefaultTips : String := ""
  deriving DecidableEq, Repr, Inhabited

/-- Modelled from the spec: the declaration of `sdk_struct.MsgStruct`, the working copy of
a message, lies outside this file; the fields are the message attributes of section 3
and the typed elements of section 4.2. A typed element other than the three structured
ones above is kept as the value its JSON decoder returned. -/
structure MsgStruct where
  ClientMsgID : String := ""
  ServerMsgID : String := ""
  CreateTime : Int := 0
  SendTime : Int := 0
  SessionType : Int := 0
  SendID : String := ""
  RecvID : String := ""
  MsgFrom : Int := 0
  ContentType : Int := 0
  SenderPlatformID : Int := 0
  SenderNickname : String := ""
  SenderFaceURL : String := ""
  GroupID : String := ""
  Content : String := ""
  Seq : Int := 0
  IsRead : Bool := false
  Status : Int := 0
  OfflinePush : String := ""
  AttachedInfo : String := ""
  Ex : String := ""
  PictureElem : String := ""
  SoundElem : String := ""
  VideoElem : String := ""
  FileElem : String := ""
  MessageEntityElem : String := ""
  LocationElem : String := ""
  CustomElem : String := ""
  QuoteElem : String := ""
  MergeElem : String := ""
  FaceElem : String := ""
  AtElem : AtElem := {}
  NotificationElem : NotificationElem := {}
  AttachedInfoElem : AttachedInfoElem := {}
  deriving DecidableEq, Repr, Inhabited

/-- Modelled from the spec: the declaration of `model_struct.LocalChatLog`, a row of the
local message table, lies outside this file; the fields are the attributes of the
persisted message of section 3 and the reaction flags the code writes. -/
structure LocalChatLog where
  ClientMsgID : String := ""
  ServerMsgID : String := ""
  SendID : String := ""
  RecvID : String := ""
  SenderPlatformID : Int := 0
  SenderNickname : String := ""
  SenderFaceURL : String := ""
  SessionType : Int := 0
  MsgFrom : Int := 0
  ContentType : Int := 0
  Content : String := ""
  IsRead : Bool := false
  Status : Int := 0
  Seq : Int := 0
  SendTime : Int := 0
  CreateTime : Int := 0
  AttachedInfo : String := ""
  Ex : String := ""
  IsReact : Bool := false
  IsExternalExtensions : Bool := false
  MsgFirstModifyTime : Int := 0
  deriving DecidableEq, Repr, Inhabited

/-- Modelled from the spec: the declaration of `model_struct.LocalErrChatLog`, a row of the
exception table, lies outside this file. -/
structure LocalErrChatLog where
  Seq : Int := 0
  ClientMsgID : String := ""
  ServerMsgID : String := ""
  SendID : String := ""
  RecvID : String := ""
  SenderPlatformID : Int := 0
  SenderNickname : String := ""
  SenderFaceURL : String := ""
  SessionType : Int := 0
  MsgFrom : Int := 0
  ContentType : Int := 0
  Content : String := ""
  IsRead : Bool := false
  Status : Int := 0
  SendTime : Int := 0
  CreateTime : Int := 0
  AttachedInfo : String := ""
  Ex : String := ""
  deriving DecidableEq, Repr, Inhabited

/-- Modelled from the spec: the declaration of
`model_struct.LocalConversationUnreadMessage` lies outside this file; an unread row is
`(conversation_id, client_msg_id, send_time)`. -/
structure LocalConversationUnreadMessage where
  ConversationID : String := ""
  ClientMsgID : String := ""
  SendTime : Int := 0
  deriving DecidableEq, Repr, Inhabited

/-- A `*sdk_struct.MsgStruct` held in one of the listener lists: `ptr` is the identity
of the allocation (`new(sdk_struct.MsgStruct)` of the loop iteration), `val` its
content. -/
structure MsgRef where
  ptr : Nat
  val : MsgStruct
  deriving DecidableEq, Repr, Inhabited

/-- Modelled from the spec: the declaration of `sdk_struct.MessageRevoked`, the payload of
an advanced-revoke message (section 4.6.2), lies outside this file; the fields are the
ones the code reads. -/
structure MessageRevoked where
  ClientMsgID : String := ""
  SessionType : Int := 0
  SourceMessageSendTime : Int := 0
  deriving DecidableEq, Repr, Inhabited

/-- Modelled from the spec: the declaration of `sdk_struct.MsgStruct.QuoteElem`, the typed
element of a quote message, lies outside this file: its text and the quoted message
(`nil` when absent). -/
structure QuoteElem where
  Text : String := ""
  QuoteMessage : Option MsgStruct := none
  deriving DecidableEq, Repr, Inhabited

/-- Modelled from the spec: the declaration of `sdk_struct.MessageReceipt` lies outside this
file; the fields are the ones `doMsgReadState` writes. -/
structure MessageReceipt where
  UserID : String := ""
  GroupID : String := ""
  MsgIDList : List String := []
  ReadTime : Int := 0
  MsgFrom : Int := 0
  ContentType : Int := 0
  SessionType : Int := 0
  deriving DecidableEq, Repr, Inhabited

/-- Modelled from the spec: the declaration of `sdkws.KeyValue`, one reaction extension,
lies outside this file. -/
structure KeyValue where
  TypeKey : String := ""
  Value : String := ""
  LatestUpdateTime : Int := 0
  deriving DecidableEq, Repr, Inhabited

/-- Modelled from the spec: the declaration of
`server_api_params.ReactionMessageModifierNotification` (section 4.6.4) lies outside this
file. `SuccessReactionExtensionList` holds the values in the order in which the code
ranges over them. -/
structure ReactionMessageModifierNotification where
  Operation : Int := 0
  SourceID : String := ""
  SessionType : Int := 0
  SuccessReactionExtensionList : List KeyValue := []
  ClientMsgID : String := ""
  IsReact : Bool := false
  IsExternalExtensions : Bool := false
  MsgFirstModifyTime : Int := 0
  deriving DecidableEq, Repr, Inhabited

/-- Modelled from the spec: the declaration of
`server_api_params.ReactionMessageDeleteNotification` (section 4.6.5) lies outside this
file. -/
structure ReactionMessageDeleteNotification where
  SourceID : String := ""
  SessionType : Int := 0
  SuccessReactionExtensionList : List KeyValue := []
  ClientMsgID : String := ""
  deriving DecidableEq, Repr, Inhabited

/-- Modelled from the spec: the declaration of `common.UpdateConNode` lies outside this
file; the commands handed to `doUpdateConversation` are listed by action (section 6).
The argument of `NewConDirect` and `ConChangeDirect` is the conversation list whose JSON
text the code passes. -/
inductive ConCmd where
  | UnreadCountSetZero (conID : String)
  | ConChange (ids : List String)
  | NewConDirect (args : List LocalConversation)
  | ConChangeDirect (args : List LocalConversation)
  | TotalUnreadMessageChanged
  | ConversationLatestMsgHasRead (chrsList : List (String × List String))
  deriving DecidableEq, Repr

/-- Calls made on collaborators while the batch is processed, in program order. -/
inductive Effect where
  | conversationDoNotification (v : MsgData)
  | superGroupDoNotification (v : MsgData)
  | businessDoNotification (content : String)
  | friendDoNotification (v : MsgData)
  | userDoNotification (v : MsgData)
  | groupDoNotification (v : MsgData)
  | signalingDoNotification (v : MsgData)
  | workMomentsDoNotification (content : String)
  | doUpdateConversation (cmd : ConCmd)
  | DeleteConversationUnreadMessageList (conversationID : String) (sendTime : Int)
  | BatchUpdateMessageList (rows : List LocalChatLog)
  | BatchSpecialUpdateMessageList (rows : List LocalChatLog)
  | BatchInsertMessageListController (rows : List LocalChatLog)
  | InsertMessageController (row : LocalChatLog)
  | BatchInsertExceptionMsgController (rows : List LocalErrChatLog)
  | BatchUpdateConversationList (rows : List LocalConversation)
  | BatchInsertConversationList (rows : List LocalConversation)
  | BatchInsertConversationUnreadMessageList (rows : List LocalConversationUnreadMessage)
  | UpdateMessageController (row : LocalChatLog)
  | UpdateMessage (row : LocalChatLog)
  | OnNewRecvMessageRevoked (content : String)
  | OnRecvC2CReadReceipt (receipts : List MessageReceipt)
  | OnRecvGroupReadReceipt (receipts : List MessageReceipt)
  | OnRecvMessageRevoked (clientMsgID : String)
  | OnRecvNewMessage (message : String)
  | listenerForServiceOnRecvNewMessage (message : String)
  | OnRecvNewMessages (messages : List MsgStruct)
  | GetAndUpdateMessageReactionExtension (clientMsgID : String) (list : List KeyValue)
  | DeleteAndUpdateMessageReactionExtension (clientMsgID : String) (list : List KeyValue)
  | OnRecvMessageExtensionsAdded (clientMsgID : String) (list : List KeyValue)
  | OnRecvMessageExtensionsChanged (clientMsgID : String) (list : List KeyValue)
  | OnRecvMessageExtensionsDeleted (clientMsgID : String) (keys : List String)
  /-- A method call on `c.msgListener` while the listener is nil: the run-time error of
  a nil dereference, which ends the run. It is the last entry of a list of calls. -/
  | nilListenerCall
  deriving DecidableEq, Repr

/-- The receiver `c *Conversation` and its collaborators, as the pipeline uses them.
Every function field stands for a call whose implementation lies outside this file;
a Go `(value, err)` result is an `Option` (`none` when `err != nil`). -/
structure Env where
  loginUserID : String
  encryptionKey : String
  /-- Call `c.db.GetMessageController(ctx, msg)` on the store as it is when the batch starts. -/
  GetMessageController : MsgStruct → Option LocalChatLog
  /-- Result of `c.db.GetAllConversationListDB(ctx)`. -/
  GetAllConversationListDB : List LocalConversation
  /-- Result of `c.db.GetHiddenConversationList(ctx)`. -/
  GetHiddenConversationList : List LocalConversation
  /-- Whether `c.db.BatchInsertMessageListController(ctx, rows)` returns no error. -/
  BatchInsertMessageListControllerOk : List LocalChatLog → Bool
  /-- Whether `c.db.InsertMessageController(ctx, row)` returns no error, after the rows
  `done` were attempted one by one in the same fallback. -/
  InsertMessageControllerOk : (done : List LocalChatLog) → (row : LocalChatLog) → Bool
  /-- Call `c.cache.GetConversation(conversationID)`. -/
  GetConversation : String → LocalConversation
  /-- Call `c.cache.GetUserNameAndFaceURL(ctx, userID)`: face url and name. -/
  GetUserNameAndFaceURL : String → Option (String × String)
  /-- Call `c.full.GetGroupInfoFromLocal2Svr(ctx, groupID, sessionType)`: group name and face url. -/
  GetGroupInfoFromLocal2Svr : String → Int → Option (String × String)
  /-- Helper `utils.GetConversationIDBySessionType(sourceID, sessionType)`. -/
  GetConversationIDBySessionType : String → Int → String
  /-- Helper `utils.StructToJsonString` of a message. -/
  msgToJson : MsgStruct → String
  /-- Helper `utils.StructToJsonString` of an attached-info element. -/
  attachedInfoToJson : AttachedInfoElem → String
  /-- Helper `utils.JsonStringToStruct` into an attached-info element (its error is dropped). -/
  jsonToAttachedInfo : String → AttachedInfoElem
  /-- Helper `utils.JsonStringToStruct` into a `TipsComm`: `JsonDetail` and `DefaultTips`. -/
  jsonToTips : String → Option (String × String)
  /-- Helper `utils.JsonStringToStruct` into an `AtElem`. -/
  jsonToAtElem : String → Option AtElem
  /-- Helper `utils.JsonStringToStruct` into one of the other typed elements. -/
  jsonToElem : String → Option String
  /-- Helper `utils.AesDecrypt(content, key)`. -/
  AesDecrypt : String → String → Option String
  /-- Call `proto.Unmarshal` into a `ConversationUpdateTips` (its error is dropped): the
  conversation id list and `UpdateUnreadCountTime`. -/
  unmarshalConversationUpdateTips : String → List String × Int
  /-- Whether `c.msgListener != nil`. -/
  msgListenerSet : Bool
  /-- Call `json.Unmarshal` into a `MessageRevoked`. -/
  jsonToMessageRevoked : String → Option MessageRevoked
  /-- Helper `utils.StructToJsonString` of a revoke payload. -/
  messageRevokedToJson : MessageRevoked → String
  /-- Helper `utils.JsonStringToStruct` into a `QuoteElem`: the value left in the target
  (the error is only logged). -/
  jsonToQuoteElem : String → QuoteElem
  /-- Helper `utils.StructToJsonString` of a `QuoteElem`. -/
  quoteElemToJson : QuoteElem → String
  /-- Whether `c.db.UpdateMessageController(ctx, row)` returns no error, after the calls
  `done` of the same dispatcher. -/
  UpdateMessageControllerOk : (done : List Effect) → (row : LocalChatLog) → Bool
  /-- Result of `c.db.SearchAllMessageByContentType(ctx, contentType)`. -/
  SearchAllMessageByContentType : Int → List LocalChatLog
  /-- Result of `c.db.SuperGroupSearchAllMessageByContentType(ctx, groupID, contentType)`. -/
  SuperGroupSearchAllMessageByContentType : String → Int → List LocalChatLog
  /-- Call `json.Unmarshal` into a list of client message ids. -/
  jsonToStringList : String → Option (List String)
  /-- Call `c.db.GetMessage(ctx, clientMsgID)`, after the calls `done` of the same
  dispatcher. -/
  GetMessage : (done : List Effect) → (clientMsgID : String) → Option LocalChatLog
  /-- Whether `c.db.UpdateMessage(ctx, row)` returns no error, after the calls `done` of
  the same dispatcher. -/
  UpdateMessageOk : (done : List Effect) → (row : LocalChatLog) → Bool
  /-- The field `c.platformID`. -/
  platformID : Int
  /-- Whether `c.batchMsgListener != nil`. -/
  batchMsgListenerSet : Bool
  /-- Whether `c.listenerForService != nil`. -/
  listenerForServiceSet : Bool
  /-- The list as `sort.Sort(newMessagesList)` leaves it; the order `Less` of
  `sdk_struct.NewMsgList` is declared outside this file. -/
  sortNewMsgList : List MsgStruct → List MsgStruct
  /-- Call `c.getConversationTypeByGroupID(ctx, groupID)`: the session type. -/
  getConversationTypeByGroupID : String → Option Int
  /-- Call `c.db.GetMultipleMessageController(ctx, msgIDList, groupID, sessionType)`, after
  the calls `done` of the same dispatcher. -/
  GetMultipleMessageController :
    (done : List Effect) → List String → String → Int → Option (List LocalChatLog)
  /-- Helper `utils.RemoveRepeatedStringInList(list)`, declared outside this file. -/
  RemoveRepeatedStringInList : List String → List String
  /-- Call `json.Unmarshal` into a `ReactionMessageModifierNotification`. -/
  jsonToReactionModifier : String → Option ReactionMessageModifierNotification
  /-- Whether `c.db.GetAndUpdateMessageReactionExtension(ctx, clientMsgID, list)` returns no
  error, after the calls `done` of the same dispatcher. -/
  GetAndUpdateMessageReactionExtensionOk :
    (done : List Effect) → (clientMsgID : String) → (list : List KeyValue) → Bool
  /-- Call `json.Unmarshal` into a `ReactionMessageDeleteNotification`. -/
  jsonToReactionDeleter : String → Option ReactionMessageDeleteNotification
  /-- Whether `c.db.DeleteAndUpdateMessageReactionExtension(ctx, clientMsgID, list)` returns
  no error, after the calls `done` of the same dispatcher. -/
  DeleteAndUpdateMessageReactionExtensionOk :
    (done : List Effect) → (clientMsgID : String) → (list : List KeyValue) → Bool

/-! ## Conversation aggregation -/

/-- The method `updateConversation(lc, cs)`: the per-message fold rule. -/
def updateConversation (lc : LocalConversation) (cs : GoMap LocalConversation) :
    GoMap LocalConversation :=
  match cs.get? lc.ConversationID with
  | none => cs.set lc.ConversationID lc
  | some oldC =>
    if lc.LatestMsgSendTime > oldC.LatestMsgSendTime then
      cs.set lc.ConversationID
        { oldC with
          UnreadCount := oldC.UnreadCount + lc.UnreadCount
          LatestMsg := lc.LatestMsg
          LatestMsgSendTime := lc.LatestMsgSendTime }
    else
      cs.set lc.ConversationID { oldC with UnreadCount := oldC.UnreadCount + lc.UnreadCount }

/-- Folding provisional records, in list order, into a conversation set. -/
def foldConversations (rs : List LocalConversation) (cs : GoMap LocalConversation) :
    GoMap LocalConversation :=
  rs.foldl (fun acc lc => updateConversation lc acc) cs

/-- The entry that results from folding `lc` into the existing entry `e`
(the `else` branch of `updateConversation`, both arms). -/
def mergeInto (e lc : LocalConversation) : LocalConversation :=
  if lc.LatestMsgSendTime > e.LatestMsgSendTime then
    { e with
      UnreadCount := e.UnreadCount + lc.UnreadCount
      LatestMsg := lc.LatestMsg
      LatestMsgSendTime := lc.LatestMsgSendTime }
  else
    { e with UnreadCount := e.UnreadCount + lc.UnreadCount }

/-- Whether `x` attains the maximal send time of the records `rs`. -/
def attainsMax (rs : List LocalConversation) (x : LocalConversation) : Bool :=
  rs.all (fun y => decide (y.LatestMsgSendTime ≤ x.LatestMsgSendTime))

/-- The function `listToMap(list, m)` on an empty `m`. -/
def listToMap (list : List LocalConversation) : GoMap LocalConversation :=
  list.foldl (fun m v => m.set v.ConversationID v) []

/-- The function `mapConversationToList(m)`; the order of a Go map iteration is not
fixed, the model lists the values in the order of the association list. -/
def mapConversationToList (m : GoMap LocalConversation) : List LocalConversation :=
  m.values

/-- The method `addFaceURLAndName(ctx, lc)`; its error result is dropped by `diff`. -/
def addFaceURLAndName (K : Constants) (E : Env) (lc : LocalConversation) : LocalConversation :=
  if lc.ConversationType = K.SingleChatType ∨ lc.ConversationType = K.NotificationChatType then
    match E.GetUserNameAndFaceURL lc.UserID with
    | none => lc
    | some (faceUrl, name) => { lc with FaceURL := faceUrl, ShowName := name }
  else if lc.ConversationType = K.GroupChatType ∨ lc.ConversationType = K.SuperGroupChatType then
    match E.GetGroupInfoFromLocal2Svr lc.GroupID lc.ConversationType with
    | none => lc
    | some (groupName, faceURL) => { lc with ShowName := groupName, FaceURL := faceURL }
  else lc

/-- The three maps `diff` works on: the local rows (written through their pointers),
the changed set `cc` and the new set `nc`. -/
structure DiffState where
  localMap : GoMap LocalConversation
  cc : GoMap LocalConversation := []
  nc : GoMap LocalConversation := []
  deriving DecidableEq, Repr

/-- One iteration of the loop of `diff` over a generated conversation `v`. -/
def diffStep (K : Constants) (E : Env) (st : DiffState) (v : LocalConversation) : DiffState :=
  match st.localMap.get? v.ConversationID with
  | some localC =>
    if v.LatestMsgSendTime > localC.LatestMsgSendTime then
      let localC1 : LocalConversation :=
        { localC with
          UnreadCount := localC.UnreadCount + v.UnreadCount
          LatestMsg := v.LatestMsg
          LatestMsgSendTime := v.LatestMsgSendTime }
      { st with
        localMap := st.localMap.set v.ConversationID localC1
        cc := st.cc.set v.ConversationID localC1 }
    else
      let localC1 : LocalConversation :=
        { localC with UnreadCount := localC.UnreadCount + v.UnreadCount }
      { st with
        localMap := st.localMap.set v.ConversationID localC1
        cc := st.cc.set v.ConversationID localC1 }
  | none =>
    { st with nc := st.nc.set v.ConversationID (addFaceURLAndName K E v) }

/-- The method `diff(ctx, local, generated, cc, nc)`. -/
def diff (K : Constants) (E : Env) (localMap generated cc nc : GoMap LocalConversation) :
    DiffState :=
  generated.values.foldl (diffStep K E) { localMap := localMap, cc := cc, nc := nc }

/-- The hidden-conversation overlay works on the new set (whose entries it writes
through their pointers) and fills `phConversationChangedSet`. -/
structure OverlayState where
  newConversationSet : GoMap LocalConversation
  phConversationChangedSet : GoMap LocalConversation := []
  deriving DecidableEq, Repr

/-- The flags of the hidden row `v` written onto the new conversation `nc`. -/
def overlayFlags (v nc : LocalConversation) : LocalConversation :=
  let nc1 : LocalConversation :=
    { nc with
      RecvMsgOpt := v.RecvMsgOpt
      GroupAtType := v.GroupAtType
      IsPinned := v.IsPinned
      IsPrivateChat := v.IsPrivateChat }
  let nc2 : LocalConversation :=
    if nc1.IsPrivateChat then { nc1 with BurnDuration := v.BurnDuration } else nc1
  { nc2 with IsNotInGroup := v.IsNotInGroup, AttachedInfo := v.AttachedInfo, Ex := v.Ex }

/-- One iteration of `for _, v := range hList`. -/
def overlayStep (st : OverlayState) (v : LocalConversation) : OverlayState :=
  match st.newConversationSet.get? v.ConversationID with
  | some nc =>
    { newConversationSet := st.newConversationSet.set v.ConversationID (overlayFlags v nc)
      phConversationChangedSet :=
        st.phConversationChangedSet.set v.ConversationID (overlayFlags v nc) }
  | none => st

/-- The loop over the hidden list. -/
def hiddenOverlay (hList : List LocalConversation) (newConversationSet : GoMap LocalConversation) :
    OverlayState :=
  hList.foldl overlayStep { newConversationSet := newConversationSet }

/-- The loop that fills `phNewConversationSet`: the new conversations whose id is not a
key of `phConversationChangedSet`. -/
def phNewOf (newConversationSet ph : GoMap LocalConversation) : GoMap LocalConversation :=
  newConversationSet.foldl
    (fun acc kv => if (ph.get? kv.2.ConversationID).isSome then acc else acc.set kv.1 kv.2) []

/-! ## The per-message loop of `doMsgNew` and `doSuperGroupMsgNew` -/

/-- The assignments `copier.Copy(msg, v)`, `msg.OfflinePush = *v.OfflinePushInfo` and
`msg.Content = string(v.Content)` on a fresh `MsgStruct`. -/
def copyMsg (v : MsgData) : MsgStruct :=
  { ClientMsgID := v.ClientMsgID
    ServerMsgID := v.ServerMsgID
    CreateTime := v.CreateTime
    SendTime := v.SendTime
    SessionType := v.SessionType
    SendID := v.SendID
    RecvID := v.RecvID
    MsgFrom := v.MsgFrom
    ContentType := v.ContentType
    SenderPlatformID := v.SenderPlatformID
    SenderNickname := v.SenderNickname
    SenderFaceURL := v.SenderFaceURL
    GroupID := v.GroupID
    Content := v.Content
    Seq := v.Seq
    Status := v.Status
    OfflinePush := v.OfflinePushInfo.getD ""
    AttachedInfo := v.AttachedInfo
    Ex := v.Ex }

/-- The method `msgStructToLocalChatLog(m)`. -/
def msgStructToLocalChatLog (K : Constants) (m : MsgStruct) : LocalChatLog :=
  let lc : LocalChatLog :=
    { ClientMsgID := m.ClientMsgID
      ServerMsgID := m.ServerMsgID
      SendID := m.SendID
      RecvID := m.RecvID
      SenderPlatformID := m.SenderPlatformID
      SenderNickname := m.SenderNickname
      SenderFaceURL := m.SenderFaceURL
      SessionType := m.SessionType
      MsgFrom := m.MsgFrom
      ContentType := m.ContentType
      Content := m.Content
      IsRead := m.IsRead
      Status := m.Status
      Seq := m.Seq
      SendTime := m.SendTime
      CreateTime := m.CreateTime
      AttachedInfo := m.AttachedInfo
      Ex := m.Ex }
  if m.SessionType = K.GroupChatType ∨ m.SessionType = K.SuperGroupChatType then
    { lc with RecvID := m.GroupID }
  else lc

/-- The method `msgStructToLocalErrChatLog(m)`. -/
def msgStructToLocalErrChatLog (K : Constants) (m : MsgStruct) : LocalErrChatLog :=
  let lc : LocalErrChatLog :=
    { Seq := m.Seq
      ClientMsgID := m.ClientMsgID
      ServerMsgID := m.ServerMsgID
      SendID := m.SendID
      RecvID := m.RecvID
      SenderPlatformID := m.SenderPlatformID
      SenderNickname := m.SenderNickname
      SenderFaceURL := m.SenderFaceURL
      SessionType := m.SessionType
      MsgFrom := m.MsgFrom
      ContentType := m.ContentType
      Content := m.Content
      IsRead := m.IsRead
      Status := m.Status
      SendTime := m.SendTime
      CreateTime := m.CreateTime
      AttachedInfo := m.AttachedInfo
      Ex := m.Ex }
  if m.SessionType = K.GroupChatType ∨ m.SessionType = K.SuperGroupChatType then
    { lc with RecvID := m.GroupID }
  else lc

/-- The copy `copier.Copy(errChatLog, v)` of a message row into an exception row. -/
def chatLogToErrChatLog (v : LocalChatLog) : LocalErrChatLog :=
  { Seq := v.Seq
    ClientMsgID := v.ClientMsgID
    ServerMsgID := v.ServerMsgID
    SendID := v.SendID
    RecvID := v.RecvID
    SenderPlatformID := v.SenderPlatformID
    SenderNickname := v.SenderNickname
    SenderFaceURL := v.SenderFaceURL
    SessionType := v.SessionType
    MsgFrom := v.MsgFrom
    ContentType := v.ContentType
    Content := v.Content
    IsRead := v.IsRead
    Status := v.Status
    SendTime := v.SendTime
    CreateTime := v.CreateTime
    AttachedInfo := v.AttachedInfo
    Ex := v.Ex }

/-- Decoding of one typed element: `err = utils.JsonStringToStruct(msg.Content, &elem)`. -/
def decodeElem (E : Env) (msg : MsgStruct) (store : MsgStruct → String → MsgStruct) :
    Option MsgStruct :=
  (E.jsonToElem msg.Content).map (store msg)

/-- The body of `msgHandleByContentType` after the attached info is parsed: the range
test for notifications and the `switch msg.ContentType`. -/
def decodeContent (K : Constants) (E : Env) (msg : MsgStruct) : Option MsgStruct :=
  if msg.ContentType ≥ K.NotificationBegin ∧ msg.ContentType ≤ K.NotificationEnd then
    (E.jsonToTips msg.Content).map fun tips =>
      { msg with NotificationElem := { Detail := tips.1, DefaultTips := tips.2 } }
  else if msg.ContentType = K.Text then
    if msg.AttachedInfoElem.IsEncryption ∧ E.encryptionKey ≠ "" ∧
        msg.AttachedInfoElem.InEncryptStatus then
      (E.AesDecrypt msg.Content E.encryptionKey).map fun newContent =>
        { msg with
          Content := newContent
          AttachedInfoElem := { msg.AttachedInfoElem with InEncryptStatus := false }
          AttachedInfo :=
            E.attachedInfoToJson { msg.AttachedInfoElem with InEncryptStatus := false } }
    else some msg
  else if msg.ContentType = K.Picture then
    decodeElem E msg fun m e => { m with PictureElem := e }
  else if msg.ContentType = K.Voice then
    decodeElem E msg fun m e => { m with SoundElem := e }
  else if msg.ContentType = K.Video then
    decodeElem E msg fun m e => { m with VideoElem := e }
  else if msg.ContentType = K.File then
    decodeElem E msg fun m e => { m with FileElem := e }
  else if msg.ContentType = K.AdvancedText then
    decodeElem E msg fun m e => { m with MessageEntityElem := e }
  else if msg.ContentType = K.AtText then
    (E.jsonToAtElem msg.Content).map fun at0 =>
      if E.loginUserID ∈ at0.AtUserList then { msg with AtElem := { at0 with IsAtSelf := true } }
      else { msg with AtElem := at0 }
  else if msg.ContentType = K.Location then
    decodeElem E msg fun m e => { m with LocationElem := e }
  else if msg.ContentType = K.Custom then
    decodeElem E msg fun m e => { m with CustomElem := e }
  else if msg.ContentType = K.Quote then
    decodeElem E msg fun m e => { m with QuoteElem := e }
  else if msg.ContentType = K.Merger then
    decodeElem E msg fun m e => { m with MergeElem := e }
  else if msg.ContentType = K.Face then
    decodeElem E msg fun m e => { m with FaceElem := e }
  else if msg.ContentType = K.CustomMsgNotTriggerConversation then
    decodeElem E msg fun m e => { m with CustomElem := e }
  else if msg.ContentType = K.CustomMsgOnlineOnly then
    decodeElem E msg fun m e => { m with CustomElem := e }
  else some msg

/-- The method `msgHandleByContentType(msg)`; `none` is a non-nil error. -/
def msgHandleByContentType (K : Constants) (E : Env) (msg : MsgStruct) : Option MsgStruct :=
  decodeContent K E { msg with AttachedInfoElem := E.jsonToAttachedInfo msg.AttachedInfo }

/-- The two blocks `if !isSenderNotificationPush` and `if !isNotPrivate` of the loop. -/
def markAttachedInfo (E : Env) (v : MsgData) (msg : MsgStruct) : MsgStruct :=
  let msg1 : MsgStruct :=
    if !v.Options.IsSenderNotificationPush then
      let elem : AttachedInfoElem :=
        { msg.AttachedInfoElem with NotSenderNotificationPush := true }
      { msg with AttachedInfoElem := elem, AttachedInfo := E.attachedInfoToJson elem }
    else msg
  if !v.Options.IsNotPrivate then
    let elem : AttachedInfoElem := { msg1.AttachedInfoElem with IsPrivateChat := true }
    { msg1 with AttachedInfoElem := elem, AttachedInfo := E.attachedInfoToJson elem }
  else msg1

/-- The variables of one run of the loop: the buckets, the listener lists, the
generated conversation set, the calls made so far and the number of messages
allocated so far. -/
structure BatchState where
  isTriggerUnReadCount : Bool := false
  insertMsg : List LocalChatLog := []
  updateMsg : List LocalChatLog := []
  specialUpdateMsg : List LocalChatLog := []
  exceptionMsg : List LocalErrChatLog := []
  unreadMessages : List LocalConversationUnreadMessage := []
  newMessages : List MsgRef := []
  msgReadList : List MsgRef := []
  groupMsgReadList : List MsgRef := []
  msgRevokeList : List MsgRef := []
  newMsgRevokeList : List MsgRef := []
  reactionMsgModifierList : List MsgRef := []
  reactionMsgDeleterList : List MsgRef := []
  conversationSet : GoMap LocalConversation := []
  effects : List Effect := []
  nextPtr : Nat := 0
  deriving DecidableEq, Repr

/-- The function `removeElementInList(a, e)`: pointer comparison. -/
def removeElementInList (a : List MsgRef) (e : MsgRef) : List MsgRef :=
  a.filter fun x => x.ptr ≠ e.ptr

/-- The calls of the case `ConversationUnreadNotification`. -/
def unreadNotificationEffects (E : Env) (content : String) : List Effect :=
  let unreadArgs := E.unmarshalConversationUpdateTips content
  (unreadArgs.1.flatMap fun id =>
    [Effect.doUpdateConversation (ConCmd.UnreadCountSetZero id),
     Effect.DeleteConversationUnreadMessageList id unreadArgs.2]) ++
  [Effect.doUpdateConversation (ConCmd.ConChange unreadArgs.1)]

/-- The first `switch` on the content type in `doMsgNew`: the calls it makes and
whether it ends the iteration with `continue`. -/
def contentSwitch (K : Constants) (E : Env) (v : MsgData) (msg : MsgStruct) :
    List Effect × Bool :=
  if v.ContentType = K.ConversationChangeNotification ∨
      v.ContentType = K.ConversationPrivateChatNotification then
    ([Effect.conversationDoNotification v], false)
  else if v.ContentType = K.MsgDeleteNotification then ([], false)
  else if v.ContentType = K.SuperGroupUpdateNotification then
    ([Effect.superGroupDoNotification v], true)
  else if v.ContentType = K.ConversationUnreadNotification then
    (unreadNotificationEffects E msg.Content, true)
  else if v.ContentType = K.BusinessNotification then
    ([Effect.businessDoNotification msg.Content], true)
  else ([], false)

/-- The first `switch` on the content type in `doSuperGroupMsgNew`. -/
def superContentSwitch (K : Constants) (E : Env) (v : MsgData) (msg : MsgStruct) :
    List Effect × Bool :=
  if v.ContentType = K.ConversationChangeNotification ∨
      v.ContentType = K.ConversationPrivateChatNotification then
    ([Effect.conversationDoNotification v], false)
  else if v.ContentType = K.SuperGroupUpdateNotification then
    ([Effect.superGroupDoNotification v], false)
  else if v.ContentType = K.ConversationUnreadNotification then
    (unreadNotificationEffects E msg.Content, true)
  else if v.ContentType = K.BusinessNotification then
    ([Effect.businessDoNotification msg.Content], true)
  else ([], false)

/-- The `switch v.SessionType` that routes notifications (the same text in both
methods): the calls it makes and whether it ends the iteration with `continue`. -/
def sessionSwitch (K : Constants) (v : MsgData) (msg : MsgStruct) : List Effect × Bool :=
  if v.SessionType = K.SingleChatType then
    if v.ContentType > K.FriendNotificationBegin ∧ v.ContentType < K.FriendNotificationEnd then
      ([Effect.friendDoNotification v], false)
    else if v.ContentType > K.UserNotificationBegin ∧ v.ContentType < K.UserNotificationEnd then
      ([Effect.userDoNotification v], false)
    else if v.ContentType = K.GroupApplicationRejectedNotification ∨
        v.ContentType = K.GroupApplicationAcceptedNotification ∨
        v.ContentType = K.JoinGroupApplicationNotification then
      ([Effect.groupDoNotification v], false)
    else if v.ContentType > K.SignalingNotificationBegin ∧
        v.ContentType < K.SignalingNotificationEnd then
      ([Effect.signalingDoNotification v], true)
    else if v.ContentType = K.WorkMomentNotification then
      ([Effect.workMomentsDoNotification msg.Content], false)
    else ([], false)
  else if v.SessionType = K.GroupChatType ∨ v.SessionType = K.SuperGroupChatType then
    if v.ContentType > K.GroupNotificationBegin ∧ v.ContentType < K.GroupNotificationEnd then
      ([Effect.groupDoNotification v], false)
    else if v.ContentType > K.SignalingNotificationBegin ∧
        v.ContentType < K.SignalingNotificationEnd then
      ([Effect.signalingDoNotification v], true)
    else ([], false)
  else ([], false)

/-- The provisional conversation record built for an own message that is not in the
store (sent through another terminal). -/
def senderConversation (K : Constants) (E : Env) (v : MsgData) (msg : MsgStruct) :
    LocalConversation :=
  let lc : LocalConversation :=
    { ConversationType := v.SessionType
      LatestMsg := E.msgToJson msg
      LatestMsgSendTime := msg.SendTime }
  if v.SessionType = K.SingleChatType then
    { lc with
      ConversationID := E.GetConversationIDBySessionType v.RecvID K.SingleChatType
      UserID := v.RecvID }
  else if v.SessionType = K.GroupChatType then
    { lc with
      GroupID := v.GroupID
      ConversationID := E.GetConversationIDBySessionType v.GroupID K.GroupChatType }
  else if v.SessionType = K.SuperGroupChatType then
    { lc with
      GroupID := v.GroupID
      ConversationID := E.GetConversationIDBySessionType v.GroupID K.SuperGroupChatType }
  else lc

/-- The provisional conversation record built for a message of another user that is
not in the store, before the unread decision. -/
def receiverConversation (K : Constants) (E : Env) (v : MsgData) (msg : MsgStruct) :
    LocalConversation :=
  let lc : LocalConversation :=
    { ConversationType := v.SessionType
      LatestMsg := E.msgToJson msg
      LatestMsgSendTime := msg.SendTime }
  if v.SessionType = K.SingleChatType then
    { lc with
      ConversationID := E.GetConversationIDBySessionType v.SendID K.SingleChatType
      UserID := v.SendID
      ShowName := msg.SenderNickname
      FaceURL := msg.SenderFaceURL }
  else if v.SessionType = K.GroupChatType then
    { lc with
      GroupID := v.GroupID
      ConversationID := E.GetConversationIDBySessionType v.GroupID K.GroupChatType }
  else if v.SessionType = K.SuperGroupChatType then
    { lc with
      GroupID := v.GroupID
      ConversationID := E.GetConversationIDBySessionType v.GroupID K.SuperGroupChatType }
  else if v.SessionType = K.NotificationChatType then
    { lc with
      ConversationID := E.GetConversationIDBySessionType v.SendID K.NotificationChatType
      UserID := v.SendID }
  else lc

/-- The unread decision of the receiver branch: whether the message passes
`isUnreadCount` and `msg.SendTime > cacheConversation.UpdateUnreadCountTime`. -/
def unreadGate (E : Env) (v : MsgData) (msg : MsgStruct) (lc : LocalConversation) : Bool :=
  v.Options.IsUnreadCount &&
    decide (msg.SendTime > (E.GetConversation lc.ConversationID).UpdateUnreadCountTime)

/-- The last `switch msg.ContentType` of the sender branch. -/
def senderDispatch (K : Constants) (s : BatchState) (m : MsgRef) : BatchState :=
  if m.val.ContentType = K.Revoke then { s with msgRevokeList := s.msgRevokeList ++ [m] }
  else if m.val.ContentType = K.HasReadReceipt then
    { s with msgReadList := s.msgReadList ++ [m] }
  else if m.val.ContentType = K.GroupHasReadReceipt then
    { s with groupMsgReadList := s.groupMsgReadList ++ [m] }
  else if m.val.ContentType = K.AdvancedRevoke then
    { s with
      newMsgRevokeList := s.newMsgRevokeList ++ [m]
      newMessages := removeElementInList s.newMessages m }
  else if m.val.ContentType = K.ReactionMessageModifier then
    { s with reactionMsgModifierList := s.reactionMsgModifierList ++ [m] }
  else if m.val.ContentType = K.ReactionMessageDeleter then
    { s with reactionMsgDeleterList := s.reactionMsgDeleterList ++ [m] }
  else s

/-- The last `switch msg.ContentType` of the receiver branch of `doMsgNew`. -/
def receiverDispatch (K : Constants) (v : MsgData) (s : BatchState) (m : MsgRef) : BatchState :=
  if m.val.ContentType = K.Revoke then { s with msgRevokeList := s.msgRevokeList ++ [m] }
  else if m.val.ContentType = K.HasReadReceipt then
    { s with msgReadList := s.msgReadList ++ [m] }
  else if m.val.ContentType = K.GroupHasReadReceipt then
    { s with groupMsgReadList := s.groupMsgReadList ++ [m] }
  else if m.val.ContentType = K.Typing then { s with newMessages := s.newMessages ++ [m] }
  else if m.val.ContentType = K.CustomMsgOnlineOnly then
    { s with newMessages := s.newMessages ++ [m] }
  else if m.val.ContentType = K.CustomMsgNotTriggerConversation then
    { s with newMessages := s.newMessages ++ [m] }
  else if m.val.ContentType = K.OANotification then
    if !v.Options.IsConversationUpdate then { s with newMessages := s.newMessages ++ [m] }
    else s
  else if m.val.ContentType = K.AdvancedRevoke then
    { s with
      newMsgRevokeList := s.newMsgRevokeList ++ [m]
      newMessages := removeElementInList s.newMessages m }
  else if m.val.ContentType = K.ReactionMessageModifier then
    { s with reactionMsgModifierList := s.reactionMsgModifierList ++ [m] }
  else if m.val.ContentType = K.ReactionMessageDeleter then
    { s with reactionMsgDeleterList := s.reactionMsgDeleterList ++ [m] }
  else s

/-- The last `switch msg.ContentType` of the receiver branch of `doSuperGroupMsgNew`: the
cases of `doMsgNew`, with the case `Typing` after the case `OANotification`. -/
def superReceiverDispatch (K : Constants) (v : MsgData) (s : BatchState) (m : MsgRef) :
    BatchState :=
  if m.val.ContentType = K.Revoke then { s with msgRevokeList := s.msgRevokeList ++ [m] }
  else if m.val.ContentType = K.HasReadReceipt then
    { s with msgReadList := s.msgReadList ++ [m] }
  else if m.val.ContentType = K.GroupHasReadReceipt then
    { s with groupMsgReadList := s.groupMsgReadList ++ [m] }
  else if m.val.ContentType = K.CustomMsgOnlineOnly then
    { s with newMessages := s.newMessages ++ [m] }
  else if m.val.ContentType = K.CustomMsgNotTriggerConversation then
    { s with newMessages := s.newMessages ++ [m] }
  else if m.val.ContentType = K.OANotification then
    if !v.Options.IsConversationUpdate then { s with newMessages := s.newMessages ++ [m] }
    else s
  else if m.val.ContentType = K.Typing then { s with newMessages := s.newMessages ++ [m] }
  else if m.val.ContentType = K.AdvancedRevoke then
    { s with
      newMsgRevokeList := s.newMsgRevokeList ++ [m]
      newMessages := removeElementInList s.newMessages m }
  else if m.val.ContentType = K.ReactionMessageModifier then
    { s with reactionMsgModifierList := s.reactionMsgModifierList ++ [m] }
  else if m.val.ContentType = K.ReactionMessageDeleter then
    { s with reactionMsgDeleterList := s.reactionMsgDeleterList ++ [m] }
  else s

/-- The branch of an own message that is not in the store (the same text in both
methods). `ptr` is the allocation of `msg`. -/
def senderNotFound (K : Constants) (E : Env) (s : BatchState) (v : MsgData) (ptr : Nat)
    (msg : MsgStruct) : BatchState :=
  let lc := senderConversation K E v msg
  let s1 : BatchState :=
    if v.Options.IsConversationUpdate then
      { s with
        conversationSet :=
          if v.Options.IsSenderConversationUpdate then updateConversation lc s.conversationSet
          else s.conversationSet
        newMessages := s.newMessages ++ [⟨ptr, msg⟩] }
    else s
  let msg1 : MsgStruct :=
    if v.Options.IsConversationUpdate then msg else { msg with Status := K.MsgStatusFiltered }
  let s2 : BatchState :=
    if v.Options.IsHistory then
      { s1 with insertMsg := s1.insertMsg ++ [msgStructToLocalChatLog K msg1] }
    else s1
  senderDispatch K s2 ⟨ptr, msg1⟩

/-- The branch of `doMsgNew` for a message of another user that is not in the store. -/
def receiverNotFound (K : Constants) (E : Env) (s : BatchState) (v : MsgData) (ptr : Nat)
    (msg : MsgStruct) : BatchState :=
  let lc0 := receiverConversation K E v msg
  let gate := unreadGate E v msg lc0
  let lc : LocalConversation := if gate then { lc0 with UnreadCount := 1 } else lc0
  let s0 : BatchState :=
    if gate then
      { s with
        isTriggerUnReadCount := true
        unreadMessages := s.unreadMessages ++
          [{ ConversationID := lc.ConversationID, ClientMsgID := msg.ClientMsgID,
             SendTime := msg.SendTime }] }
    else s
  let s1 : BatchState :=
    if v.Options.IsConversationUpdate then
      { s0 with
        conversationSet := updateConversation lc s0.conversationSet
        newMessages := s0.newMessages ++ [⟨ptr, msg⟩] }
    else s0
  let msg1 : MsgStruct :=
    if v.Options.IsConversationUpdate then msg else { msg with Status := K.MsgStatusFiltered }
  let s2 : BatchState :=
    if v.Options.IsHistory then
      { s1 with insertMsg := s1.insertMsg ++ [msgStructToLocalChatLog K msg1] }
    else s1
  receiverDispatch K v s2 ⟨ptr, msg1⟩

/-- The branch of `doSuperGroupMsgNew` for a message of another user that is not in the
store: the text of `doMsgNew` up to the order of the cases of the last `switch`. -/
def superReceiverNotFound (K : Constants) (E : Env) (s : BatchState) (v : MsgData) (ptr : Nat)
    (msg : MsgStruct) : BatchState :=
  let lc0 := receiverConversation K E v msg
  let gate := unreadGate E v msg lc0
  let lc : LocalConversation := if gate then { lc0 with UnreadCount := 1 } else lc0
  let s0 : BatchState :=
    if gate then
      { s with
        isTriggerUnReadCount := true
        unreadMessages := s.unreadMessages ++
          [{ ConversationID := lc.ConversationID, ClientMsgID := msg.ClientMsgID,
             SendTime := msg.SendTime }] }
    else s
  let s1 : BatchState :=
    if v.Options.IsConversationUpdate then
      { s0 with
        conversationSet := updateConversation lc s0.conversationSet
        newMessages := s0.newMessages ++ [⟨ptr, msg⟩] }
    else s0
  let msg1 : MsgStruct :=
    if v.Options.IsConversationUpdate then msg else { msg with Status := K.MsgStatusFiltered }
  let s2 : BatchState :=
    if v.Options.IsHistory then
      { s1 with insertMsg := s1.insertMsg ++ [msgStructToLocalChatLog K msg1] }
    else s1
  superReceiverDispatch K v s2 ⟨ptr, msg1⟩

/-- Classification in `doMsgNew`, from `if v.SendID == c.loginUserID` on. -/
def classify (K : Constants) (E : Env) (s : BatchState) (v : MsgData) (ptr : Nat)
    (msg : MsgStruct) : BatchState :=
  if v.SendID = E.loginUserID then
    match E.GetMessageController msg with
    | some m =>
      if m.Seq = 0 then
        let msg1 : MsgStruct :=
          if !v.Options.IsConversationUpdate then { msg with Status := K.MsgStatusFiltered }
          else msg
        { s with updateMsg := s.updateMsg ++ [msgStructToLocalChatLog K msg1] }
      else { s with exceptionMsg := s.exceptionMsg ++ [msgStructToLocalErrChatLog K msg] }
    | none => senderNotFound K E s v ptr msg
  else
    match E.GetMessageController msg with
    | none => receiverNotFound K E s v ptr msg
    | some _ => { s with exceptionMsg := s.exceptionMsg ++ [msgStructToLocalErrChatLog K msg] }

/-- Classification in `doSuperGroupMsgNew`, from `if v.SendID == c.loginUserID` on. -/
def superClassify (K : Constants) (E : Env) (s : BatchState) (v : MsgData) (ptr : Nat)
    (msg : MsgStruct) : BatchState :=
  if v.SendID = E.loginUserID then
    match E.GetMessageController msg with
    | some m =>
      if m.Seq = 0 then
        if m.CreateTime = 0 then
          { s with specialUpdateMsg := s.specialUpdateMsg ++ [msgStructToLocalChatLog K msg] }
        else
          let msg1 : MsgStruct :=
            if !v.Options.IsConversationUpdate then { msg with Status := K.MsgStatusFiltered }
            else msg
          { s with updateMsg := s.updateMsg ++ [msgStructToLocalChatLog K msg1] }
      else { s with exceptionMsg := s.exceptionMsg ++ [msgStructToLocalErrChatLog K msg] }
    | none => senderNotFound K E s v ptr msg
  else
    match E.GetMessageController msg with
    | none => superReceiverNotFound K E s v ptr msg
    | some oldMessage =>
      if oldMessage.Seq = 0 then
        { s with specialUpdateMsg := s.specialUpdateMsg ++ [msgStructToLocalChatLog K msg] }
      else { s with exceptionMsg := s.exceptionMsg ++ [msgStructToLocalErrChatLog K msg] }

/-- How the head of an iteration ends: with the has-deleted short-circuit, a decode
error, an empty client message id, or a working copy ready for routing. -/
inductive Prepared where
  | hasDeleted (msg : MsgStruct)
  | decodeError
  | emptyID (msg : MsgStruct)
  | ok (msg : MsgStruct)
  deriving DecidableEq, Repr

/-- The head of an iteration, the same text in both methods: copy, has-deleted check,
status and read flag, decoding, attached-info marks, empty-id check. -/
def prepare (K : Constants) (E : Env) (v : MsgData) : Prepared :=
  if (copyMsg v).Status = K.MsgStatusHasDeleted then Prepared.hasDeleted (copyMsg v)
  else
    match msgHandleByContentType K E
        { copyMsg v with Status := K.MsgStatusSendSuccess, IsRead := false } with
    | none => Prepared.decodeError
    | some decoded =>
      if (markAttachedInfo E v decoded).ClientMsgID = "" then
        Prepared.emptyID (markAttachedInfo E v decoded)
      else Prepared.ok (markAttachedInfo E v decoded)

/-- The two notification switches in sequence: the calls made and whether one of them
ends the iteration with `continue`. `switch1` is the first switch of the method. -/
def route (K : Constants) (switch1 : MsgData → MsgStruct → List Effect × Bool)
    (v : MsgData) (msg : MsgStruct) : List Effect × Bool :=
  if (switch1 v msg).2 then ((switch1 v msg).1, true)
  else ((switch1 v msg).1 ++ (sessionSwitch K v msg).1, (sessionSwitch K v msg).2)

/-- One iteration of the inner loop; `switch1` and `classifier` are the first switch
and the classification of the method. -/
def loopBody (K : Constants) (E : Env)
    (switch1 : MsgData → MsgStruct → List Effect × Bool)
    (classifier : BatchState → MsgData → Nat → MsgStruct → BatchState)
    (s : BatchState) (v : MsgData) : BatchState :=
  match prepare K E v with
  | Prepared.hasDeleted msg =>
    { s with
      nextPtr := s.nextPtr + 1
      insertMsg := s.insertMsg ++ [msgStructToLocalChatLog K msg] }
  | Prepared.decodeError => { s with nextPtr := s.nextPtr + 1 }
  | Prepared.emptyID msg =>
    { s with
      nextPtr := s.nextPtr + 1
      exceptionMsg := s.exceptionMsg ++ [msgStructToLocalErrChatLog K msg] }
  | Prepared.ok msg =>
    if (route K switch1 v msg).2 then
      { s with nextPtr := s.nextPtr + 1, effects := s.effects ++ (route K switch1 v msg).1 }
    else
      classifier
        { s with nextPtr := s.nextPtr + 1, effects := s.effects ++ (route K switch1 v msg).1 }
        v s.nextPtr msg

/-- One iteration of the inner loop of `doMsgNew` on the inbound message `v`. -/
def doMsgNewStep (K : Constants) (E : Env) (s : BatchState) (v : MsgData) : BatchState :=
  loopBody K E (contentSwitch K E) (classify K E) s v

/-- One iteration of the inner loop of `doSuperGroupMsgNew` on the inbound message `v`. -/
def doSuperGroupMsgNewStep (K : Constants) (E : Env) (s : BatchState) (v : MsgData) :
    BatchState :=
  loopBody K E (superContentSwitch K E) (superClassify K E) s v

/-- The two nested loops of `doMsgNew` over `allMsg`. -/
def doMsgNewLoop (K : Constants) (E : Env) (allMsg : List (List MsgData)) : BatchState :=
  allMsg.flatten.foldl (doMsgNewStep K E) {}

/-- The two nested loops of `doSuperGroupMsgNew` over `allMsg`. -/
def doSuperGroupMsgNewLoop (K : Constants) (E : Env) (allMsg : List (List MsgData)) :
    BatchState :=
  allMsg.flatten.foldl (doSuperGroupMsgNewStep K E) {}

/-! ## Which messages reach the aggregator -/

/-- The working copy with which the iteration on `v` enters classification
(`if v.SendID == c.loginUserID`), or `none` when the iteration ends before: status
has-deleted, decode error, empty client message id, or a `continue` in one of the two
notification switches. -/
def classified (K : Constants) (E : Env)
    (switch1 : MsgData → MsgStruct → List Effect × Bool) (v : MsgData) : Option MsgStruct :=
  match prepare K E v with
  | Prepared.ok msg => if (route K switch1 v msg).2 then none else some msg
  | _ => none

/-- The record that the not-found branches hand to `updateConversation`, if any. -/
def foldedRecord (K : Constants) (E : Env) (v : MsgData) (msg : MsgStruct) :
    Option LocalConversation :=
  if v.SendID = E.loginUserID then
    if v.Options.IsConversationUpdate ∧ v.Options.IsSenderConversationUpdate then
      some (senderConversation K E v msg)
    else none
  else if v.Options.IsConversationUpdate then
    some (if unreadGate E v msg (receiverConversation K E v msg) then
        { receiverConversation K E v msg with UnreadCount := 1 }
      else receiverConversation K E v msg)
  else none

/-- The record that the iteration on `v` folds into the conversation set, if any: the
message reaches classification, is not in the store, and its options ask for a
conversation update. -/
def aggregated (K : Constants) (E : Env)
    (switch1 : MsgData → MsgStruct → List Effect × Bool) (v : MsgData) :
    Option LocalConversation :=
  match classified K E switch1 v with
  | none => none
  | some msg =>
    match E.GetMessageController msg with
    | some _ => none
    | none => foldedRecord K E v msg

/-- The conversation id of an inbound message of another user. -/
def receiverConversationID (K : Constants) (E : Env) (v : MsgData) : String :=
  if v.SessionType = K.SingleChatType then
    E.GetConversationIDBySessionType v.SendID K.SingleChatType
  else if v.SessionType = K.GroupChatType then
    E.GetConversationIDBySessionType v.GroupID K.GroupChatType
  else if v.SessionType = K.SuperGroupChatType then
    E.GetConversationIDBySessionType v.GroupID K.SuperGroupChatType
  else if v.SessionType = K.NotificationChatType then
    E.GetConversationIDBySessionType v.SendID K.NotificationChatType
  else ""

/-- The three conditions of the unread decision, on the inbound message: sender other
than the login user, `IsUnreadCount` set, send time above the read watermark of the
cached conversation of the message. -/
def passesUnreadGating (K : Constants) (E : Env) (v : MsgData) : Bool :=
  decide (v.SendID ≠ E.loginUserID) && v.Options.IsUnreadCount &&
    decide (v.SendTime >
      (E.GetConversation (receiverConversationID K E v)).UpdateUnreadCountTime)

/-- Whether the iteration on `v` adds one to the unread count of conversation `c`: the
message passes the unread gating, belongs to `c`, reaches classification, is not in
the store and has `IsConversationUpdate` set. -/
def countsUnread (K : Constants) (E : Env)
    (switch1 : MsgData → MsgStruct → List Effect × Bool) (c : String) (v : MsgData) : Bool :=
  match classified K E switch1 v with
  | none => false
  | some msg =>
    (E.GetMessageController msg).isNone && v.Options.IsConversationUpdate &&
      passesUnreadGating K E v && decide (receiverConversationID K E v = c)

/-- Unread count of conversation `c` in the local conversation list; 0 when the list
has no row for `c`. -/
def unreadBefore (E : Env) (c : String) : GoInt32 :=
  match (listToMap E.GetAllConversationListDB).get? c with
  | some l => l.UnreadCount
  | none => 0

/-- The count of the unread-correctness property as the specification words it: the
messages of the batch that belong to `c`, are sent by another user, have
`IsUnreadCount` set and a send time above the read watermark of `c`. -/
def claimedUnreadCount (K : Constants) (E : Env) (allMsg : List (List MsgData)) (c : String) :
    Nat :=
  allMsg.flatten.countP fun m =>
    decide (receiverConversationID K E m = c) && decide (m.SendID ≠ E.loginUserID) &&
      m.Options.IsUnreadCount &&
      decide (m.SendTime > (E.GetConversation c).UpdateUnreadCountTime)

/-- Well-formedness of a conversation map, as every map of the pipeline is built: one
binding a key, each conversation under its own id. -/
def KeyedByID (m : GoMap LocalConversation) : Prop :=
  m.keys.Nodup ∧ ∀ p ∈ m, p.2.ConversationID = p.1

/-- A classifier changes the conversation set as the not-found branches prescribe. -/
def FoldsAs (K : Constants) (E : Env)
    (classifier : BatchState → MsgData → Nat → MsgStruct → BatchState) : Prop :=
  ∀ s v ptr msg, (classifier s v ptr msg).conversationSet =
    (match E.GetMessageController msg with
     | some _ => s.conversationSet
     | none =>
       match foldedRecord K E v msg with
       | some lc => updateConversation lc s.conversationSet
       | none => s.conversationSet)

/-- Unread count that a conversation set holds for conversation `c`; 0 without an entry. -/
def unreadOf (m : GoMap LocalConversation) (c : String) : GoInt32 :=
  match m.get? c with
  | some e => e.UnreadCount
  | none => 0

/-! ## Commit phases and conversation-update commands -/

/-- The per-row fallback after a failed batch insert: the exception rows it adds, in
order. `done` are the rows attempted before. -/
def insertFallback (E : Env) : (done rows : List LocalChatLog) → List LocalErrChatLog
  | _, [] => []
  | done, v :: rest =>
    (if E.InsertMessageControllerOk done v then [] else [chatLogToErrChatLog v]) ++
      insertFallback E (done ++ [v]) rest

/-- What a run of `doMsgNew` or `doSuperGroupMsgNew` computes up to the calls of the
post-commit dispatchers and the final conversation-update commands. -/
structure BatchResult where
  /-- Variables at the end of the loop. -/
  loop : BatchState
  /-- Exception bucket after the insert fallback. -/
  exceptionMsg : List LocalErrChatLog
  /-- Changed set filled by `diff`. -/
  conversationChangedSet : GoMap LocalConversation
  /-- New set as `diff` filled it, before the hidden overlay. -/
  diffNewConversationSet : GoMap LocalConversation
  /-- New set after the hidden overlay wrote through its pointers. -/
  newConversationSet : GoMap LocalConversation
  /-- Hidden conversations moved to the changed side. -/
  phConversationChangedSet : GoMap LocalConversation
  /-- New conversations that are not hidden. -/
  phNewConversationSet : GoMap LocalConversation
  /-- Store calls of the commit phases, in program order. -/
  storeCalls : List Effect
  /-- Commands passed to `doUpdateConversation` at the end of the method, in order. -/
  commands : List ConCmd
  deriving DecidableEq, Repr

/-- The calls of the insert phase: the batch insert and, when it fails, one insert a row. -/
def insertCalls (E : Env) (insertMsg : List LocalChatLog) : List Effect :=
  Effect.BatchInsertMessageListController insertMsg ::
    (if E.BatchInsertMessageListControllerOk insertMsg then []
     else insertMsg.map Effect.InsertMessageController)

/-- The final commands: `NewConDirect` when the new set is not empty, `ConChangeDirect`
when the changed set is not empty, `TotalUnreadMessageChanged` when an unread increment
was triggered. -/
def conversationCommands (newConversationSet conversationChangedSet : GoMap LocalConversation)
    (isTriggerUnReadCount : Bool) : List ConCmd :=
  (if newConversationSet.length > 0 then
      [ConCmd.NewConDirect (mapConversationToList newConversationSet)] else []) ++
  (if conversationChangedSet.length > 0 then
      [ConCmd.ConChangeDirect (mapConversationToList conversationChangedSet)] else []) ++
  (if isTriggerUnReadCount then [ConCmd.TotalUnreadMessageChanged] else [])

/-- The part of both methods from `diff` to the final commands; `messageUpdates` are
the calls that precede the insert phase (they differ between the two methods). -/
def commit (K : Constants) (E : Env) (messageUpdates : List Effect) (s : BatchState) :
    BatchResult :=
  let d := diff K E (listToMap E.GetAllConversationListDB) s.conversationSet [] []
  let exceptionMsg :=
    if E.BatchInsertMessageListControllerOk s.insertMsg then s.exceptionMsg
    else s.exceptionMsg ++ insertFallback E [] s.insertMsg
  let o := hiddenOverlay E.GetHiddenConversationList d.nc
  let phNew := phNewOf o.newConversationSet o.phConversationChangedSet
  { loop := s
    exceptionMsg := exceptionMsg
    conversationChangedSet := d.cc
    diffNewConversationSet := d.nc
    newConversationSet := o.newConversationSet
    phConversationChangedSet := o.phConversationChangedSet
    phNewConversationSet := phNew
    storeCalls :=
      messageUpdates ++ insertCalls E s.insertMsg ++
      [Effect.BatchInsertExceptionMsgController exceptionMsg,
       Effect.BatchUpdateConversationList
         (mapConversationToList d.cc ++ mapConversationToList o.phConversationChangedSet),
       Effect.BatchInsertConversationList (mapConversationToList phNew),
       Effect.BatchInsertConversationUnreadMessageList s.unreadMessages]
    commands := conversationCommands o.newConversationSet d.cc s.isTriggerUnReadCount }

/-- The method `doMsgNew` on the batches `allMsg`. -/
def doMsgNew (K : Constants) (E : Env) (allMsg : List (List MsgData)) : BatchResult :=
  let s := doMsgNewLoop K E allMsg
  commit K E [Effect.BatchUpdateMessageList s.updateMsg] s

/-- The method `doSuperGroupMsgNew` on the batches `allMsg`. -/
def doSuperGroupMsgNew (K : Constants) (E : Env) (allMsg : List (List MsgData)) : BatchResult :=
  let s := doSuperGroupMsgNewLoop K E allMsg
  commit K E
    [Effect.BatchSpecialUpdateMessageList s.specialUpdateMsg,
     Effect.BatchUpdateMessageList s.updateMsg] s

/-- The rows handed to `BatchUpdateConversationList`. -/
def BatchResult.updatedConversations (r : BatchResult) : List LocalConversation :=
  mapConversationToList r.conversationChangedSet ++
    mapConversationToList r.phConversationChangedSet

/-- The rows handed to `BatchInsertConversationList`. -/
def BatchResult.insertedConversations (r : BatchResult) : List LocalConversation :=
  mapConversationToList r.phNewConversationSet

/-- The persistence phases of the commit, one name a kind of store call. -/
inductive Phase where
  | updateMessages
  | specialUpdateMessages
  | insertMessages
  | insertOneMessage
  | insertExceptions
  | updateConversations
  | insertConversations
  | insertUnreadRows
  | other
  deriving DecidableEq, Repr

/-- The phase a call belongs to. -/
def phaseOf : Effect → Phase
  | Effect.BatchUpdateMessageList _ => Phase.updateMessages
  | Effect.BatchSpecialUpdateMessageList _ => Phase.specialUpdateMessages
  | Effect.BatchInsertMessageListController _ => Phase.insertMessages
  | Effect.InsertMessageController _ => Phase.insertOneMessage
  | Effect.BatchInsertExceptionMsgController _ => Phase.insertExceptions
  | Effect.BatchUpdateConversationList _ => Phase.updateConversations
  | Effect.BatchInsertConversationList _ => Phase.insertConversations
  | Effect.BatchInsertConversationUnreadMessageList _ => Phase.insertUnreadRows
  | _ => Phase.other

/-- The rows of the per-row inserts among the calls, in call order. -/
def singleInserts (calls : List Effect) : List LocalChatLog :=
  calls.filterMap fun e =>
    match e with
    | Effect.InsertMessageController row => some row
    | _ => none

/-- The rows of the insert bucket whose individual insert fails, in bucket order: row
number `i` is attempted after the rows before it. -/
def failedInserts (E : Env) (rows : List LocalChatLog) : List LocalChatLog :=
  ((rows.inits.zip rows).filter fun p => !E.InsertMessageControllerOk p.1 p.2).map Prod.snd

/-! ## Dispatchers called after the commit -/

/-- The function `isContainRevokedList(target, List)`: the first element with the client
message id `target`; `none` is `(false, nil)`. -/
def isContainRevokedList (target : String) : List MessageRevoked → Option MessageRevoked
  | [] => none
  | element :: rest =>
    if target = element.ClientMsgID then some element else isContainRevokedList target rest

/-- The method `QuoteMsgRevokeHandle(ctx, v, revokeMsgIDList)`: the row `v` as the call
leaves it, and the store calls it makes. -/
def QuoteMsgRevokeHandle (K : Constants) (E : Env) (v : LocalChatLog)
    (revokeMsgIDList : List MessageRevoked) : LocalChatLog × List Effect :=
  match (E.jsonToQuoteElem v.Content).QuoteMessage with
  | none => (v, [])
  | some quoteMessage =>
    match isContainRevokedList quoteMessage.ClientMsgID revokeMsgIDList with
    | none => (v, [])
    | some revokeMessage =>
      (let v1 : LocalChatLog :=
        { v with
          Content := E.quoteElemToJson
            { E.jsonToQuoteElem v.Content with
              QuoteMessage := some
                { quoteMessage with
                  Content := E.messageRevokedToJson revokeMessage
                  ContentType := K.AdvancedRevoke } } }
      (v1, [Effect.UpdateMessageController v1]))

/-- The local variables of `newRevokeMessage` and the calls made so far. -/
structure RevokeState where
  failedRevokeMessageList : List MsgStruct := []
  superGroupIDList : List String := []
  revokeMessageRevoked : List MessageRevoked := []
  superGroupRevokeMessageRevoked : List MessageRevoked := []
  effects : List Effect := []
  deriving DecidableEq, Repr

/-- The row `t` with which `newRevokeMessage` marks the target of the payload `msg` of
the revoke message `w` as revoked. -/
def revokeTarget (K : Constants) (w : MsgStruct) (msg : MessageRevoked) : LocalChatLog :=
  { ClientMsgID := msg.ClientMsgID
    Status := K.MsgStatusRevoked
    SessionType := msg.SessionType
    RecvID := w.GroupID }

/-- The second row `t` of `newRevokeMessage`: the send time of the revoke message itself
becomes the send time of the revoked message. -/
def revokeSelf (w : MsgStruct) (msg : MessageRevoked) : LocalChatLog :=
  { ClientMsgID := w.ClientMsgID
    SendTime := msg.SourceMessageSendTime
    SessionType := w.SessionType
    RecvID := w.GroupID }

/-- One iteration of the loop of `newRevokeMessage` on the revoke message `w`. -/
def newRevokeStep (K : Constants) (E : Env) (st : RevokeState) (w : MsgStruct) : RevokeState :=
  match E.jsonToMessageRevoked w.Content with
  | none => st
  | some msg =>
    if E.UpdateMessageControllerOk st.effects (revokeTarget K w msg) = false then
      { st with
        failedRevokeMessageList := st.failedRevokeMessageList ++ [w]
        effects := st.effects ++ [Effect.UpdateMessageController (revokeTarget K w msg)] ++
          (if msg.SessionType = K.SuperGroupChatType then
            [Effect.InsertMessageController (revokeTarget K w msg)]
          else []) }
    else
      { st with
        effects := st.effects ++
          [Effect.UpdateMessageController (revokeTarget K w msg),
           Effect.UpdateMessageController (revokeSelf w msg)] ++
          (if E.msgListenerSet then [Effect.OnNewRecvMessageRevoked w.Content] else [])
        revokeMessageRevoked :=
          if msg.SessionType ≠ K.SuperGroupChatType then st.revokeMessageRevoked ++ [msg]
          else st.revokeMessageRevoked
        superGroupIDList :=
          if msg.SessionType ≠ K.SuperGroupChatType then st.superGroupIDList
          else if w.RecvID ∈ st.superGroupIDList then st.superGroupIDList
          else st.superGroupIDList ++ [w.GroupID]
        superGroupRevokeMessageRevoked :=
          if msg.SessionType ≠ K.SuperGroupChatType then st.superGroupRevokeMessageRevoked
          else st.superGroupRevokeMessageRevoked ++ [msg] }

/-- The store calls of `QuoteMsgRevokeHandle` over the rows of one search result. -/
def quoteRevokeCalls (K : Constants) (E : Env) (msgList : List LocalChatLog)
    (revoked : List MessageRevoked) : List Effect :=
  msgList.flatMap fun v => (QuoteMsgRevokeHandle K E v revoked).2

/-- The method `newRevokeMessage(ctx, msgRevokeList)`: the calls it makes, in order. -/
def newRevokeMessage (K : Constants) (E : Env) (msgRevokeList : List MsgStruct) : List Effect :=
  let st := msgRevokeList.foldl (newRevokeStep K E) {}
  st.effects ++
  (if st.revokeMessageRevoked.length > 0 then
    quoteRevokeCalls K E (E.SearchAllMessageByContentType K.Quote) st.revokeMessageRevoked
  else []) ++
  st.superGroupIDList.flatMap fun superGroupID =>
    quoteRevokeCalls K E (E.SuperGroupSearchAllMessageByContentType superGroupID K.Quote)
      st.superGroupRevokeMessageRevoked

/-- The call `c.newRevokeMessage(ctx, newMsgRevokeList)` of `doMsgNew`. -/
def doMsgNewRevokeCalls (K : Constants) (E : Env) (allMsg : List (List MsgData)) : List Effect :=
  newRevokeMessage K E ((doMsgNewLoop K E allMsg).newMsgRevokeList.map (·.val))

/-- The call `c.newRevokeMessage(ctx, newMsgRevokeList)` of `doSuperGroupMsgNew`. -/
def doSuperGroupMsgNewRevokeCalls (K : Constants) (E : Env) (allMsg : List (List MsgData)) :
    List Effect :=
  newRevokeMessage K E ((doSuperGroupMsgNewLoop K E allMsg).newMsgRevokeList.map (·.val))

/-- Whether the calls end in the run-time error of a call on the nil listener. -/
def panicked (calls : List Effect) : Bool := decide (Effect.nilListenerCall ∈ calls)

/-- The calls `done` followed by the calls `next` of the code after them, which runs
only when `done` did not end in the run-time error. -/
def thenCalls (done next : List Effect) : List Effect :=
  if panicked done then done else done ++ next

/-- The local variables of `doMsgReadState` and the calls made so far. -/
structure ReadState where
  messageReceiptResp : List MessageReceipt := []
  chrsList : GoMap (List String) := []
  effects : List Effect := []
  deriving DecidableEq, Repr

/-- One iteration of the inner loop of `doMsgReadState` over the ids of the receipt `rd`:
the calls made so far and `msgIdListStatusOK`. -/
def readOne (E : Env) (rd : MsgStruct) (acc : List Effect × List String) (v : String) :
    List Effect × List String :=
  match E.GetMessage acc.1 v with
  | none => acc
  | some m =>
    (let m1 : LocalChatLog :=
      { m with
        AttachedInfo := E.attachedInfoToJson
          { E.jsonToAttachedInfo m.AttachedInfo with HasReadTime := rd.SendTime }
        IsRead := true }
    if E.UpdateMessageOk acc.1 m1 = false then (acc.1 ++ [Effect.UpdateMessage m1], acc.2)
    else (acc.1 ++ [Effect.UpdateMessage m1], acc.2 ++ [v]))

/-- The body of the outer loop of `doMsgReadState` on the receipt `rd`, after its content
was decoded to `msgIdList`. -/
def readStep (K : Constants) (E : Env) (st : ReadState) (rd : MsgStruct)
    (msgIdList : List String) : ReadState :=
  let r := msgIdList.foldl (readOne E rd) (st.effects, [])
  let conversationID :=
    if rd.SendID = E.loginUserID then E.GetConversationIDBySessionType rd.RecvID K.SingleChatType
    else E.GetConversationIDBySessionType rd.SendID K.SingleChatType
  let chrsList :=
    match st.chrsList.get? conversationID with
    | some v => st.chrsList.set conversationID (v ++ r.2)
    | none => st.chrsList.set conversationID r.2
  { messageReceiptResp :=
      if r.2.length > 0 then
        st.messageReceiptResp ++
          [{ ContentType := rd.ContentType, MsgFrom := rd.MsgFrom, ReadTime := rd.SendTime,
             UserID := rd.SendID, SessionType := K.SingleChatType, MsgIDList := r.2 }]
      else st.messageReceiptResp
    chrsList := chrsList
    effects := r.1 ++
      [Effect.doUpdateConversation (ConCmd.ConversationLatestMsgHasRead chrsList)] }

/-- The method `doMsgReadState` from the state `st` on: the calls it makes, in order. A
receipt whose content does not decode ends the method (`return`). The final call on
`c.msgListener` is not guarded: with a nil listener it is the run-time error. -/
def doMsgReadStateFrom (K : Constants) (E : Env) (st : ReadState) : List MsgStruct → List Effect
  | [] =>
    if st.messageReceiptResp.length > 0 then
      if E.msgListenerSet then
        st.effects ++ [Effect.OnRecvC2CReadReceipt st.messageReceiptResp]
      else st.effects ++ [Effect.nilListenerCall]
    else st.effects
  | rd :: rest =>
    match E.jsonToStringList rd.Content with
    | none => st.effects
    | some msgIdList => doMsgReadStateFrom K E (readStep K E st rd msgIdList) rest

/-- The method `doMsgReadState(ctx, msgReadList)`: the calls it makes, in order. -/
def doMsgReadState (K : Constants) (E : Env) (msgReadList : List MsgStruct) : List Effect :=
  doMsgReadStateFrom K E {} msgReadList

/-- The method `genConversationGroupAtType(lc, s)`: the record `lc` as the call leaves
it. `utils.IsContain(target, list)` is membership in the list. -/
def genConversationGroupAtType (K : Constants) (E : Env) (lc : LocalConversation)
    (s : MsgStruct) : LocalConversation :=
  if s.ContentType = K.AtText then
    if K.AtAllString ∈ s.AtElem.AtUserList then
      if E.loginUserID ∈ s.AtElem.AtUserList then { lc with GroupAtType := K.AtAllAtMe }
      else { lc with GroupAtType := K.AtAll }
    else if E.loginUserID ∈ s.AtElem.AtUserList then { lc with GroupAtType := K.AtMe }
    else lc
  else lc

/-- The first loop of `DoGroupMsgReadState` on the receipt `rd`: the ids of `rd` are
added to the bucket of its reader and group; a receipt that does not decode is
skipped. -/
def groupReadCollect (E : Env) (userMsgMap : GoMap (GoMap (List String))) (rd : MsgStruct) :
    GoMap (GoMap (List String)) :=
  match E.jsonToStringList rd.Content with
  | none => userMsgMap
  | some list =>
    match userMsgMap.get? rd.SendID with
    | some groupMap =>
      (match groupMap.get? rd.GroupID with
      | some oldMsgIDList =>
        userMsgMap.set rd.SendID (groupMap.set rd.GroupID (oldMsgIDList ++ list))
      | none => userMsgMap.set rd.SendID (groupMap.set rd.GroupID list))
    | none => userMsgMap.set rd.SendID [(rd.GroupID, list)]

/-- The attached info that `DoGroupMsgReadState` builds for `message` and a reader
`userID` other than the login user. -/
def groupReadInfo (E : Env) (userID : String) (message : LocalChatLog) : AttachedInfoElem :=
  let attachInfo := E.jsonToAttachedInfo message.AttachedInfo
  let list := E.RemoveRepeatedStringInList (attachInfo.HasReadUserIDList ++ [userID])
  { attachInfo with
    HasReadUserIDList := list
    HasReadCount := toInt32 list.length }

/-- The row `t` that `DoGroupMsgReadState` writes for `message` and the reader `userID`. -/
def groupReadRow (E : Env) (userID : String) (message : LocalChatLog) : LocalChatLog :=
  { ClientMsgID := message.ClientMsgID
    IsRead := true
    SessionType := message.SessionType
    RecvID := message.RecvID
    AttachedInfo :=
      if userID ≠ E.loginUserID then E.attachedInfoToJson (groupReadInfo E userID message)
      else "" }

/-- One iteration of `for _, message := range messages`: the calls made so far and
`successMsgIDlist`. -/
def groupReadOne (E : Env) (userID : String) (acc : List Effect × List String)
    (message : LocalChatLog) : List Effect × List String :=
  if E.UpdateMessageControllerOk acc.1 (groupReadRow E userID message) = false then
    (acc.1 ++ [Effect.UpdateMessageController (groupReadRow E userID message)], acc.2)
  else
    (acc.1 ++ [Effect.UpdateMessageController (groupReadRow E userID message)],
      acc.2 ++ [message.ClientMsgID])

/-- The receipts collected by `DoGroupMsgReadState` and the calls made so far. -/
structure GroupReadState where
  groupMessageReceiptResp : List MessageReceipt := []
  effects : List Effect := []
  deriving DecidableEq, Repr

/-- The body of the second loop of `DoGroupMsgReadState` for the bucket of the reader
`userID` and the group `groupID`. The list `failedMessageList` that the body also
fills is never read. -/
def groupReadBucket (K : Constants) (E : Env) (st : GroupReadState) (userID groupID : String)
    (msgIDList : List String) : GroupReadState :=
  match E.getConversationTypeByGroupID groupID with
  | none => st
  | some sessionType =>
    match E.GetMultipleMessageController st.effects (E.RemoveRepeatedStringInList msgIDList)
        groupID sessionType with
    | none => st
    | some messages =>
      (let r := messages.foldl (groupReadOne E userID) (st.effects, [])
      { groupMessageReceiptResp :=
          if r.2.length ≠ 0 then
            st.groupMessageReceiptResp ++
              [{ UserID := userID, GroupID := groupID, SessionType := sessionType,
                 ContentType := K.GroupHasReadReceipt, MsgIDList := r.2 }]
          else st.groupMessageReceiptResp
        effects := r.1 })

/-- The method `DoGroupMsgReadState(ctx, groupMsgReadList)`: the calls it makes. The
order in which Go ranges over the two maps is not fixed; the model takes the order of
the association lists. The final call on `c.msgListener` is not guarded: with a nil
listener it is the run-time error. -/
def DoGroupMsgReadState (K : Constants) (E : Env) (groupMsgReadList : List MsgStruct) :
    List Effect :=
  let userMsgMap := groupMsgReadList.foldl (groupReadCollect E) []
  let st := userMsgMap.foldl
    (fun st um => um.2.foldl (fun st gm => groupReadBucket K E st um.1 gm.1 gm.2) st) {}
  if st.groupMessageReceiptResp.length > 0 then
    if E.msgListenerSet then
      st.effects ++ [Effect.OnRecvGroupReadReceipt st.groupMessageReceiptResp]
    else st.effects ++ [Effect.nilListenerCall]
  else st.effects

/-- One iteration of the deprecated method `revokeMessage` on the revoke message `w`. -/
def revokeStep (K : Constants) (E : Env) (effects : List Effect) (w : MsgStruct) : List Effect :=
  if E.msgListenerSet then
    (let t : LocalChatLog :=
      { ClientMsgID := w.Content
        Status := K.MsgStatusRevoked
        SessionType := w.SessionType
        RecvID := w.GroupID }
    if E.UpdateMessageControllerOk effects t = false then
      effects ++ [Effect.UpdateMessageController t]
    else effects ++ [Effect.UpdateMessageController t, Effect.OnRecvMessageRevoked w.Content])
  else effects

/-- The deprecated method `revokeMessage(ctx, msgRevokeList)`: the calls it makes. -/
def revokeMessage (K : Constants) (E : Env) (msgRevokeList : List MsgStruct) : List Effect :=
  msgRevokeList.foldl (revokeStep K E) []

/-- The method `newMessage(newMessagesList)`: the listener calls, message by message in
sorted order. -/
def newMessage (E : Env) (newMessagesList : List MsgStruct) : List Effect :=
  (E.sortNewMsgList newMessagesList).flatMap fun w =>
    (if E.msgListenerSet then [Effect.OnRecvNewMessage (E.msgToJson w)] else []) ++
    (if E.listenerForServiceSet then
      [Effect.listenerForServiceOnRecvNewMessage (E.msgToJson w)] else [])

/-- The method `batchNewMessages(ctx, newMessagesList)`: one call with the sorted list
when the batch listener is set and the list is not empty. -/
def batchNewMessages (E : Env) (newMessagesList : List MsgStruct) : List Effect :=
  if E.batchMsgListenerSet then
    if (E.sortNewMsgList newMessagesList).length > 0 then
      [Effect.OnRecvNewMessages (E.sortNewMsgList newMessagesList)]
    else []
  else []

/-- The choice `if c.batchMsgListener != nil` of both methods between `batchNewMessages`
and `newMessage`. -/
def newMessageBroadcast (E : Env) (newMessages : List MsgStruct) : List Effect :=
  if E.batchMsgListenerSet then batchNewMessages E newMessages else newMessage E newMessages

/-- The row `t` with the reaction flags of the notification `n`. -/
def reactionRow (K : Constants) (n : ReactionMessageModifierNotification) : LocalChatLog :=
  { ClientMsgID := n.ClientMsgID
    SessionType := n.SessionType
    IsExternalExtensions := n.IsExternalExtensions
    IsReact := n.IsReact
    MsgFirstModifyTime := n.MsgFirstModifyTime
    RecvID :=
      if n.SessionType = K.GroupChatType ∨ n.SessionType = K.SuperGroupChatType then n.SourceID
      else "" }

/-- Whether the reaction message was sent by the login user on this platform. -/
def sentHere (E : Env) (msgStruct : MsgStruct) : Bool :=
  decide (msgStruct.SendID = E.loginUserID) &&
    decide (msgStruct.SenderPlatformID = E.platformID)

/-- One iteration of `doReactionMsgModifier` on the reaction message `msgStruct`; the
result of the final row update is only logged. The calls on `c.msgListener` are not
guarded: with a nil listener such a call is the run-time error and the row update is
not reached. -/
def reactionModifierStep (K : Constants) (E : Env) (effects : List Effect)
    (msgStruct : MsgStruct) : List Effect :=
  match E.jsonToReactionModifier msgStruct.Content with
  | none => effects
  | some n =>
    if n.Operation = K.AddMessageExtensions then
      if !sentHere E msgStruct then
        if E.msgListenerSet then
          effects ++
            [Effect.OnRecvMessageExtensionsAdded n.ClientMsgID n.SuccessReactionExtensionList] ++
            [Effect.UpdateMessageController (reactionRow K n)]
        else effects ++ [Effect.nilListenerCall]
      else effects ++ [Effect.UpdateMessageController (reactionRow K n)]
    else if n.Operation = K.SetMessageExtensions then
      if E.GetAndUpdateMessageReactionExtensionOk effects n.ClientMsgID
          n.SuccessReactionExtensionList = false then
        effects ++
          [Effect.GetAndUpdateMessageReactionExtension n.ClientMsgID
            n.SuccessReactionExtensionList]
      else if !sentHere E msgStruct then
        if E.msgListenerSet then
          effects ++
            [Effect.GetAndUpdateMessageReactionExtension n.ClientMsgID
              n.SuccessReactionExtensionList] ++
            [Effect.OnRecvMessageExtensionsChanged n.ClientMsgID
              n.SuccessReactionExtensionList] ++
            [Effect.UpdateMessageController (reactionRow K n)]
        else
          effects ++
            [Effect.GetAndUpdateMessageReactionExtension n.ClientMsgID
              n.SuccessReactionExtensionList] ++
            [Effect.nilListenerCall]
      else
        effects ++
          [Effect.GetAndUpdateMessageReactionExtension n.ClientMsgID
            n.SuccessReactionExtensionList] ++
          [Effect.UpdateMessageController (reactionRow K n)]
    else effects ++ [Effect.UpdateMessageController (reactionRow K n)]

/-- The loop of `doReactionMsgModifier` from the calls `effects` on; the run-time error
of an iteration ends the loop. -/
def doReactionMsgModifierFrom (K : Constants) (E : Env) :
    List Effect → List MsgStruct → List Effect
  | effects, [] => effects
  | effects, msgStruct :: rest =>
    if panicked (reactionModifierStep K E effects msgStruct) then
      reactionModifierStep K E effects msgStruct
    else doReactionMsgModifierFrom K E (reactionModifierStep K E effects msgStruct) rest

/-- The method `doReactionMsgModifier(ctx, msgReactionList)`: the calls it makes. -/
def doReactionMsgModifier (K : Constants) (E : Env) (msgReactionList : List MsgStruct) :
    List Effect :=
  doReactionMsgModifierFrom K E [] msgReactionList

/-- One iteration of `doReactionMsgDeleter` on the reaction message `msgStruct`. The
call on `c.msgListener` is not guarded: with a nil listener it is the run-time error. -/
def reactionDeleterStep (E : Env) (effects : List Effect) (msgStruct : MsgStruct) :
    List Effect :=
  match E.jsonToReactionDeleter msgStruct.Content with
  | none => effects
  | some n =>
    if E.DeleteAndUpdateMessageReactionExtensionOk effects n.ClientMsgID
        n.SuccessReactionExtensionList = false then
      effects ++
        [Effect.DeleteAndUpdateMessageReactionExtension n.ClientMsgID
          n.SuccessReactionExtensionList]
    else if E.msgListenerSet then
      effects ++
        [Effect.DeleteAndUpdateMessageReactionExtension n.ClientMsgID
          n.SuccessReactionExtensionList,
         Effect.OnRecvMessageExtensionsDeleted n.ClientMsgID
          (n.SuccessReactionExtensionList.map (·.TypeKey))]
    else
      effects ++
        [Effect.DeleteAndUpdateMessageReactionExtension n.ClientMsgID
          n.SuccessReactionExtensionList,
         Effect.nilListenerCall]

/-- The loop of `doReactionMsgDeleter` from the calls `effects` on; the run-time error
of an iteration ends the loop. -/
def doReactionMsgDeleterFrom (E : Env) : List Effect → List MsgStruct → List Effect
  | effects, [] => effects
  | effects, msgStruct :: rest =>
    if panicked (reactionDeleterStep E effects msgStruct) then
      reactionDeleterStep E effects msgStruct
    else doReactionMsgDeleterFrom E (reactionDeleterStep E effects msgStruct) rest

/-- The method `doReactionMsgDeleter(ctx, msgReactionList)`: the calls it makes. -/
def doReactionMsgDeleter (E : Env) (msgReactionList : List MsgStruct) : List Effect :=
  doReactionMsgDeleterFrom E [] msgReactionList

/-- The calls of the dispatchers that both methods run after the commit, in program
order, on the listener lists `s` of the loop. A dispatcher that ends in the run-time
error of a call on the nil listener ends the run: the later dispatchers are not
called. -/
def dispatch (K : Constants) (E : Env) (s : BatchState) : List Effect :=
  thenCalls (thenCalls (thenCalls (thenCalls (thenCalls (thenCalls
    (doMsgReadState K E (s.msgReadList.map (·.val)))
    (DoGroupMsgReadState K E (s.groupMsgReadList.map (·.val))))
    (revokeMessage K E (s.msgRevokeList.map (·.val))))
    (newMessageBroadcast E (s.newMessages.map (·.val))))
    (newRevokeMessage K E (s.newMsgRevokeList.map (·.val))))
    (doReactionMsgModifier K E (s.reactionMsgModifierList.map (·.val))))
    (doReactionMsgDeleter E (s.reactionMsgDeleterList.map (·.val)))

/-- Every call that a run makes on a collaborator, in program order: the calls of the
loop, the store calls of the commit, the dispatchers, the final conversation-update
commands, which are posted when the dispatchers return. -/
def BatchResult.trace (K : Constants) (E : Env) (r : BatchResult) : List Effect :=
  r.loop.effects ++ r.storeCalls ++
    thenCalls (dispatch K E r.loop) (r.commands.map Effect.doUpdateConversation)

/-- The messages handed to `msgListener.OnRecvNewMessage`, in call order. -/
def listenerMessages (calls : List Effect) : List String :=
  calls.filterMap fun e =>
    match e with
    | Effect.OnRecvNewMessage message => some message
    | _ => none

/-- The messages handed to `listenerForService.OnRecvNewMessage`, in call order. -/
def serviceMessages (calls : List Effect) : List String :=
  calls.filterMap fun e =>
    match e with
    | Effect.listenerForServiceOnRecvNewMessage message => some message
    | _ => none

/-- Whether the iteration on `v` looks the message up in the store and finds it with
`seq = 0`. -/
def foundWithSeqZero (K : Constants) (E : Env) (v : MsgData) : Bool :=
  match prepare K E v with
  | Prepared.ok msg =>
    (match E.GetMessageController msg with
    | some m => decide (m.Seq = 0)
    | none => false)
  | _ => false

/-- Whether the call is not one of the commands that the methods post at their end or
from `doMsgReadState`: `NewConDirect`, `ConChangeDirect`, `TotalUnreadMessageChanged`,
`ConversationLatestMsgHasRead`. -/
def postsNoLateCommand : Effect → Bool
  | Effect.doUpdateConversation (ConCmd.NewConDirect _) => false
  | Effect.doUpdateConversation (ConCmd.ConChangeDirect _) => false
  | Effect.doUpdateConversation ConCmd.TotalUnreadMessageChanged => false
  | Effect.doUpdateConversation (ConCmd.ConversationLatestMsgHasRead _) => false
  | _ => true

/-- Whether the call is not one of the commands of the case
`ConversationUnreadNotification`: `UnreadCountSetZero`, `ConChange`. -/
def postsNoLoopCommand : Effect → Bool
  | Effect.doUpdateConversation (ConCmd.UnreadCountSetZero _) => false
  | Effect.doUpdateConversation (ConCmd.ConChange _) => false
  | _ => true

/-- Whether the call is not a conversation-update command. -/
def postsNoCommand : Effect → Bool
  | Effect.doUpdateConversation _ => false
  | _ => true

/-- Whether the iteration of `doMsgNew` on `v` reaches classification and finds the
message in the store as a duplicate: sent by another user, or sent by the login user
and stored with a `seq` other than 0. -/
def storedDuplicate (K : Constants) (E : Env) (v : MsgData) : Bool :=
  match classified K E (contentSwitch K E) v with
  | some msg =>
    (match E.GetMessageController msg with
    | some m => decide (v.SendID ≠ E.loginUserID) || decide (m.Seq ≠ 0)
    | none => false)
  | none => false

/-! ## A concrete configuration for the examples -/

/-- A concrete assignment of the constants, used by the examples below. -/
def constant : Constants :=
  { MsgStatusSendSuccess := 2
    MsgStatusHasDeleted := 4
    MsgStatusRevoked := 5
    MsgStatusFiltered := 6
    SingleChatType := 1
    GroupChatType := 2
    SuperGroupChatType := 3
    NotificationChatType := 4
    Text := 101
    Picture := 102
    Voice := 103
    Video := 104
    File := 105
    AtText := 106
    Merger := 107
    Location := 109
    Custom := 110
    Revoke := 111
    HasReadReceipt := 112
    Typing := 113
    Quote := 114
    Face := 115
    GroupHasReadReceipt := 116
    AdvancedText := 117
    AdvancedRevoke := 118
    CustomMsgNotTriggerConversation := 119
    CustomMsgOnlineOnly := 120
    ReactionMessageModifier := 121
    ReactionMessageDeleter := 122
    NotificationBegin := 1000
    NotificationEnd := 5000
    FriendNotificationBegin := 1200
    FriendNotificationEnd := 1299
    UserNotificationBegin := 1301
    UserNotificationEnd := 1399
    GroupNotificationBegin := 1500
    GroupNotificationEnd := 1599
    SignalingNotificationBegin := 1600
    SignalingNotificationEnd := 1649
    ConversationChangeNotification := 1300
    ConversationPrivateChatNotification := 1701
    ConversationUnreadNotification := 1702
    SuperGroupUpdateNotification := 1651
    MsgDeleteNotification := 1652
    BusinessNotification := 2001
    WorkMomentNotification := 1900
    OANotification := 1400
    GroupApplicationRejectedNotification := 1506
    GroupApplicationAcceptedNotification := 1505
    JoinGroupApplicationNotification := 1503
    AtMe := 1
    AtAll := 2
    AtAllAtMe := 3
    AtAllString := "AtAllTag"
    AddMessageExtensions := 1
    SetMessageExtensions := 2 }

/-- A concrete conversation-id function: a tag for the session type, then the source id. -/
def sampleConversationID (sourceID : String) (sessionType : Int) : String :=
  if sessionType = 1 then "s_" ++ sourceID
  else if sessionType = 2 then "g_" ++ sourceID
  else if sessionType = 3 then "sg_" ++ sourceID
  else if sessionType = 4 then "n_" ++ sourceID
  else ""

/-- A concrete environment: login user `u1`, empty store, empty caches, codecs that
always succeed. The examples override single fields. -/
def sampleEnv : Env :=
  { loginUserID := "u1"
    encryptionKey := ""
    GetMessageController := fun _ => none
    GetAllConversationListDB := []
    GetHiddenConversationList := []
    BatchInsertMessageListControllerOk := fun _ => true
    InsertMessageControllerOk := fun _ _ => true
    GetConversation := fun _ => {}
    GetUserNameAndFaceURL := fun _ => none
    GetGroupInfoFromLocal2Svr := fun _ _ => none
    GetConversationIDBySessionType := sampleConversationID
    msgToJson := fun m => m.ClientMsgID
    attachedInfoToJson := fun _ => ""
    jsonToAttachedInfo := fun _ => {}
    jsonToTips := fun c => some (c, "")
    jsonToAtElem := fun _ => some {}
    jsonToElem := fun c => some c
    AesDecrypt := fun c _ => some c
    unmarshalConversationUpdateTips := fun _ => ([], 0)
    msgListenerSet := true
    jsonToMessageRevoked := fun c => some { ClientMsgID := c }
    messageRevokedToJson := fun r => r.ClientMsgID
    jsonToQuoteElem := fun _ => {}
    quoteElemToJson := fun q => q.Text
    UpdateMessageControllerOk := fun _ _ => true
    SearchAllMessageByContentType := fun _ => []
    SuperGroupSearchAllMessageByContentType := fun _ _ => []
    jsonToStringList := fun c => some [c]
    GetMessage := fun _ id => some { ClientMsgID := id }
    UpdateMessageOk := fun _ _ => true
    platformID := 1
    batchMsgListenerSet := false
    listenerForServiceSet := false
    sortNewMsgList := List.insertionSort fun a b => a.SendTime ≤ b.SendTime
    getConversationTypeByGroupID := fun _ => some 2
    GetMultipleMessageController := fun _ ids _ _ => some (ids.map fun id => { ClientMsgID := id })
    RemoveRepeatedStringInList := List.dedup
    jsonToReactionModifier := fun c => some { ClientMsgID := c }
    GetAndUpdateMessageReactionExtensionOk := fun _ _ _ => true
    jsonToReactionDeleter := fun c => some { ClientMsgID := c }
    DeleteAndUpdateMessageReactionExtensionOk := fun _ _ _ => true }

/-- A text message of peer `u2` to the login user in a single chat. -/
def peerMsg (clientMsgID : String) (sendTime : Int) : MsgData :=
  { SendID := "u2", RecvID := "u1", ClientMsgID := clientMsgID, SessionType := 1,
    ContentType := 101, SendTime := sendTime }

/-- Scenario S3: conversation `s_u2` with read watermark 500 and unread count 7 in the
local list. -/
def s3Env : Env :=
  { sampleEnv with
    GetConversation := fun _ => { UpdateUnreadCountTime := 500 }
    GetAllConversationListDB :=
      [{ ConversationID := "s_u2", UnreadCount := 7, LatestMsgSendTime := 300,
         LatestMsg := "old" }] }

/-- Scenario S3: two peer messages with send times 400 and 600. -/
def s3Batch : List (List MsgData) := [[peerMsg "a" 400, peerMsg "b" 600]]

/-- The conversation row committed in scenario S3. -/
def s3Row : LocalConversation :=
  { ConversationID := "s_u2", UnreadCount := 8, LatestMsgSendTime := 600, LatestMsg := "b" }

/-- The unread row of the 600-time message of scenario S3. -/
def s3UnreadRow : LocalConversationUnreadMessage :=
  { ConversationID := "s_u2", ClientMsgID := "b", SendTime := 600 }

/-- A store that already holds the peer message `b`, and conversation `s_u2` with unread
count 7 in the local list; read watermark 0. -/
def dupEnv : Env :=
  { sampleEnv with
    GetMessageController := fun m =>
      if m.ClientMsgID = "b" then some { ClientMsgID := "b", Seq := 7 } else none
    GetAllConversationListDB :=
      [{ ConversationID := "s_u2", UnreadCount := 7, LatestMsgSendTime := 300,
         LatestMsg := "old" }] }

/-- A new peer message `a` followed by a second delivery of the stored message `b`. -/
def dupBatch : List (List MsgData) := [[peerMsg "a" 400, peerMsg "b" 600]]

/-- One batch that delivers the new peer message `b` twice. -/
def twiceBatch : List (List MsgData) := [[peerMsg "b" 600, peerMsg "b" 600]]

/-- A hidden row of conversation `s_u2`: pinned, not a private chat, burn duration 30. -/
def hiddenRow : LocalConversation :=
  { ConversationID := "s_u2", IsPinned := true, IsPrivateChat := false, BurnDuration := 30,
    RecvMsgOpt := 2, Ex := "ex" }

/-- Scenario S4 with a hidden row that is not a private chat: `s_u2` is hidden and
absent from the local list. -/
def s4Env : Env := { sampleEnv with GetHiddenConversationList := [hiddenRow] }

/-- Scenario S4: one new inbound message for the hidden conversation. -/
def s4Batch : List (List MsgData) := [[peerMsg "a" 600]]

/-- The row of `s_u2` after the overlay in scenario S4. -/
def s4Row : LocalConversation :=
  { ConversationID := "s_u2", ConversationType := 1, UserID := "u2", UnreadCount := 1,
    LatestMsg := "a", LatestMsgSendTime := 600, IsPinned := true, RecvMsgOpt := 2, Ex := "ex" }

/-- An own message (login user `u1`) to `u2` in a single chat. -/
def ownMsg (clientMsgID : String) (status : Int) : MsgData :=
  { SendID := "u1", RecvID := "u2", ClientMsgID := clientMsgID, SessionType := 1,
    ContentType := 101, SendTime := 200, Seq := 42, Status := status }

/-- Scenario S1: the store holds the own message `A` with `seq = 0`. -/
def s1Env : Env :=
  { sampleEnv with
    GetMessageController := fun m =>
      if m.ClientMsgID = "A" then some { ClientMsgID := "A", Seq := 0, CreateTime := 100 }
      else none }

/-- The working copy of the own message `A` of scenario S1 when it enters classification. -/
def s1Prepared : MsgStruct := { copyMsg (ownMsg "A" 0) with Status := 2 }

/-- The stored row of the own message `A` of scenario S1. -/
def s1Stored : LocalChatLog := { ClientMsgID := "A", Seq := 0, CreateTime := 100 }

/-- A peer message with the given status. -/
def peerMsgWithStatus (clientMsgID : String) (status : Int) : MsgData :=
  { peerMsg clientMsgID 600 with Status := status }

/-- A store that holds every client message id as a stub with `seq = 0` and
`create_time = 0`. -/
def stubEnv : Env :=
  { sampleEnv with
    GetMessageController := fun m => some { ClientMsgID := m.ClientMsgID, Seq := 0 } }

/-- A store whose batch insert fails and whose individual insert rejects the client
message id `bad`. -/
def rejectingEnv : Env :=
  { sampleEnv with
    BatchInsertMessageListControllerOk := fun _ => false
    InsertMessageControllerOk := fun _ row => decide (row.ClientMsgID ≠ "bad") }

/-- Three new peer messages; the second has the client message id `bad`. -/
def fallbackBatch : List (List MsgData) :=
  [[peerMsg "a" 100, peerMsg "bad" 200], [peerMsg "c" 300]]

/-- A work-moments notification of peer `u2` in a single chat. -/
def workMomentMsg : MsgData := { peerMsg "w" 600 with ContentType := 1900 }

/-- A signaling notification of peer `u2` in a single chat. -/
def signalingMsg : MsgData := { peerMsg "g" 600 with ContentType := 1601 }

/-- A super-group update notification of peer `u2` in the super group `g1`. -/
def superGroupUpdateMsg : MsgData :=
  { peerMsg "t" 600 with ContentType := 1651, SessionType := 3, RecvID := "", GroupID := "g1" }

/-- A store codec for the quote examples: the content `quotes x` decodes to a quote of
the text message `x`. -/
def quoteEnv : Env :=
  { sampleEnv with
    jsonToQuoteElem := fun c =>
      if c = "quotes x" then
        { Text := "re", QuoteMessage := some { ClientMsgID := "x", ContentType := 101,
                                               Content := "hello" } }
      else {}
    quoteElemToJson := fun q =>
      match q.QuoteMessage with
      | some m => q.Text ++ "/" ++ m.ClientMsgID ++ "/" ++ m.Content
      | none => q.Text
    messageRevokedToJson := fun r => "revoked at " ++ toString r.SourceMessageSendTime }

/-- A stored quote message that quotes the message `x`. -/
def quoteRow : LocalChatLog :=
  { ClientMsgID := "q", ContentType := 114, Content := "quotes x" }

/-- Revoke payloads for `y`, `x` and again `x`. -/
def revokedList : List MessageRevoked :=
  [{ ClientMsgID := "y", SourceMessageSendTime := 1 },
   { ClientMsgID := "x", SourceMessageSendTime := 2 },
   { ClientMsgID := "x", SourceMessageSendTime := 3 }]

/-- The quote message `q` after the revoke of `x` is written into it. -/
def quoteRowRevoked : LocalChatLog :=
  { ClientMsgID := "q", ContentType := 114, Content := "re/x/revoked at 2" }

/-- A store in which every `UpdateMessageController` fails (no row to update); the revoke
payload `sg` names the target `x` with session type super-group, the payload `single`
names it with session type single chat. -/
def revokeEnv : Env :=
  { sampleEnv with
    jsonToMessageRevoked := fun c =>
      if c = "sg" then some { ClientMsgID := "x", SessionType := 3 }
      else if c = "single" then some { ClientMsgID := "x", SessionType := 1 }
      else none
    UpdateMessageControllerOk := fun _ _ => false }

/-- An advanced-revoke message of peer `u2` in a single chat. -/
def revokeMsg (content : String) : MsgData :=
  { peerMsg "r" 600 with ContentType := 118, Content := content }

/-- An advanced-revoke message of peer `u2` in the super group `g1`. -/
def superRevokeMsg (content : String) : MsgData :=
  { peerMsg "r" 600 with
    ContentType := 118, Content := content, SessionType := 3, GroupID := "g1", RecvID := "" }

/-- A codec of id lists that rejects the content `bad`. -/
def readEnv : Env :=
  { sampleEnv with
    jsonToStringList := fun c => if c = "bad" then none else some [c] }

/-- A 1-to-1 read receipt of peer `u2` with the given content, sent at time 700. -/
def receipt (clientMsgID content : String) : MsgStruct :=
  { ClientMsgID := clientMsgID, SendID := "u2", RecvID := "u1", ContentType := 112,
    Content := content, SendTime := 700, SessionType := 1 }

/-- The row that `doMsgReadState` writes for the message `clientMsgID` in `readEnv`. -/
def readRow (clientMsgID : String) : LocalChatLog :=
  { ClientMsgID := clientMsgID, IsRead := true }

/-- The receipt reported for the message `clientMsgID` in `readEnv`. -/
def reported (clientMsgID : String) : MessageReceipt :=
  { UserID := "u2", MsgIDList := [clientMsgID], ReadTime := 700, ContentType := 112,
    SessionType := 1 }

/-- A codec that decodes every at-text content to a mention of the login user and of
everybody. -/
def atEnv : Env :=
  { sampleEnv with
    jsonToAtElem := fun _ => some { Text := "hi", AtUserList := ["u1", "AtAllTag"] } }

/-- An at-text message of peer `u2` in the group `g1`. -/
def atMsg : MsgData :=
  { peerMsg "at" 600 with ContentType := 106, SessionType := 2, RecvID := "", GroupID := "g1" }

/-- The provisional record that the loop folds for `atMsg`. -/
def atRecord : LocalConversation :=
  { ConversationID := "g_g1", ConversationType := 2, GroupID := "g1", LatestMsg := "at",
    LatestMsgSendTime := 600, UnreadCount := 1 }

/-- A working copy with the at-list `l` and content type at-text. -/
def atStruct (l : List String) : MsgStruct :=
  { ClientMsgID := "at", ContentType := 106, AtElem := { AtUserList := l } }

/-- A store for the group read receipts: every requested message is found with the
attached info `u3#1` (read by `u3`), and the attached-info codec writes the reader list
and the count. -/
def groupReadEnv : Env :=
  { sampleEnv with
    jsonToAttachedInfo := fun c =>
      if c = "u3#1" then { HasReadUserIDList := ["u3"], HasReadCount := 1 } else {}
    attachedInfoToJson := fun a =>
      String.intercalate "," a.HasReadUserIDList ++ "#" ++ toString a.HasReadCount
    GetMultipleMessageController := fun _ ids _ _ =>
      some (ids.map fun id => { ClientMsgID := id, AttachedInfo := "u3#1" }) }

/-- A group read receipt of the reader `reader` for the message `clientMsgID` of the
group `g1`. -/
def groupReceipt (reader clientMsgID : String) : MsgStruct :=
  { ClientMsgID := "gr", SendID := reader, GroupID := "g1", ContentType := 116,
    Content := clientMsgID, SendTime := 700, SessionType := 2 }

/-- The stored message `m1` of the group-read examples. -/
def groupReadMessage : LocalChatLog := { ClientMsgID := "m1", AttachedInfo := "u3#1" }

/-- An environment with a batch listener and a service listener. -/
def batchListenerEnv : Env :=
  { sampleEnv with batchMsgListenerSet := true, listenerForServiceSet := true }

/-- An environment with a service listener and no batch listener. -/
def serviceListenerEnv : Env := { sampleEnv with listenerForServiceSet := true }

/-- Two working copies with send times 300 and 100. -/
def broadcastList : List MsgStruct :=
  [{ ClientMsgID := "late", SendTime := 300 }, { ClientMsgID := "early", SendTime := 100 }]

/-- A store in which the update of the reaction extensions fails; the content `set`
decodes to a set operation on the message `x`, any other content to another
operation. -/
def reactionEnv : Env :=
  { sampleEnv with
    jsonToReactionModifier := fun c =>
      some { ClientMsgID := "x", IsReact := true, MsgFirstModifyTime := 9,
             Operation := if c = "set" then 2 else 3 }
    GetAndUpdateMessageReactionExtensionOk := fun _ _ _ => false }

/-- A reaction-modifier message of peer `u2` with the given content. -/
def reactionMsg (content : String) : MsgStruct :=
  { ClientMsgID := "rm", SendID := "u2", ContentType := 121, Content := content }

/-- A typing message of peer `u2` in a single chat, every option switch on. -/
def typingMsg : MsgData := { peerMsg "ty" 600 with ContentType := 113 }

/-- A decoder of `ConversationUpdateTips` that names the conversation `s_u2` and the read
time 500. -/
def unreadNoticeEnv : Env :=
  { sampleEnv with unmarshalConversationUpdateTips := fun _ => (["s_u2"], 500) }

/-- A `ConversationUnreadNotification` of peer `u2`. -/
def unreadNotice : MsgData := { peerMsg "un" 600 with ContentType := 1702 }

/-- A peer message that is not kept in the history (`IsHistory` unset). -/
def nonHistoryMsg : MsgData := { peerMsg "n" 600 with Options := { IsHistory := false } }

/-- The store after `doMsgNew` has processed `nonHistoryMsg` from the empty store: no
message row was written, the conversation list holds the rows that the run inserted. -/
def afterFirstRun : Env :=
  { sampleEnv with
    GetAllConversationListDB :=
      (doMsgNew constant sampleEnv [[nonHistoryMsg]]).insertedConversations }

/-- A second delivery of the stored message `b`. -/
def redeliveredBatch : List (List MsgData) := [[peerMsg "b" 600]]

/-- First record of conversation `c3` in scenario S6 (send time 300). -/
def c3First : LocalConversation :=
  { ConversationID := "c3", LatestMsg := "m300", LatestMsgSendTime := 300, UnreadCount := 1 }

/-- Second record of conversation `c3` in scenario S6 (send time 100). -/
def c3Second : LocalConversation :=
  { ConversationID := "c3", LatestMsg := "m100", LatestMsgSendTime := 100, UnreadCount := 1 }

/-- Third record of conversation `c3` in scenario S6 (send time 500). -/
def c3Third : LocalConversation :=
  { ConversationID := "c3", LatestMsg := "m500", LatestMsgSendTime := 500, UnreadCount := 1 }

/-- Scenario S6: three provisional records of conversation `c3`, send times 300, 100, 500. -/
def s6Batch : List LocalConversation := [c3First, c3Second, c3Third]

/-! ## Theorems -/

/-! ### Arithmetic of `int32` -/

theorem goInt32_toInt_add (a b : GoInt32) :
    (a + b).toInt = toInt32 (a.toInt + b.toInt) := rfl

/-- Without overflow the `int32` sum is the sum of the integers. -/
theorem goInt32_toInt_add_of_range (a b : GoInt32) (h1 : -2 ^ 31 ≤ a.toInt + b.toInt)
    (h2 : a.toInt + b.toInt < 2 ^ 31) : (a + b).toInt = a.toInt + b.toInt := by
  rw [goInt32_toInt_add]
  unfold toInt32
  omega

theorem goInt32_toInt_natCast (n : Nat) : (n : GoInt32).toInt = toInt32 n := rfl

/-- An `int32` plus a converted natural number is the integer sum wrapped to 32 bits. -/
theorem goInt32_toInt_add_natCast (r a : GoInt32) (n : Nat) (h : r = a + (n : GoInt32)) :
    r.toInt = toInt32 (a.toInt + n) := by
  rw [h, goInt32_toInt_add, goInt32_toInt_natCast]
  unfold toInt32
  omega

/-- An `int32` plus a converted natural number is the integer sum when that sum stays
below `2^31`. -/
theorem goInt32_toInt_add_natCast_of_lt (r a : GoInt32) (n : Nat)
    (h : r = a + (n : GoInt32)) (hlt : a.toInt + n < 2 ^ 31) : r.toInt = a.toInt + n := by
  rw [goInt32_toInt_add_natCast r a n h]
  have h1 := a.lo
  unfold toInt32
  omega

theorem toInt32_add_toInt32 (a b : Int) : toInt32 (a + toInt32 b) = toInt32 (a + b) := by
  unfold toInt32
  omega

theorem toInt32_of_range (n : Int) (h1 : -2 ^ 31 ≤ n) (h2 : n < 2 ^ 31) : toInt32 n = n := by
  unfold toInt32
  omega

/-- The `int32` sum of a list is the sum of the integers, wrapped once. -/
theorem goInt32_toInt_sum (l : List GoInt32) :
    l.sum.toInt = toInt32 ((l.map (·.toInt)).sum) := by
  induction l with
  | nil => rfl
  | cons a l ih =>
    rw [List.sum_cons, goInt32_toInt_add, ih, List.map_cons, List.sum_cons,
      toInt32_add_toInt32]

namespace GoMap

variable {V : Type}

theorem get?_set_self (m : GoMap V) (k : String) (v : V) : (m.set k v).get? k = some v := by
  induction m with
  | nil => simp [set, get?]
  | cons p rest ih =>
    obtain ⟨k', v'⟩ := p
    by_cases h : k' = k
    · simp [set, get?, h]
    · simp [set, get?, h, ih]

theorem get?_set_of_ne (m : GoMap V) (k k' : String) (v : V) (h : k' ≠ k) :
    (m.set k v).get? k' = m.get? k' := by
  induction m with
  | nil => simp [set, get?, Ne.symm h]
  | cons p rest ih =>
    obtain ⟨k0, v0⟩ := p
    by_cases h0 : k0 = k
    · subst h0
      simp [set, get?, Ne.symm h]
    · by_cases h1 : k0 = k'
      · subst h1
        simp [set, get?, h0]
      · simp [set, get?, h0, h1, ih]

end GoMap

theorem updateConversation_get?_of_ne (lc : LocalConversation) (cs : GoMap LocalConversation)
    (k : String) (hk : k ≠ lc.ConversationID) :
    (updateConversation lc cs).get? k = cs.get? k := by
  unfold updateConversation
  split
  · exact GoMap.get?_set_of_ne _ _ _ _ hk
  · split
    · exact GoMap.get?_set_of_ne _ _ _ _ hk
    · exact GoMap.get?_set_of_ne _ _ _ _ hk

theorem updateConversation_get?_self (r : LocalConversation) (cs : GoMap LocalConversation) :
    (updateConversation r cs).get? r.ConversationID =
      some (match cs.get? r.ConversationID with
        | none => r
        | some e => mergeInto e r) := by
  unfold updateConversation mergeInto
  cases h : cs.get? r.ConversationID with
  | none => simp [GoMap.get?_set_self]
  | some e =>
    by_cases hlt : r.LatestMsgSendTime > e.LatestMsgSendTime <;>
      simp [hlt, GoMap.get?_set_self]

/-- C1. `updateConversation(lc, cs)` is the per-message fold rule: without an entry
for `lc.ConversationID` the id is bound to `lc`; with an entry `oldC` the unread
counts are added and the latest message and its send time are replaced by those of
`lc` exactly when `lc.LatestMsgSendTime > oldC.LatestMsgSendTime`; all other fields
of the entry and all other keys are unchanged. The addition is the Go addition of two
`int32` values: the new count is the integer sum wrapped to 32 bits, and it is the
integer sum itself whenever that sum lies in the `int32` range. -/
theorem updateConversation_fold_rule (lc : LocalConversation) (cs : GoMap LocalConversation) :
    (cs.get? lc.ConversationID = none →
      (updateConversation lc cs).get? lc.ConversationID = some lc) ∧
    (∀ oldC, cs.get? lc.ConversationID = some oldC →
      ∃ e, (updateConversation lc cs).get? lc.ConversationID = some e ∧
        e = { oldC with
          UnreadCount := oldC.UnreadCount + lc.UnreadCount
          LatestMsg :=
            if lc.LatestMsgSendTime > oldC.LatestMsgSendTime then lc.LatestMsg else oldC.LatestMsg
          LatestMsgSendTime :=
            if lc.LatestMsgSendTime > oldC.LatestMsgSendTime then lc.LatestMsgSendTime
            else oldC.LatestMsgSendTime } ∧
        e.UnreadCount.toInt = toInt32 (oldC.UnreadCount.toInt + lc.UnreadCount.toInt) ∧
        (-2 ^ 31 ≤ oldC.UnreadCount.toInt + lc.UnreadCount.toInt →
          oldC.UnreadCount.toInt + lc.UnreadCount.toInt < 2 ^ 31 →
          e.UnreadCount.toInt = oldC.UnreadCount.toInt + lc.UnreadCount.toInt)) ∧
    (∀ k, k ≠ lc.ConversationID → (updateConversation lc cs).get? k = cs.get? k) := by
  refine ⟨?_, ?_, ?_⟩
  · intro h
    simp [updateConversation, h, GoMap.get?_set_self]
  · intro oldC h
    refine ⟨_, ?_, rfl, rfl, goInt32_toInt_add_of_range _ _⟩
    by_cases hlt : lc.LatestMsgSendTime > oldC.LatestMsgSendTime
    · simp [updateConversation, h, hlt, GoMap.get?_set_self]
    · simp [updateConversation, h, hlt, GoMap.get?_set_self]
  · intro k hk
    unfold updateConversation
    split
    · exact GoMap.get?_set_of_ne _ _ _ _ hk
    · split
      · exact GoMap.get?_set_of_ne _ _ _ _ hk
      · exact GoMap.get?_set_of_ne _ _ _ _ hk

/-! ### Folding the records of one conversation -/

theorem updateConversation_singleton (cid : String) (e lc : LocalConversation)
    (h : lc.ConversationID = cid) :
    updateConversation lc [(cid, e)] = [(cid, mergeInto e lc)] := by
  subst h
  unfold updateConversation mergeInto
  by_cases hlt : lc.LatestMsgSendTime > e.LatestMsgSendTime <;>
    simp [GoMap.get?, GoMap.set, hlt]

theorem foldConversations_singleton (cid : String) (rs : List LocalConversation) :
    ∀ e : LocalConversation, (∀ x ∈ rs, x.ConversationID = cid) →
      foldConversations rs [(cid, e)] = [(cid, rs.foldl mergeInto e)] := by
  induction rs with
  | nil => intro e _; rfl
  | cons y ys ih =>
    intro e hid
    have hy : y.ConversationID = cid := hid y (List.mem_cons_self _ _)
    have hys : ∀ x ∈ ys, x.ConversationID = cid := fun x hx => hid x (List.mem_cons_of_mem _ hx)
    simp only [foldConversations, List.foldl_cons] at ih ⊢
    rw [updateConversation_singleton cid e y hy]
    exact ih _ hys

theorem foldConversations_cons_nil (cid : String) (r : LocalConversation)
    (rs : List LocalConversation) (hid : ∀ x ∈ r :: rs, x.ConversationID = cid) :
    foldConversations (r :: rs) [] = [(cid, rs.foldl mergeInto r)] := by
  have hr : r.ConversationID = cid := hid r (List.mem_cons_self _ _)
  have hrs : ∀ x ∈ rs, x.ConversationID = cid := fun x hx => hid x (List.mem_cons_of_mem _ hx)
  have h1 : updateConversation r [] = [(cid, r)] := by
    simp [updateConversation, GoMap.get?, GoMap.set, hr]
  have := foldConversations_singleton cid rs r hrs
  simp only [foldConversations, List.foldl_cons] at this ⊢
  rw [h1]
  exact this

theorem mergeInto_unread (e lc : LocalConversation) :
    (mergeInto e lc).UnreadCount = e.UnreadCount + lc.UnreadCount := by
  unfold mergeInto; split <;> rfl

theorem mergeInto_time (e lc : LocalConversation) :
    (mergeInto e lc).LatestMsgSendTime = max e.LatestMsgSendTime lc.LatestMsgSendTime := by
  unfold mergeInto
  split
  · next h => simp [max_eq_right (le_of_lt h)]
  · next h => simp [max_eq_left (not_lt.mp h)]

theorem mergeInto_of_le (e lc : LocalConversation)
    (h : lc.LatestMsgSendTime ≤ e.LatestMsgSendTime) :
    (mergeInto e lc).LatestMsg = e.LatestMsg ∧
      (mergeInto e lc).LatestMsgSendTime = e.LatestMsgSendTime := by
  unfold mergeInto
  simp [not_lt.mpr h]

theorem mergeInto_of_lt (e lc : LocalConversation)
    (h : e.LatestMsgSendTime < lc.LatestMsgSendTime) :
    (mergeInto e lc).LatestMsg = lc.LatestMsg ∧
      (mergeInto e lc).LatestMsgSendTime = lc.LatestMsgSendTime := by
  unfold mergeInto
  simp [h]

theorem foldl_mergeInto_unread (rs : List LocalConversation) :
    ∀ e : LocalConversation,
      (rs.foldl mergeInto e).UnreadCount = e.UnreadCount + (rs.map (·.UnreadCount)).sum := by
  induction rs with
  | nil => intro e; simp
  | cons y ys ih =>
    intro e
    simp only [List.foldl_cons, List.map_cons, List.sum_cons]
    rw [ih, mergeInto_unread, add_assoc]

theorem foldl_mergeInto_time_ge (rs : List LocalConversation) :
    ∀ e : LocalConversation,
      e.LatestMsgSendTime ≤ (rs.foldl mergeInto e).LatestMsgSendTime ∧
      ∀ x ∈ rs, x.LatestMsgSendTime ≤ (rs.foldl mergeInto e).LatestMsgSendTime := by
  induction rs with
  | nil => intro e; simp
  | cons y ys ih =>
    intro e
    simp only [List.foldl_cons]
    obtain ⟨h1, h2⟩ := ih (mergeInto e y)
    rw [mergeInto_time] at h1
    refine ⟨le_trans (le_max_left _ _) h1, ?_⟩
    intro x hx
    rcases List.mem_cons.mp hx with rfl | hx
    · exact le_trans (le_max_right _ _) h1
    · exact h2 x hx

theorem foldl_mergeInto_keep (rs : List LocalConversation) :
    ∀ e : LocalConversation, (∀ x ∈ rs, x.LatestMsgSendTime ≤ e.LatestMsgSendTime) →
      (rs.foldl mergeInto e).LatestMsg = e.LatestMsg ∧
      (rs.foldl mergeInto e).LatestMsgSendTime = e.LatestMsgSendTime := by
  induction rs with
  | nil => intro e _; simp
  | cons y ys ih =>
    intro e h
    simp only [List.foldl_cons]
    have hy := mergeInto_of_le e y (h y (List.mem_cons_self _ _))
    have := ih (mergeInto e y) (fun x hx => by
      rw [hy.2]; exact h x (List.mem_cons_of_mem _ hx))
    rw [this.1, this.2]
    exact hy

theorem foldl_mergeInto_winner (rs : List LocalConversation) :
    ∀ e : LocalConversation, (∃ x ∈ rs, e.LatestMsgSendTime < x.LatestMsgSendTime) →
      ∃ w, rs.find? (fun x =>
          decide (x.LatestMsgSendTime = (rs.foldl mergeInto e).LatestMsgSendTime)) = some w ∧
        (rs.foldl mergeInto e).LatestMsg = w.LatestMsg := by
  induction rs with
  | nil => intro e h; obtain ⟨x, hx, _⟩ := h; simp at hx
  | cons y ys ih =>
    intro e h
    simp only [List.foldl_cons]
    by_cases hy : e.LatestMsgSendTime < y.LatestMsgSendTime
    · have hm := mergeInto_of_lt e y hy
      by_cases hrest : ∃ x ∈ ys, y.LatestMsgSendTime < x.LatestMsgSendTime
      · have hrest' : ∃ x ∈ ys, (mergeInto e y).LatestMsgSendTime < x.LatestMsgSendTime := by
          rw [hm.2]; exact hrest
        obtain ⟨w, hw, hmsg⟩ := ih (mergeInto e y) hrest'
        refine ⟨w, ?_, hmsg⟩
        obtain ⟨x, hx, hlt⟩ := hrest
        have hge := (foldl_mergeInto_time_ge ys (mergeInto e y)).2 x hx
        have hne : y.LatestMsgSendTime ≠ (ys.foldl mergeInto (mergeInto e y)).LatestMsgSendTime :=
          ne_of_lt (lt_of_lt_of_le hlt hge)
        simp [List.find?_cons, hne, hw]
      · have hall : ∀ x ∈ ys, x.LatestMsgSendTime ≤ (mergeInto e y).LatestMsgSendTime := by
          intro x hx
          rw [hm.2]
          by_contra hc
          exact hrest ⟨x, hx, not_le.mp hc⟩
        have hk := foldl_mergeInto_keep ys (mergeInto e y) hall
        refine ⟨y, ?_, ?_⟩
        · simp [List.find?_cons, hk.2, hm.2]
        · rw [hk.1, hm.1]
    · have hm := mergeInto_of_le e y (not_lt.mp hy)
      have hrest : ∃ x ∈ ys, (mergeInto e y).LatestMsgSendTime < x.LatestMsgSendTime := by
        obtain ⟨x, hx, hlt⟩ := h
        rcases List.mem_cons.mp hx with rfl | hx
        · exact absurd hlt hy
        · exact ⟨x, hx, by rw [hm.2]; exact hlt⟩
      obtain ⟨w, hw, hmsg⟩ := ih (mergeInto e y) hrest
      refine ⟨w, ?_, hmsg⟩
      obtain ⟨x, hx, hlt⟩ := hrest
      have hge := (foldl_mergeInto_time_ge ys (mergeInto e y)).2 x hx
      rw [hm.2] at hlt
      have hne : y.LatestMsgSendTime ≠ (ys.foldl mergeInto (mergeInto e y)).LatestMsgSendTime :=
        ne_of_lt (lt_of_le_of_lt (not_lt.mp hy) (lt_of_lt_of_le hlt hge))
      simp [List.find?_cons, hne, hw]

/-- Summary of a fold of the records `r :: rs` of one conversation, started from `r`. -/
theorem foldl_mergeInto_summary (r : LocalConversation) (rs : List LocalConversation) :
    (∀ x ∈ r :: rs, x.LatestMsgSendTime ≤ (rs.foldl mergeInto r).LatestMsgSendTime) ∧
    (∃ w, (r :: rs).find? (fun x =>
        decide (x.LatestMsgSendTime = (rs.foldl mergeInto r).LatestMsgSendTime)) = some w ∧
      (rs.foldl mergeInto r).LatestMsg = w.LatestMsg) ∧
    (rs.foldl mergeInto r).UnreadCount = ((r :: rs).map (·.UnreadCount)).sum := by
  have hge := foldl_mergeInto_time_ge rs r
  refine ⟨?_, ?_, ?_⟩
  · intro x hx
    rcases List.mem_cons.mp hx with rfl | hx
    · exact hge.1
    · exact hge.2 x hx
  · by_cases h : ∃ x ∈ rs, r.LatestMsgSendTime < x.LatestMsgSendTime
    · obtain ⟨w, hw, hmsg⟩ := foldl_mergeInto_winner rs r h
      refine ⟨w, ?_, hmsg⟩
      obtain ⟨x, hx, hlt⟩ := h
      have hne : r.LatestMsgSendTime ≠ (rs.foldl mergeInto r).LatestMsgSendTime :=
        ne_of_lt (lt_of_lt_of_le hlt (hge.2 x hx))
      simp [List.find?_cons, hne, hw]
    · have hall : ∀ x ∈ rs, x.LatestMsgSendTime ≤ r.LatestMsgSendTime := by
        intro x hx
        by_contra hc
        exact h ⟨x, hx, not_le.mp hc⟩
      have hk := foldl_mergeInto_keep rs r hall
      exact ⟨r, by simp [List.find?_cons, hk.2], hk.1⟩
  · rw [foldl_mergeInto_unread]
    simp

theorem foldConversations_nonempty (cid : String) (rs : List LocalConversation)
    (hne : rs ≠ []) (hid : ∀ x ∈ rs, x.ConversationID = cid) :
    ∃ e, foldConversations rs [] = [(cid, e)] ∧
      (∀ x ∈ rs, x.LatestMsgSendTime ≤ e.LatestMsgSendTime) ∧
      (∃ w, rs.find? (fun x => decide (x.LatestMsgSendTime = e.LatestMsgSendTime)) = some w ∧
        e.LatestMsg = w.LatestMsg) ∧
      e.UnreadCount = (rs.map (·.UnreadCount)).sum := by
  cases rs with
  | nil => exact absurd rfl hne
  | cons r rs =>
    exact ⟨rs.foldl mergeInto r, foldConversations_cons_nil cid r rs hid,
      foldl_mergeInto_summary r rs⟩

/-- C2. Folding a non-empty list of provisional records of one conversation, in list
order, into the empty set gives a single entry: its send time is the maximum of the
list (not the last), its latest message is that of the first record attaining the
maximum, and its unread count is the sum of the records' unread counts. The sum is
taken with the Go addition of `int32` values: it is the integer sum of the counts
wrapped to 32 bits, and it is the integer sum itself whenever that sum lies in the
`int32` range. -/
theorem foldConversations_same_id (cid : String) (rs : List LocalConversation)
    (hne : rs ≠ []) (hid : ∀ x ∈ rs, x.ConversationID = cid) :
    ∃ e, foldConversations rs [] = [(cid, e)] ∧
      (∀ x ∈ rs, x.LatestMsgSendTime ≤ e.LatestMsgSendTime) ∧
      (∃ w, rs.find? (fun x => decide (x.LatestMsgSendTime = e.LatestMsgSendTime)) = some w ∧
        e.LatestMsg = w.LatestMsg) ∧
      e.UnreadCount = (rs.map (·.UnreadCount)).sum ∧
      e.UnreadCount.toInt = toInt32 ((rs.map (·.UnreadCount.toInt)).sum) ∧
      (-2 ^ 31 ≤ (rs.map (·.UnreadCount.toInt)).sum →
        (rs.map (·.UnreadCount.toInt)).sum < 2 ^ 31 →
        e.UnreadCount.toInt = (rs.map (·.UnreadCount.toInt)).sum) := by
  cases rs with
  | nil => exact absurd rfl hne
  | cons r rs =>
    obtain ⟨hmax, hwin, hsum⟩ := foldl_mergeInto_summary r rs
    have hint : (rs.foldl mergeInto r).UnreadCount.toInt =
        toInt32 (((r :: rs).map (·.UnreadCount.toInt)).sum) := by
      rw [hsum, goInt32_toInt_sum, List.map_map]
      rfl
    refine ⟨rs.foldl mergeInto r, ?_, hmax, hwin, hsum, hint, ?_⟩
    · exact foldConversations_cons_nil cid r rs hid
    · intro h1 h2
      rw [hint, toInt32_of_range _ h1 h2]

/-- Scenario S6 through C2: send times 300, 100, 500 give latest send time 500, the
snapshot of the 500-time message and unread count 3. -/
theorem foldConversations_same_id_witness :
    (∃ e, foldConversations s6Batch [] = [("c3", e)] ∧
      (∀ x ∈ s6Batch, x.LatestMsgSendTime ≤ e.LatestMsgSendTime) ∧
      (∃ w, s6Batch.find? (fun x => decide (x.LatestMsgSendTime = e.LatestMsgSendTime)) = some w ∧
        e.LatestMsg = w.LatestMsg) ∧
      e.UnreadCount = (s6Batch.map (·.UnreadCount)).sum ∧
      e.UnreadCount.toInt = toInt32 ((s6Batch.map (·.UnreadCount.toInt)).sum) ∧
      (-2 ^ 31 ≤ (s6Batch.map (·.UnreadCount.toInt)).sum →
        (s6Batch.map (·.UnreadCount.toInt)).sum < 2 ^ 31 →
        e.UnreadCount.toInt = (s6Batch.map (·.UnreadCount.toInt)).sum)) ∧
    (foldConversations s6Batch []).map
      (fun p => (p.1, p.2.LatestMsgSendTime, p.2.LatestMsg, p.2.UnreadCount)) =
      [("c3", 500, "m500", 3)] :=
  ⟨foldConversations_same_id "c3" s6Batch (by decide) (by decide), by decide⟩

/-- C1 at a concrete set: a second record of `c3` with a smaller send time adds its
unread count and keeps the latest message; on an entry with the largest `int32` as
unread count the addition wraps around to the smallest one. -/
theorem updateConversation_fold_rule_witness :
    (∃ e, (updateConversation c3Second [("c3", c3First)]).get? "c3" = some e ∧
      e = { c3First with UnreadCount := 2 } ∧
      e.UnreadCount.toInt = 2) ∧
    ((updateConversation c3Second
        [("c3", { c3First with UnreadCount := 2147483647 })]).get? "c3").map
      (·.UnreadCount.toInt) = some (-2147483648) := by
  obtain ⟨e, h1, h2, h3, _⟩ :=
    (updateConversation_fold_rule c3Second [("c3", c3First)]).2.1 c3First (by decide)
  exact ⟨⟨e, h1, by rw [h2]; decide, by rw [h3]; decide⟩, by decide⟩

/-! ### Order independence -/

theorem eq_of_countP_eq_one {α : Type} (p : α → Bool) (l : List α)
    (h : l.countP p = 1) (a b : α) (ha : a ∈ l) (hb : b ∈ l) (hpa : p a = true)
    (hpb : p b = true) : a = b := by
  rw [List.countP_eq_length_filter] at h
  obtain ⟨c, hc⟩ := List.length_eq_one.mp h
  have ha' : a ∈ l.filter p := List.mem_filter.mpr ⟨ha, hpa⟩
  have hb' : b ∈ l.filter p := List.mem_filter.mpr ⟨hb, hpb⟩
  rw [hc] at ha' hb'
  rw [List.mem_singleton.mp ha', List.mem_singleton.mp hb']

theorem foldConversations_nil_get? (cid : String) :
    (foldConversations [] ([] : GoMap LocalConversation)).get? cid = none := rfl

/-- C3. Per-batch aggregation does not depend on the insertion order: folding a list
of provisional records of one conversation and folding any permutation of it give the
same unread count and the same latest send time, and the same latest message whenever
exactly one record attains the maximal send time. -/
theorem foldConversations_perm (cid : String) (rs₁ rs₂ : List LocalConversation)
    (hp : rs₁.Perm rs₂) (hid : ∀ x ∈ rs₁, x.ConversationID = cid) :
    ((foldConversations rs₁ []).get? cid).map (·.UnreadCount) =
      ((foldConversations rs₂ []).get? cid).map (·.UnreadCount) ∧
    ((foldConversations rs₁ []).get? cid).map (·.LatestMsgSendTime) =
      ((foldConversations rs₂ []).get? cid).map (·.LatestMsgSendTime) ∧
    (rs₁.countP (attainsMax rs₁) = 1 →
      ((foldConversations rs₁ []).get? cid).map (·.LatestMsg) =
        ((foldConversations rs₂ []).get? cid).map (·.LatestMsg)) := by
  by_cases hne : rs₁ = []
  · subst hne
    have : rs₂ = [] := List.Perm.eq_nil (List.Perm.symm hp)
    subst this
    simp
  · have hne2 : rs₂ ≠ [] := fun h => hne (by subst h; exact List.Perm.eq_nil hp)
    have hid2 : ∀ x ∈ rs₂, x.ConversationID = cid := fun x hx => hid x (hp.mem_iff.mpr hx)
    obtain ⟨e₁, he₁, hmax₁, ⟨w₁, hw₁, hmsg₁⟩, hsum₁⟩ := foldConversations_nonempty cid rs₁ hne hid
    obtain ⟨e₂, he₂, hmax₂, ⟨w₂, hw₂, hmsg₂⟩, hsum₂⟩ := foldConversations_nonempty cid rs₂ hne2 hid2
    have hw₁mem : w₁ ∈ rs₁ := List.mem_of_find?_eq_some hw₁
    have hw₂mem : w₂ ∈ rs₂ := List.mem_of_find?_eq_some hw₂
    have hw₁t : w₁.LatestMsgSendTime = e₁.LatestMsgSendTime := by
      simpa using List.find?_some hw₁
    have hw₂t : w₂.LatestMsgSendTime = e₂.LatestMsgSendTime := by
      simpa using List.find?_some hw₂
    have htime : e₁.LatestMsgSendTime = e₂.LatestMsgSendTime := by
      apply le_antisymm
      · rw [← hw₁t]; exact hmax₂ w₁ (hp.mem_iff.mp hw₁mem)
      · rw [← hw₂t]; exact hmax₁ w₂ (hp.mem_iff.mpr hw₂mem)
    rw [he₁, he₂]
    simp only [GoMap.get?, if_true, Option.map_some']
    refine ⟨?_, ?_, ?_⟩
    · rw [hsum₁, hsum₂, (hp.map _).sum_eq]
    · rw [htime]
    · intro hcount
      have ha₁ : attainsMax rs₁ w₁ = true := by
        simp only [attainsMax, List.all_eq_true, decide_eq_true_eq]
        intro y hy; rw [hw₁t]; exact hmax₁ y hy
      have ha₂ : attainsMax rs₁ w₂ = true := by
        simp only [attainsMax, List.all_eq_true, decide_eq_true_eq]
        intro y hy; rw [hw₂t, ← htime]; exact hmax₁ y hy
      have := eq_of_countP_eq_one _ rs₁ hcount w₁ w₂ hw₁mem (hp.mem_iff.mpr hw₂mem) ha₁ ha₂
      rw [hmsg₁, hmsg₂, this]

/-- C3 at scenario S6 and its reversal. -/
theorem foldConversations_perm_witness :
    ((foldConversations s6Batch []).get? "c3").map (·.UnreadCount) =
      ((foldConversations s6Batch.reverse []).get? "c3").map (·.UnreadCount) ∧
    ((foldConversations s6Batch []).get? "c3").map (·.LatestMsgSendTime) =
      ((foldConversations s6Batch.reverse []).get? "c3").map (·.LatestMsgSendTime) ∧
    ((foldConversations s6Batch []).get? "c3").map (·.LatestMsg) =
      ((foldConversations s6Batch.reverse []).get? "c3").map (·.LatestMsg) :=
  have h := foldConversations_perm "c3" s6Batch s6Batch.reverse
    (List.reverse_perm s6Batch).symm (by decide)
  ⟨h.1, h.2.1, h.2.2 (by decide)⟩

/-! ### `diff` -/

theorem diffStep_of_ne (K : Constants) (E : Env) (st : DiffState) (v : LocalConversation)
    (k : String) (h : k ≠ v.ConversationID) :
    (diffStep K E st v).localMap.get? k = st.localMap.get? k ∧
    (diffStep K E st v).cc.get? k = st.cc.get? k ∧
    (diffStep K E st v).nc.get? k = st.nc.get? k := by
  unfold diffStep
  split
  · split <;> simp [GoMap.get?_set_of_ne _ _ _ _ h]
  · simp [GoMap.get?_set_of_ne _ _ _ _ h]

theorem foldl_diffStep_of_ne (K : Constants) (E : Env) (vs : List LocalConversation)
    (k : String) :
    ∀ st : DiffState, (∀ v ∈ vs, k ≠ v.ConversationID) →
      (vs.foldl (diffStep K E) st).localMap.get? k = st.localMap.get? k ∧
      (vs.foldl (diffStep K E) st).cc.get? k = st.cc.get? k ∧
      (vs.foldl (diffStep K E) st).nc.get? k = st.nc.get? k := by
  induction vs with
  | nil => intro st _; simp
  | cons v vs ih =>
    intro st h
    simp only [List.foldl_cons]
    obtain ⟨h1, h2, h3⟩ := ih (diffStep K E st v) (fun x hx => h x (List.mem_cons_of_mem _ hx))
    obtain ⟨g1, g2, g3⟩ := diffStep_of_ne K E st v k (h v (List.mem_cons_self _ _))
    exact ⟨h1.trans g1, h2.trans g2, h3.trans g3⟩

theorem diffStep_present (K : Constants) (E : Env) (st : DiffState) (g l : LocalConversation)
    (h : st.localMap.get? g.ConversationID = some l) :
    (diffStep K E st g).cc.get? g.ConversationID = some (mergeInto l g) ∧
    (diffStep K E st g).nc.get? g.ConversationID = st.nc.get? g.ConversationID := by
  unfold diffStep mergeInto
  rw [h]
  by_cases hlt : g.LatestMsgSendTime > l.LatestMsgSendTime <;>
    simp [hlt, GoMap.get?_set_self]

theorem diffStep_absent (K : Constants) (E : Env) (st : DiffState) (g : LocalConversation)
    (h : st.localMap.get? g.ConversationID = none) :
    (diffStep K E st g).nc.get? g.ConversationID = some (addFaceURLAndName K E g) ∧
    (diffStep K E st g).cc.get? g.ConversationID = st.cc.get? g.ConversationID := by
  unfold diffStep
  rw [h]
  simp [GoMap.get?_set_self]

theorem foldl_diffStep_at (K : Constants) (E : Env) (vs : List LocalConversation)
    (g : LocalConversation) :
    ∀ st : DiffState, (vs.map (·.ConversationID)).Nodup → g ∈ vs →
      (∀ l, st.localMap.get? g.ConversationID = some l →
        (vs.foldl (diffStep K E) st).cc.get? g.ConversationID = some (mergeInto l g) ∧
        (vs.foldl (diffStep K E) st).nc.get? g.ConversationID =
          st.nc.get? g.ConversationID) ∧
      (st.localMap.get? g.ConversationID = none →
        (vs.foldl (diffStep K E) st).nc.get? g.ConversationID =
          some (addFaceURLAndName K E g) ∧
        (vs.foldl (diffStep K E) st).cc.get? g.ConversationID =
          st.cc.get? g.ConversationID) := by
  induction vs with
  | nil => intro st _ hg; simp at hg
  | cons v vs ih =>
    intro st hnd hg
    simp only [List.map_cons, List.nodup_cons] at hnd
    obtain ⟨hv, hnd⟩ := hnd
    simp only [List.foldl_cons]
    rcases List.mem_cons.mp hg with rfl | hg
    · have hrest : ∀ x ∈ vs, g.ConversationID ≠ x.ConversationID := by
        intro x hx heq
        exact hv (List.mem_map.mpr ⟨x, hx, heq.symm⟩)
      obtain ⟨_, f2, f3⟩ := foldl_diffStep_of_ne K E vs g.ConversationID (diffStep K E st g) hrest
      refine ⟨?_, ?_⟩
      · intro l hl
        obtain ⟨a, b⟩ := diffStep_present K E st g l hl
        exact ⟨f2.trans a, f3.trans b⟩
      · intro hl
        obtain ⟨a, b⟩ := diffStep_absent K E st g hl
        exact ⟨f3.trans a, f2.trans b⟩
    · have hne : g.ConversationID ≠ v.ConversationID := by
        intro heq
        exact hv (List.mem_map.mpr ⟨g, hg, heq⟩)
      obtain ⟨g1, g2, g3⟩ := diffStep_of_ne K E st v g.ConversationID hne
      obtain ⟨i1, i2⟩ := ih (diffStep K E st v) hnd hg
      refine ⟨?_, ?_⟩
      · intro l hl
        obtain ⟨a, b⟩ := i1 l (g1.trans hl)
        exact ⟨a, b.trans g3⟩
      · intro hl
        obtain ⟨a, b⟩ := i2 (g1.trans hl)
        exact ⟨a, b.trans g2⟩

/-! ### The loop and the aggregator -/

theorem loopBody_of_classified (K : Constants) (E : Env)
    (switch1 : MsgData → MsgStruct → List Effect × Bool)
    (classifier : BatchState → MsgData → Nat → MsgStruct → BatchState)
    (s : BatchState) (v : MsgData) (msg : MsgStruct)
    (h : classified K E switch1 v = some msg) :
    loopBody K E switch1 classifier s v =
      classifier
        { s with nextPtr := s.nextPtr + 1, effects := s.effects ++ (route K switch1 v msg).1 }
        v s.nextPtr msg := by
  unfold classified at h
  unfold loopBody
  cases hp : prepare K E v with
  | ok m =>
    rw [hp] at h
    simp only at h ⊢
    by_cases hr : (route K switch1 v m).2 = true
    · simp [hr] at h
    · simp only [hr, if_false] at h ⊢
      cases h
      rfl
  | hasDeleted m => rw [hp] at h; simp at h
  | decodeError => rw [hp] at h; simp at h
  | emptyID m => rw [hp] at h; simp at h

theorem loopBody_of_not_classified (K : Constants) (E : Env)
    (switch1 : MsgData → MsgStruct → List Effect × Bool)
    (classifier : BatchState → MsgData → Nat → MsgStruct → BatchState)
    (s : BatchState) (v : MsgData) (h : classified K E switch1 v = none) :
    (loopBody K E switch1 classifier s v).conversationSet = s.conversationSet ∧
    (loopBody K E switch1 classifier s v).unreadMessages = s.unreadMessages ∧
    (loopBody K E switch1 classifier s v).isTriggerUnReadCount = s.isTriggerUnReadCount := by
  unfold classified at h
  unfold loopBody
  cases hp : prepare K E v with
  | ok m =>
    rw [hp] at h
    simp only at h ⊢
    by_cases hr : (route K switch1 v m).2 = true
    · simp [hr]
    · simp [hr] at h
  | hasDeleted m => simp
  | decodeError => simp
  | emptyID m => simp

theorem senderDispatch_frame (K : Constants) (s : BatchState) (m : MsgRef) :
    (senderDispatch K s m).conversationSet = s.conversationSet ∧
    (senderDispatch K s m).unreadMessages = s.unreadMessages ∧
    (senderDispatch K s m).isTriggerUnReadCount = s.isTriggerUnReadCount := by
  refine ⟨?_, ?_, ?_⟩
  · simp only [senderDispatch, apply_ite BatchState.conversationSet, ite_self]
  · simp only [senderDispatch, apply_ite BatchState.unreadMessages, ite_self]
  · simp only [senderDispatch, apply_ite BatchState.isTriggerUnReadCount, ite_self]

theorem receiverDispatch_frame (K : Constants) (v : MsgData) (s : BatchState) (m : MsgRef) :
    (receiverDispatch K v s m).conversationSet = s.conversationSet ∧
    (receiverDispatch K v s m).unreadMessages = s.unreadMessages ∧
    (receiverDispatch K v s m).isTriggerUnReadCount = s.isTriggerUnReadCount := by
  refine ⟨?_, ?_, ?_⟩
  · simp only [receiverDispatch, apply_ite BatchState.conversationSet, ite_self]
  · simp only [receiverDispatch, apply_ite BatchState.unreadMessages, ite_self]
  · simp only [receiverDispatch, apply_ite BatchState.isTriggerUnReadCount, ite_self]

theorem superReceiverDispatch_frame (K : Constants) (v : MsgData) (s : BatchState)
    (m : MsgRef) :
    (superReceiverDispatch K v s m).conversationSet = s.conversationSet ∧
    (superReceiverDispatch K v s m).unreadMessages = s.unreadMessages ∧
    (superReceiverDispatch K v s m).isTriggerUnReadCount = s.isTriggerUnReadCount := by
  refine ⟨?_, ?_, ?_⟩
  · simp only [superReceiverDispatch, apply_ite BatchState.conversationSet, ite_self]
  · simp only [superReceiverDispatch, apply_ite BatchState.unreadMessages, ite_self]
  · simp only [superReceiverDispatch, apply_ite BatchState.isTriggerUnReadCount, ite_self]

theorem senderNotFound_conversationSet (K : Constants) (E : Env) (s : BatchState)
    (v : MsgData) (ptr : Nat) (msg : MsgStruct) :
    (senderNotFound K E s v ptr msg).conversationSet =
      (if v.Options.IsConversationUpdate = true ∧ v.Options.IsSenderConversationUpdate = true
        then updateConversation (senderConversation K E v msg) s.conversationSet
        else s.conversationSet) ∧
    (senderNotFound K E s v ptr msg).unreadMessages = s.unreadMessages ∧
    (senderNotFound K E s v ptr msg).isTriggerUnReadCount = s.isTriggerUnReadCount := by
  unfold senderNotFound
  simp only [(senderDispatch_frame K _ _).1, (senderDispatch_frame K _ _).2.1,
    (senderDispatch_frame K _ _).2.2]
  cases v.Options.IsConversationUpdate <;> cases v.Options.IsSenderConversationUpdate <;>
    cases v.Options.IsHistory <;> simp

/-- The record the receiver branch builds after the unread decision. -/
theorem receiverNotFound_conversationSet (K : Constants) (E : Env) (s : BatchState)
    (v : MsgData) (ptr : Nat) (msg : MsgStruct) :
    (receiverNotFound K E s v ptr msg).conversationSet =
      (if v.Options.IsConversationUpdate = true then
        updateConversation
          (if unreadGate E v msg (receiverConversation K E v msg) = true then
            { receiverConversation K E v msg with UnreadCount := 1 }
          else receiverConversation K E v msg) s.conversationSet
        else s.conversationSet) := by
  unfold receiverNotFound
  simp only [(receiverDispatch_frame K _ _ _).1]
  cases v.Options.IsConversationUpdate <;> cases v.Options.IsHistory <;>
    cases unreadGate E v msg (receiverConversation K E v msg) <;> simp

theorem receiverNotFound_unread (K : Constants) (E : Env) (s : BatchState)
    (v : MsgData) (ptr : Nat) (msg : MsgStruct) :
    (receiverNotFound K E s v ptr msg).unreadMessages =
      (if unreadGate E v msg (receiverConversation K E v msg) = true then
        s.unreadMessages ++
          [{ ConversationID := (receiverConversation K E v msg).ConversationID
             ClientMsgID := msg.ClientMsgID
             SendTime := msg.SendTime }]
      else s.unreadMessages) ∧
    (receiverNotFound K E s v ptr msg).isTriggerUnReadCount =
      (s.isTriggerUnReadCount || unreadGate E v msg (receiverConversation K E v msg)) := by
  unfold receiverNotFound
  simp only [(receiverDispatch_frame K _ _ _).2.1, (receiverDispatch_frame K _ _ _).2.2]
  cases v.Options.IsConversationUpdate <;> cases v.Options.IsHistory <;>
    cases unreadGate E v msg (receiverConversation K E v msg) <;> simp

theorem superReceiverNotFound_conversationSet (K : Constants) (E : Env) (s : BatchState)
    (v : MsgData) (ptr : Nat) (msg : MsgStruct) :
    (superReceiverNotFound K E s v ptr msg).conversationSet =
      (if v.Options.IsConversationUpdate = true then
        updateConversation
          (if unreadGate E v msg (receiverConversation K E v msg) = true then
            { receiverConversation K E v msg with UnreadCount := 1 }
          else receiverConversation K E v msg) s.conversationSet
        else s.conversationSet) := by
  unfold superReceiverNotFound
  simp only [(superReceiverDispatch_frame K _ _ _).1]
  cases v.Options.IsConversationUpdate <;> cases v.Options.IsHistory <;>
    cases unreadGate E v msg (receiverConversation K E v msg) <;> simp

theorem superReceiverNotFound_unread (K : Constants) (E : Env) (s : BatchState)
    (v : MsgData) (ptr : Nat) (msg : MsgStruct) :
    (superReceiverNotFound K E s v ptr msg).unreadMessages =
      (if unreadGate E v msg (receiverConversation K E v msg) = true then
        s.unreadMessages ++
          [{ ConversationID := (receiverConversation K E v msg).ConversationID
             ClientMsgID := msg.ClientMsgID
             SendTime := msg.SendTime }]
      else s.unreadMessages) ∧
    (superReceiverNotFound K E s v ptr msg).isTriggerUnReadCount =
      (s.isTriggerUnReadCount || unreadGate E v msg (receiverConversation K E v msg)) := by
  unfold superReceiverNotFound
  simp only [(superReceiverDispatch_frame K _ _ _).2.1,
    (superReceiverDispatch_frame K _ _ _).2.2]
  cases v.Options.IsConversationUpdate <;> cases v.Options.IsHistory <;>
    cases unreadGate E v msg (receiverConversation K E v msg) <;> simp

theorem classify_conversationSet (K : Constants) (E : Env) (s : BatchState)
    (v : MsgData) (ptr : Nat) (msg : MsgStruct) :
    (classify K E s v ptr msg).conversationSet =
      (match E.GetMessageController msg with
       | some _ => s.conversationSet
       | none =>
         match foldedRecord K E v msg with
         | some lc => updateConversation lc s.conversationSet
         | none => s.conversationSet) := by
  unfold classify foldedRecord
  by_cases hs : v.SendID = E.loginUserID
  · simp only [hs, if_true]
    cases hg : E.GetMessageController msg with
    | some m => simp only; split_ifs <;> rfl
    | none =>
      simp only [(senderNotFound_conversationSet K E s v ptr msg).1]
      split_ifs <;> rfl
  · simp only [hs, if_false]
    cases hg : E.GetMessageController msg with
    | some m => rfl
    | none =>
      simp only [receiverNotFound_conversationSet]
      split_ifs <;> rfl

theorem superClassify_conversationSet (K : Constants) (E : Env) (s : BatchState)
    (v : MsgData) (ptr : Nat) (msg : MsgStruct) :
    (superClassify K E s v ptr msg).conversationSet =
      (match E.GetMessageController msg with
       | some _ => s.conversationSet
       | none =>
         match foldedRecord K E v msg with
         | some lc => updateConversation lc s.conversationSet
         | none => s.conversationSet) := by
  unfold superClassify foldedRecord
  by_cases hs : v.SendID = E.loginUserID
  · simp only [hs, if_true]
    cases hg : E.GetMessageController msg with
    | some m => simp only; split_ifs <;> rfl
    | none =>
      simp only [(senderNotFound_conversationSet K E s v ptr msg).1]
      split_ifs <;> rfl
  · simp only [hs, if_false]
    cases hg : E.GetMessageController msg with
    | some m => simp only; split_ifs <;> rfl
    | none =>
      simp only [superReceiverNotFound_conversationSet]
      split_ifs <;> rfl

theorem loopBody_conversationSet (K : Constants) (E : Env)
    (switch1 : MsgData → MsgStruct → List Effect × Bool)
    (classifier : BatchState → MsgData → Nat → MsgStruct → BatchState)
    (hc : FoldsAs K E classifier) (s : BatchState) (v : MsgData) :
    (loopBody K E switch1 classifier s v).conversationSet =
      (match aggregated K E switch1 v with
       | some lc => updateConversation lc s.conversationSet
       | none => s.conversationSet) := by
  unfold aggregated
  cases hcl : classified K E switch1 v with
  | none => exact (loopBody_of_not_classified K E switch1 classifier s v hcl).1
  | some msg =>
    rw [loopBody_of_classified K E switch1 classifier s v msg hcl, hc]
    cases hg : E.GetMessageController msg <;> simp [hg]

theorem foldl_loopBody_conversationSet (K : Constants) (E : Env)
    (switch1 : MsgData → MsgStruct → List Effect × Bool)
    (classifier : BatchState → MsgData → Nat → MsgStruct → BatchState)
    (hc : FoldsAs K E classifier) (msgs : List MsgData) :
    ∀ s : BatchState,
      (msgs.foldl (loopBody K E switch1 classifier) s).conversationSet =
        foldConversations (msgs.filterMap (aggregated K E switch1)) s.conversationSet := by
  induction msgs with
  | nil => intro s; rfl
  | cons v vs ih =>
    intro s
    simp only [List.foldl_cons]
    rw [ih, loopBody_conversationSet K E switch1 classifier hc]
    cases ha : aggregated K E switch1 v with
    | none => simp [List.filterMap_cons, ha]
    | some lc => simp [List.filterMap_cons, ha, foldConversations]

/-! ### Folding records of several conversations -/

theorem foldConversations_get? (c : String) (rs : List LocalConversation) :
    ∀ cs : GoMap LocalConversation,
      (foldConversations rs cs).get? c =
        (rs.filter fun r => decide (r.ConversationID = c)).foldl
          (fun o r => some (match o with
            | none => r
            | some e => mergeInto e r)) (cs.get? c) := by
  induction rs with
  | nil => intro cs; rfl
  | cons r rs ih =>
    intro cs
    have hstep : foldConversations (r :: rs) cs = foldConversations rs (updateConversation r cs) :=
      rfl
    rw [hstep, ih]
    by_cases hc : r.ConversationID = c
    · subst hc
      simp [List.filter_cons, updateConversation_get?_self]
    · have hne : c ≠ r.ConversationID := fun h => hc h.symm
      simp [List.filter_cons, hc, updateConversation_get?_of_ne r cs c hne]

theorem foldl_entry_some (rs : List LocalConversation) :
    ∀ e : LocalConversation,
      rs.foldl (fun o r => some (match o with
        | none => r
        | some e => mergeInto e r)) (some e) = some (rs.foldl mergeInto e) := by
  induction rs with
  | nil => intro e; rfl
  | cons r rs ih => intro e; simp only [List.foldl_cons]; exact ih _

/-- The unread count of an entry of a folded set is the sum of the unread counts of
the folded records of that conversation. -/
theorem foldConversations_unread (c : String) (rs : List LocalConversation)
    (e : LocalConversation) (h : (foldConversations rs []).get? c = some e) :
    e.UnreadCount =
      ((rs.filter fun r => decide (r.ConversationID = c)).map (·.UnreadCount)).sum := by
  rw [foldConversations_get?] at h
  cases hf : rs.filter (fun r => decide (r.ConversationID = c)) with
  | nil => rw [hf] at h; simp [GoMap.get?] at h
  | cons r rest =>
    rw [hf] at h
    simp only [List.foldl_cons, GoMap.get?] at h
    rw [foldl_entry_some] at h
    cases h
    rw [foldl_mergeInto_unread]
    simp

/-! ### Which messages count as unread -/

theorem markAttachedInfo_fields (E : Env) (v : MsgData) (m : MsgStruct) :
    (markAttachedInfo E v m).SendTime = m.SendTime ∧
    (markAttachedInfo E v m).ClientMsgID = m.ClientMsgID ∧
    (markAttachedInfo E v m).Status = m.Status := by
  unfold markAttachedInfo
  cases v.Options.IsSenderNotificationPush <;> cases v.Options.IsNotPrivate <;>
    exact ⟨rfl, rfl, rfl⟩

theorem decodeElem_fields (E : Env) (m d : MsgStruct) (store : MsgStruct → String → MsgStruct)
    (hstore : ∀ x e, (store x e).SendTime = x.SendTime ∧ (store x e).ClientMsgID = x.ClientMsgID ∧
      (store x e).Status = x.Status)
    (h : decodeElem E m store = some d) :
    d.SendTime = m.SendTime ∧ d.ClientMsgID = m.ClientMsgID ∧ d.Status = m.Status := by
  unfold decodeElem at h
  obtain ⟨e, _, rfl⟩ := Option.map_eq_some'.mp h
  exact hstore m e

theorem decodeContent_fields (K : Constants) (E : Env) (m d : MsgStruct)
    (h : decodeContent K E m = some d) :
    d.SendTime = m.SendTime ∧ d.ClientMsgID = m.ClientMsgID ∧ d.Status = m.Status := by
  unfold decodeContent at h
  by_cases cN : m.ContentType ≥ K.NotificationBegin ∧ m.ContentType ≤ K.NotificationEnd
  · rw [if_pos cN] at h
    obtain ⟨t, _, rfl⟩ := Option.map_eq_some'.mp h
    exact ⟨rfl, rfl, rfl⟩
  rw [if_neg cN] at h
  by_cases cT : m.ContentType = K.Text
  · rw [if_pos cT] at h
    by_cases cE : m.AttachedInfoElem.IsEncryption = true ∧ E.encryptionKey ≠ "" ∧
        m.AttachedInfoElem.InEncryptStatus = true
    · rw [if_pos cE] at h
      obtain ⟨t, _, rfl⟩ := Option.map_eq_some'.mp h
      exact ⟨rfl, rfl, rfl⟩
    · rw [if_neg cE] at h
      cases h
      exact ⟨rfl, rfl, rfl⟩
  rw [if_neg cT] at h
  by_cases cPicture : m.ContentType = K.Picture
  · rw [if_pos cPicture] at h
    refine decodeElem_fields E _ d _ (fun _ _ => ?_) h
    exact ⟨rfl, rfl, rfl⟩
  rw [if_neg cPicture] at h
  by_cases cVoice : m.ContentType = K.Voice
  · rw [if_pos cVoice] at h
    refine decodeElem_fields E _ d _ (fun _ _ => ?_) h
    exact ⟨rfl, rfl, rfl⟩
  rw [if_neg cVoice] at h
  by_cases cVideo : m.ContentType = K.Video
  · rw [if_pos cVideo] at h
    refine decodeElem_fields E _ d _ (fun _ _ => ?_) h
    exact ⟨rfl, rfl, rfl⟩
  rw [if_neg cVideo] at h
  by_cases cFile : m.ContentType = K.File
  · rw [if_pos cFile] at h
    refine decodeElem_fields E _ d _ (fun _ _ => ?_) h
    exact ⟨rfl, rfl, rfl⟩
  rw [if_neg cFile] at h
  by_cases cAdvancedText : m.ContentType = K.AdvancedText
  · rw [if_pos cAdvancedText] at h
    refine decodeElem_fields E _ d _ (fun _ _ => ?_) h
    exact ⟨rfl, rfl, rfl⟩
  rw [if_neg cAdvancedText] at h
  by_cases cA : m.ContentType = K.AtText
  · rw [if_pos cA] at h
    obtain ⟨t, _, rfl⟩ := Option.map_eq_some'.mp h
    by_cases cM : E.loginUserID ∈ t.AtUserList
    · rw [if_pos cM]; exact ⟨rfl, rfl, rfl⟩
    · rw [if_neg cM]; exact ⟨rfl, rfl, rfl⟩
  rw [if_neg cA] at h
  by_cases cLocation : m.ContentType = K.Location
  · rw [if_pos cLocation] at h
    refine decodeElem_fields E _ d _ (fun _ _ => ?_) h
    exact ⟨rfl, rfl, rfl⟩
  rw [if_neg cLocation] at h
  by_cases cCustom : m.ContentType = K.Custom
  · rw [if_pos cCustom] at h
    refine decodeElem_fields E _ d _ (fun _ _ => ?_) h
    exact ⟨rfl, rfl, rfl⟩
  rw [if_neg cCustom] at h
  by_cases cQuote : m.ContentType = K.Quote
  · rw [if_pos cQuote] at h
    refine decodeElem_fields E _ d _ (fun _ _ => ?_) h
    exact ⟨rfl, rfl, rfl⟩
  rw [if_neg cQuote] at h
  by_cases cMerger : m.ContentType = K.Merger
  · rw [if_pos cMerger] at h
    refine decodeElem_fields E _ d _ (fun _ _ => ?_) h
    exact ⟨rfl, rfl, rfl⟩
  rw [if_neg cMerger] at h
  by_cases cFace : m.ContentType = K.Face
  · rw [if_pos cFace] at h
    refine decodeElem_fields E _ d _ (fun _ _ => ?_) h
    exact ⟨rfl, rfl, rfl⟩
  rw [if_neg cFace] at h
  by_cases cCustomMsgNotTriggerConversation : m.ContentType = K.CustomMsgNotTriggerConversation
  · rw [if_pos cCustomMsgNotTriggerConversation] at h
    refine decodeElem_fields E _ d _ (fun _ _ => ?_) h
    exact ⟨rfl, rfl, rfl⟩
  rw [if_neg cCustomMsgNotTriggerConversation] at h
  by_cases cCustomMsgOnlineOnly : m.ContentType = K.CustomMsgOnlineOnly
  · rw [if_pos cCustomMsgOnlineOnly] at h
    refine decodeElem_fields E _ d _ (fun _ _ => ?_) h
    exact ⟨rfl, rfl, rfl⟩
  rw [if_neg cCustomMsgOnlineOnly] at h
  cases h
  exact ⟨rfl, rfl, rfl⟩

theorem msgHandleByContentType_fields (K : Constants) (E : Env) (m d : MsgStruct)
    (h : msgHandleByContentType K E m = some d) :
    d.SendTime = m.SendTime ∧ d.ClientMsgID = m.ClientMsgID ∧ d.Status = m.Status :=
  decodeContent_fields K E { m with AttachedInfoElem := E.jsonToAttachedInfo m.AttachedInfo } d h

theorem prepare_ok_fields (K : Constants) (E : Env) (v : MsgData) (msg : MsgStruct)
    (h : prepare K E v = Prepared.ok msg) :
    msg.SendTime = v.SendTime ∧ msg.ClientMsgID = v.ClientMsgID ∧
    msg.Status = K.MsgStatusSendSuccess ∧ msg.ClientMsgID ≠ "" ∧
    v.Status ≠ K.MsgStatusHasDeleted := by
  unfold prepare at h
  split at h
  · cases h
  · next hs =>
    split at h
    · cases h
    · next decoded hd =>
      split at h
      · cases h
      · next hid =>
        cases h
        obtain ⟨a, b, c⟩ := msgHandleByContentType_fields K E _ decoded hd
        obtain ⟨a', b', c'⟩ := markAttachedInfo_fields E v decoded
        refine ⟨a'.trans a, b'.trans b, c'.trans c, hid, hs⟩

theorem classified_fields (K : Constants) (E : Env)
    (switch1 : MsgData → MsgStruct → List Effect × Bool) (v : MsgData) (msg : MsgStruct)
    (h : classified K E switch1 v = some msg) :
    prepare K E v = Prepared.ok msg ∧ (route K switch1 v msg).2 = false := by
  unfold classified at h
  cases hp : prepare K E v with
  | ok m =>
    rw [hp] at h
    simp only at h
    by_cases hr : (route K switch1 v m).2 = true
    · simp [hr] at h
    · simp only [hr, if_false] at h
      cases h
      exact ⟨rfl, by simpa using hr⟩
  | hasDeleted m => rw [hp] at h; simp at h
  | decodeError => rw [hp] at h; simp at h
  | emptyID m => rw [hp] at h; simp at h

theorem receiverConversation_fields (K : Constants) (E : Env) (v : MsgData) (msg : MsgStruct) :
    (receiverConversation K E v msg).ConversationID = receiverConversationID K E v ∧
    (receiverConversation K E v msg).UnreadCount = 0 ∧
    (receiverConversation K E v msg).LatestMsgSendTime = msg.SendTime := by
  unfold receiverConversation receiverConversationID
  simp only
  split_ifs <;> exact ⟨rfl, rfl, rfl⟩

theorem senderConversation_fields (K : Constants) (E : Env) (v : MsgData) (msg : MsgStruct) :
    (senderConversation K E v msg).UnreadCount = 0 ∧
    (senderConversation K E v msg).LatestMsgSendTime = msg.SendTime := by
  unfold senderConversation
  simp only
  split_ifs <;> exact ⟨rfl, rfl⟩

theorem unreadGate_eq (K : Constants) (E : Env) (v : MsgData) (msg : MsgStruct)
    (ht : msg.SendTime = v.SendTime) (hs : v.SendID ≠ E.loginUserID) :
    unreadGate E v msg (receiverConversation K E v msg) = passesUnreadGating K E v := by
  unfold unreadGate passesUnreadGating
  rw [(receiverConversation_fields K E v msg).1, ht]
  simp [hs]

/-- A folded record carries unread count 1 exactly when its message counts as unread
for the conversation of the record, and 0 otherwise. -/
theorem aggregated_unread (K : Constants) (E : Env)
    (switch1 : MsgData → MsgStruct → List Effect × Bool) (v : MsgData) (lc : LocalConversation)
    (h : aggregated K E switch1 v = some lc) (c : String) :
    (if lc.ConversationID = c then lc.UnreadCount else 0) =
      if countsUnread K E switch1 c v = true then 1 else 0 := by
  unfold aggregated at h
  unfold countsUnread
  cases hcl : classified K E switch1 v with
  | none => rw [hcl] at h; simp at h
  | some msg =>
    rw [hcl] at h
    simp only at h ⊢
    have ht := (prepare_ok_fields K E v msg (classified_fields K E switch1 v msg hcl).1).1
    have key : E.GetMessageController msg = none ∧ foldedRecord K E v msg = some lc := by
      revert h
      cases E.GetMessageController msg <;> simp
    obtain ⟨hg, h⟩ := key
    simp only [hg, Option.isNone_none, Bool.true_and]
    unfold foldedRecord at h
    by_cases hs : v.SendID = E.loginUserID
    · simp only [hs, if_true] at h
      split at h
      · cases h
        simp [passesUnreadGating, hs, (senderConversation_fields K E v msg).1]
      · cases h
    · simp only [hs, if_false] at h
      split at h
      · next hcu =>
        cases h
        rw [unreadGate_eq K E v msg ht hs]
        cases hp : passesUnreadGating K E v <;>
          by_cases hc : receiverConversationID K E v = c <;>
          simp [hcu, hc, (receiverConversation_fields K E v msg).1,
            (receiverConversation_fields K E v msg).2.1]
      · cases h

theorem countsUnread_of_not_aggregated (K : Constants) (E : Env)
    (switch1 : MsgData → MsgStruct → List Effect × Bool) (v : MsgData)
    (h : aggregated K E switch1 v = none) (c : String) :
    countsUnread K E switch1 c v = false := by
  unfold aggregated at h
  unfold countsUnread
  cases hcl : classified K E switch1 v with
  | none => rfl
  | some msg =>
    rw [hcl] at h
    simp only at h ⊢
    by_cases hg : E.GetMessageController msg = none
    · rw [hg] at h
      simp only at h
      unfold foldedRecord at h
      by_cases hs : v.SendID = E.loginUserID
      · simp [passesUnreadGating, hs]
      · simp only [hs, if_false] at h
        split at h
        · cases h
        · next hcu => simp [hcu]
    · obtain ⟨m, hm⟩ := Option.ne_none_iff_exists'.mp hg
      simp [hm]

theorem goInt32_zero_ne_one : (0 : GoInt32) ≠ 1 := by decide

theorem sum_unread_eq_countP (K : Constants) (E : Env)
    (switch1 : MsgData → MsgStruct → List Effect × Bool) (c : String) (msgs : List MsgData) :
    (((msgs.filterMap (aggregated K E switch1)).filter
        fun r => decide (r.ConversationID = c)).map (·.UnreadCount)).sum =
      ((msgs.countP (countsUnread K E switch1 c) : Nat) : GoInt32) := by
  induction msgs with
  | nil => rfl
  | cons v vs ih =>
    cases ha : aggregated K E switch1 v with
    | none =>
      have hn := countsUnread_of_not_aggregated K E switch1 v ha c
      rw [List.filterMap_cons, ha, List.countP_cons, hn]
      simp only [Bool.false_eq_true, if_false, Nat.add_zero]
      exact ih
    | some lc =>
      have hu := aggregated_unread K E switch1 v lc ha c
      rw [List.filterMap_cons, ha, List.countP_cons]
      simp only [List.filter_cons]
      by_cases hc : lc.ConversationID = c
      · rw [if_pos hc] at hu
        rw [if_pos (by simpa using hc), List.map_cons, List.sum_cons, ih, hu]
        by_cases hcu : countsUnread K E switch1 c v = true
        · rw [if_pos hcu, if_pos hcu, Nat.cast_succ, add_comm]
        · rw [if_neg hcu, if_neg hcu, zero_add, Nat.add_zero]
      · rw [if_neg hc] at hu
        have hcu : ¬ countsUnread K E switch1 c v = true := by
          intro hne
          rw [if_pos hne] at hu
          exact goInt32_zero_ne_one hu
        rw [if_neg (by simpa using hc), if_neg hcu, Nat.add_zero]
        exact ih

/-! ### Rows of the maps -/

namespace GoMap

variable {V : Type}

theorem mem_set (m : GoMap V) (k : String) (v : V) (p : String × V) (h : p ∈ m.set k v) :
    p = (k, v) ∨ p ∈ m := by
  induction m with
  | nil => simp [set] at h; exact Or.inl h
  | cons q rest ih =>
    obtain ⟨k0, v0⟩ := q
    by_cases h0 : k0 = k
    · simp only [set, h0, if_true, List.mem_cons] at h
      rcases h with h | h
      · exact Or.inl h
      · exact Or.inr (List.mem_cons_of_mem _ h)
    · simp only [set, h0, if_false, List.mem_cons] at h
      rcases h with h | h
      · exact Or.inr (by rw [h]; exact List.mem_cons_self _ _)
      · rcases ih h with h | h
        · exact Or.inl h
        · exact Or.inr (List.mem_cons_of_mem _ h)

theorem mem_values_iff (m : GoMap V) (v : V) : v ∈ m.values ↔ ∃ k, (k, v) ∈ m := by
  unfold values
  constructor
  · intro h
    obtain ⟨p, hp, rfl⟩ := List.mem_map.mp h
    exact ⟨p.1, hp⟩
  · intro h
    obtain ⟨k, hk⟩ := h
    exact List.mem_map.mpr ⟨(k, v), hk, rfl⟩

theorem mem_of_get? (m : GoMap V) (k : String) (v : V) (h : m.get? k = some v) : (k, v) ∈ m := by
  induction m with
  | nil => simp [get?] at h
  | cons q rest ih =>
    obtain ⟨k0, v0⟩ := q
    by_cases h0 : k0 = k
    · simp only [get?, h0, if_true, Option.some.injEq] at h
      subst h0 h
      exact List.mem_cons_self _ _
    · simp only [get?, h0, if_false] at h
      exact List.mem_cons_of_mem _ (ih h)

theorem get?_of_mem (m : GoMap V) (hnd : m.keys.Nodup) (k : String) (v : V) (h : (k, v) ∈ m) :
    m.get? k = some v := by
  induction m with
  | nil => simp at h
  | cons q rest ih =>
    obtain ⟨k0, v0⟩ := q
    simp only [keys, List.map_cons, List.nodup_cons] at hnd
    rcases List.mem_cons.mp h with h | h
    · cases h
      simp [get?]
    · have hne : k0 ≠ k := by
        intro heq
        subst heq
        exact hnd.1 (List.mem_map.mpr ⟨(k0, v), h, rfl⟩)
      simp only [get?, hne, if_false]
      exact ih hnd.2 h

theorem keys_set (m : GoMap V) (k : String) (v : V) :
    (m.set k v).keys = if k ∈ m.keys then m.keys else m.keys ++ [k] := by
  induction m with
  | nil => simp [set, keys]
  | cons q rest ih =>
    obtain ⟨k0, v0⟩ := q
    by_cases h0 : k0 = k
    · subst h0
      simp [set, keys]
    · have hne : ¬ k = k0 := fun h => h0 h.symm
      simp only [keys] at ih
      simp only [set, h0, if_false, keys, List.map_cons, List.mem_cons, hne, false_or, ih]
      split <;> simp

theorem nodup_keys_set (m : GoMap V) (k : String) (v : V) (h : m.keys.Nodup) :
    (m.set k v).keys.Nodup := by
  rw [keys_set]
  split
  · exact h
  · next hk =>
    exact List.Nodup.append h (List.nodup_singleton k) (by
      intro a ha hb
      rw [List.mem_singleton] at hb
      subst hb
      exact hk ha)

end GoMap

theorem mergeInto_id (e lc : LocalConversation) :
    (mergeInto e lc).ConversationID = e.ConversationID := by
  unfold mergeInto; split <;> rfl

theorem updateConversation_eq_set (lc : LocalConversation) (cs : GoMap LocalConversation) :
    updateConversation lc cs =
      cs.set lc.ConversationID (match cs.get? lc.ConversationID with
        | none => lc
        | some e => mergeInto e lc) := by
  unfold updateConversation mergeInto
  cases h : cs.get? lc.ConversationID with
  | none => rfl
  | some e =>
    simp only
    split <;> rfl

theorem keyedByID_updateConversation (lc : LocalConversation) (cs : GoMap LocalConversation)
    (h : KeyedByID cs) : KeyedByID (updateConversation lc cs) := by
  rw [updateConversation_eq_set]
  refine ⟨GoMap.nodup_keys_set _ _ _ h.1, ?_⟩
  intro p hp
  rcases GoMap.mem_set _ _ _ _ hp with hp | hp
  · rw [hp]
    cases hg : cs.get? lc.ConversationID with
    | none => rfl
    | some e =>
      simp only [mergeInto_id]
      exact h.2 _ (GoMap.mem_of_get? _ _ _ hg)
  · exact h.2 p hp

theorem keyedByID_foldConversations (rs : List LocalConversation) :
    ∀ cs : GoMap LocalConversation, KeyedByID cs → KeyedByID (foldConversations rs cs) := by
  induction rs with
  | nil => intro cs h; exact h
  | cons r rs ih =>
    intro cs h
    exact ih _ (keyedByID_updateConversation r cs h)

theorem keyedByID_nil : KeyedByID [] := ⟨List.nodup_nil, fun _ h => by simp at h⟩

theorem KeyedByID.get?_of_mem_values {m : GoMap LocalConversation} (h : KeyedByID m)
    (v : LocalConversation) (hv : v ∈ m.values) : m.get? v.ConversationID = some v := by
  obtain ⟨k, hk⟩ := (GoMap.mem_values_iff m v).mp hv
  have := h.2 _ hk
  simp only at this
  rw [this]
  exact GoMap.get?_of_mem m h.1 k v hk

theorem KeyedByID.nodup_ids {m : GoMap LocalConversation} (h : KeyedByID m) :
    (m.values.map (·.ConversationID)).Nodup := by
  have : m.values.map (·.ConversationID) = m.keys := by
    unfold GoMap.values GoMap.keys
    rw [List.map_map]
    apply List.map_congr_left
    intro p hp
    exact h.2 p hp
  rw [this]
  exact h.1

theorem listToMap_keyed (list : List LocalConversation) (k : String) (l : LocalConversation)
    (h : (listToMap list).get? k = some l) : l.ConversationID = k := by
  have key : ∀ (xs : List LocalConversation) (m : GoMap LocalConversation),
      (∀ k l, m.get? k = some l → l.ConversationID = k) →
      ∀ k l, (xs.foldl (fun m v => m.set v.ConversationID v) m).get? k = some l →
        l.ConversationID = k := by
    intro xs
    induction xs with
    | nil => intro m hm; exact hm
    | cons x xs ih =>
      intro m hm
      simp only [List.foldl_cons]
      apply ih
      intro k l hkl
      by_cases hk : k = x.ConversationID
      · subst hk
        rw [GoMap.get?_set_self] at hkl
        cases hkl
        rfl
      · rw [GoMap.get?_set_of_ne _ _ _ _ hk] at hkl
        exact hm k l hkl
  exact key list [] (fun k l h => by simp [GoMap.get?] at h) k l h

theorem addFaceURLAndName_fields (K : Constants) (E : Env) (lc : LocalConversation) :
    (addFaceURLAndName K E lc).ConversationID = lc.ConversationID ∧
    (addFaceURLAndName K E lc).UnreadCount = lc.UnreadCount ∧
    (addFaceURLAndName K E lc).LatestMsgSendTime = lc.LatestMsgSendTime ∧
    (addFaceURLAndName K E lc).LatestMsg = lc.LatestMsg := by
  unfold addFaceURLAndName
  split
  · split <;> exact ⟨rfl, rfl, rfl, rfl⟩
  · split
    · split <;> exact ⟨rfl, rfl, rfl, rfl⟩
    · exact ⟨rfl, rfl, rfl, rfl⟩

theorem diffStep_cases (K : Constants) (E : Env) (st : DiffState) (v : LocalConversation) :
    (∃ l, st.localMap.get? v.ConversationID = some l ∧
      diffStep K E st v =
        { localMap := st.localMap.set v.ConversationID (mergeInto l v)
          cc := st.cc.set v.ConversationID (mergeInto l v)
          nc := st.nc }) ∨
    (st.localMap.get? v.ConversationID = none ∧
      diffStep K E st v =
        { st with nc := st.nc.set v.ConversationID (addFaceURLAndName K E v) }) := by
  unfold diffStep mergeInto
  cases h : st.localMap.get? v.ConversationID with
  | none => exact Or.inr ⟨rfl, rfl⟩
  | some l =>
    refine Or.inl ⟨l, rfl, ?_⟩
    simp only
    split <;> rfl

/-- Every row of the changed and of the new set that `diff` fills comes from one
generated conversation. -/
theorem foldl_diffStep_rows (K : Constants) (E : Env) (L : GoMap LocalConversation)
    (G : List LocalConversation) (vs : List LocalConversation) :
    ∀ st : DiffState, (∀ v ∈ vs, v ∈ G) → (vs.map (·.ConversationID)).Nodup →
      (∀ v ∈ vs, st.localMap.get? v.ConversationID = L.get? v.ConversationID) →
      (∀ p ∈ st.cc, ∃ g ∈ G, ∃ l, L.get? g.ConversationID = some l ∧
        p = (g.ConversationID, mergeInto l g)) →
      (∀ p ∈ st.nc, ∃ g ∈ G, L.get? g.ConversationID = none ∧
        p = (g.ConversationID, addFaceURLAndName K E g)) →
      (∀ p ∈ (vs.foldl (diffStep K E) st).cc, ∃ g ∈ G, ∃ l, L.get? g.ConversationID = some l ∧
        p = (g.ConversationID, mergeInto l g)) ∧
      (∀ p ∈ (vs.foldl (diffStep K E) st).nc, ∃ g ∈ G, L.get? g.ConversationID = none ∧
        p = (g.ConversationID, addFaceURLAndName K E g)) := by
  induction vs with
  | nil => intro st _ _ _ hcc hnc; exact ⟨hcc, hnc⟩
  | cons v vs ih =>
    intro st hG hnd hloc hcc hnc
    simp only [List.map_cons, List.nodup_cons] at hnd
    simp only [List.foldl_cons]
    have hvG : v ∈ G := hG v (List.mem_cons_self _ _)
    have hrestG : ∀ x ∈ vs, x ∈ G := fun x hx => hG x (List.mem_cons_of_mem _ hx)
    have hlocv := hloc v (List.mem_cons_self _ _)
    have hloc' : ∀ x ∈ vs, (diffStep K E st v).localMap.get? x.ConversationID =
        L.get? x.ConversationID := by
      intro x hx
      have hne : x.ConversationID ≠ v.ConversationID := by
        intro heq
        exact hnd.1 (List.mem_map.mpr ⟨x, hx, heq⟩)
      rw [(diffStep_of_ne K E st v x.ConversationID hne).1]
      exact hloc x (List.mem_cons_of_mem _ hx)
    apply ih (diffStep K E st v) hrestG hnd.2 hloc'
    · rcases diffStep_cases K E st v with ⟨l, hl, heq⟩ | ⟨hl, heq⟩
      · rw [heq]
        intro p hp
        rcases GoMap.mem_set _ _ _ _ hp with hp | hp
        · exact ⟨v, hvG, l, by rw [← hlocv]; exact hl, hp⟩
        · exact hcc p hp
      · rw [heq]
        exact hcc
    · rcases diffStep_cases K E st v with ⟨l, hl, heq⟩ | ⟨hl, heq⟩
      · rw [heq]
        exact hnc
      · rw [heq]
        intro p hp
        rcases GoMap.mem_set _ _ _ _ hp with hp | hp
        · exact ⟨v, hvG, by rw [← hlocv]; exact hl, hp⟩
        · exact hnc p hp

theorem diff_rows (K : Constants) (E : Env) (L generated : GoMap LocalConversation)
    (hkeys : (generated.values.map (·.ConversationID)).Nodup) :
    (∀ p ∈ (diff K E L generated [] []).cc, ∃ g ∈ generated.values, ∃ l,
      L.get? g.ConversationID = some l ∧ p = (g.ConversationID, mergeInto l g)) ∧
    (∀ p ∈ (diff K E L generated [] []).nc, ∃ g ∈ generated.values,
      L.get? g.ConversationID = none ∧ p = (g.ConversationID, addFaceURLAndName K E g)) := by
  unfold diff
  exact foldl_diffStep_rows K E L generated.values generated.values
    { localMap := L, cc := [], nc := [] } (fun _ h => h) hkeys (fun _ _ => rfl)
    (fun p hp => by simp at hp) (fun p hp => by simp at hp)

theorem overlayFlags_fields (v nc : LocalConversation) :
    (overlayFlags v nc).ConversationID = nc.ConversationID ∧
    (overlayFlags v nc).UnreadCount = nc.UnreadCount ∧
    (overlayFlags v nc).LatestMsgSendTime = nc.LatestMsgSendTime ∧
    (overlayFlags v nc).LatestMsg = nc.LatestMsg := by
  unfold overlayFlags
  simp only
  split <;> exact ⟨rfl, rfl, rfl, rfl⟩

/-- Every row of the new set after the overlay, and every row moved to the changed
side, is a row of the new set before the overlay up to the overlaid flags: same key,
same id, same unread count, same latest message and send time. -/
theorem hiddenOverlay_rows (hList : List LocalConversation) (nc0 : GoMap LocalConversation) :
    ∀ st : OverlayState,
      (∀ p ∈ st.newConversationSet, ∃ g, (p.1, g) ∈ nc0 ∧
        p.2.ConversationID = g.ConversationID ∧ p.2.UnreadCount = g.UnreadCount) →
      (∀ p ∈ st.phConversationChangedSet, ∃ g, (p.1, g) ∈ nc0 ∧
        p.2.ConversationID = g.ConversationID ∧ p.2.UnreadCount = g.UnreadCount) →
      (∀ p ∈ (hList.foldl overlayStep st).newConversationSet, ∃ g, (p.1, g) ∈ nc0 ∧
        p.2.ConversationID = g.ConversationID ∧ p.2.UnreadCount = g.UnreadCount) ∧
      (∀ p ∈ (hList.foldl overlayStep st).phConversationChangedSet, ∃ g, (p.1, g) ∈ nc0 ∧
        p.2.ConversationID = g.ConversationID ∧ p.2.UnreadCount = g.UnreadCount) := by
  induction hList with
  | nil => intro st h1 h2; exact ⟨h1, h2⟩
  | cons h hs ih =>
    intro st h1 h2
    simp only [List.foldl_cons]
    unfold overlayStep
    cases hg : st.newConversationSet.get? h.ConversationID with
    | none => exact ih st h1 h2
    | some nc =>
      simp only
      obtain ⟨g, hgm, hid, hun⟩ := h1 _ (GoMap.mem_of_get? _ _ _ hg)
      have hnew : ∃ g, (h.ConversationID, g) ∈ nc0 ∧
          (overlayFlags h nc).ConversationID = g.ConversationID ∧
          (overlayFlags h nc).UnreadCount = g.UnreadCount :=
        ⟨g, hgm, (overlayFlags_fields h nc).1.trans hid, (overlayFlags_fields h nc).2.1.trans hun⟩
      apply ih
      · intro p hp
        rcases GoMap.mem_set _ _ _ _ hp with hp | hp
        · rw [hp]; exact hnew
        · exact h1 p hp
      · intro p hp
        rcases GoMap.mem_set _ _ _ _ hp with hp | hp
        · rw [hp]; exact hnew
        · exact h2 p hp

theorem phNewOf_rows (newSet ph : GoMap LocalConversation) :
    ∀ p ∈ phNewOf newSet ph, p ∈ newSet := by
  unfold phNewOf
  have key : ∀ (xs : GoMap LocalConversation) (acc : GoMap LocalConversation),
      (∀ p ∈ acc, p ∈ newSet) → (∀ p ∈ xs, p ∈ newSet) →
      ∀ p ∈ xs.foldl (fun acc kv =>
        if (ph.get? kv.2.ConversationID).isSome then acc else acc.set kv.1 kv.2) acc,
        p ∈ newSet := by
    intro xs
    induction xs with
    | nil => intro acc hacc _; exact hacc
    | cons x xs ih =>
      intro acc hacc hxs
      simp only [List.foldl_cons]
      apply ih
      · split
        · exact hacc
        · intro p hp
          rcases GoMap.mem_set _ _ _ _ hp with hp | hp
          · rw [hp]; exact hxs x (List.mem_cons_self _ _)
          · exact hacc p hp
      · intro p hp
        exact hxs p (List.mem_cons_of_mem _ hp)
  exact key newSet [] (fun p hp => by simp at hp) (fun p hp => hp)

/-- Unread count of every conversation row that `commit` hands to the store: the count
of the local row of that id (0 without one) plus the unread counts of the records
folded for that id. -/
theorem commit_rows_unread (K : Constants) (E : Env) (updates : List Effect) (s : BatchState)
    (rs : List LocalConversation) (hs : s.conversationSet = foldConversations rs [])
    (row : LocalConversation)
    (hrow : row ∈ (commit K E updates s).updatedConversations ++
      (commit K E updates s).insertedConversations) :
    row.UnreadCount = unreadBefore E row.ConversationID +
      ((rs.filter fun r => decide (r.ConversationID = row.ConversationID)).map
        (·.UnreadCount)).sum := by
  have hG : KeyedByID s.conversationSet := by
    rw [hs]; exact keyedByID_foldConversations rs [] keyedByID_nil
  obtain ⟨hcc, hnc⟩ := diff_rows K E (listToMap E.GetAllConversationListDB) s.conversationSet
    hG.nodup_ids
  have hgen : ∀ g ∈ s.conversationSet.values, g.UnreadCount =
      ((rs.filter fun r => decide (r.ConversationID = g.ConversationID)).map
        (·.UnreadCount)).sum := by
    intro g hg
    have := hG.get?_of_mem_values g hg
    rw [hs] at this
    exact foldConversations_unread _ rs g this
  obtain ⟨hnew, hph⟩ := hiddenOverlay_rows E.GetHiddenConversationList
    (diff K E (listToMap E.GetAllConversationListDB) s.conversationSet [] []).nc
    { newConversationSet :=
        (diff K E (listToMap E.GetAllConversationListDB) s.conversationSet [] []).nc }
    (fun p hp => ⟨p.2, hp, rfl, rfl⟩) (fun p hp => by simp at hp)
  have fromNc : ∀ (k : String) (r g : LocalConversation),
      (k, g) ∈ (diff K E (listToMap E.GetAllConversationListDB) s.conversationSet [] []).nc →
      r.ConversationID = g.ConversationID → r.UnreadCount = g.UnreadCount →
      r.UnreadCount = unreadBefore E r.ConversationID +
        ((rs.filter fun x => decide (x.ConversationID = r.ConversationID)).map
          (·.UnreadCount)).sum := by
    intro k r g hg hid hun
    obtain ⟨g0, hg0, hnone, heq⟩ := hnc _ hg
    cases heq
    rw [(addFaceURLAndName_fields K E g0).1] at hid
    rw [(addFaceURLAndName_fields K E g0).2.1] at hun
    rw [hun, hid, hgen g0 hg0]
    simp [unreadBefore, hnone]
  simp only [BatchResult.updatedConversations, BatchResult.insertedConversations,
    mapConversationToList, List.mem_append] at hrow
  rcases hrow with (hrow | hrow) | hrow
  · obtain ⟨k, hk⟩ := (GoMap.mem_values_iff _ _).mp hrow
    obtain ⟨g, hg, l, hl, heq⟩ := hcc _ hk
    cases heq
    have hlid := listToMap_keyed _ _ _ hl
    rw [mergeInto_unread, mergeInto_id, hlid, hgen g hg]
    simp [unreadBefore, hl]
  · obtain ⟨k, hk⟩ := (GoMap.mem_values_iff _ _).mp hrow
    obtain ⟨g, hg, hid, hun⟩ := hph _ hk
    exact fromNc _ row g hg hid hun
  · obtain ⟨k, hk⟩ := (GoMap.mem_values_iff _ _).mp hrow
    have hk' := phNewOf_rows _ _ _ hk
    obtain ⟨g, hg, hid, hun⟩ := hnew _ hk'
    exact fromNc _ row g hg hid hun

/-! ### Claims on `diff` and on the unread counters -/

/-- C4. `diff` started with empty `cc` and `nc`, on a generated set keyed by
conversation id: a generated conversation `g` whose id is bound locally to `l` is
bound in `cc` to `l` with unread count `l.UnreadCount + g.UnreadCount`, send time
`max l.LatestMsgSendTime g.LatestMsgSendTime` and the latest message of `g` exactly when
`g.LatestMsgSendTime > l.LatestMsgSendTime`, and it is not in `nc`; a generated
conversation whose id is absent locally is in `nc` and not in `cc`. The addition is the
Go addition of two `int32` values: the count is the integer sum wrapped to 32 bits, and
it is the integer sum itself whenever that sum lies in the `int32` range. -/
theorem diff_changed_and_new (K : Constants) (E : Env)
    (localMap generated : GoMap LocalConversation) (hkeyed : KeyedByID generated)
    (g : LocalConversation) (hg : g ∈ generated.values) :
    (∀ l, localMap.get? g.ConversationID = some l →
      (diff K E localMap generated [] []).cc.get? g.ConversationID =
        some { l with
          UnreadCount := l.UnreadCount + g.UnreadCount
          LatestMsgSendTime := max l.LatestMsgSendTime g.LatestMsgSendTime
          LatestMsg :=
            if g.LatestMsgSendTime > l.LatestMsgSendTime then g.LatestMsg else l.LatestMsg } ∧
      (l.UnreadCount + g.UnreadCount).toInt = toInt32 (l.UnreadCount.toInt + g.UnreadCount.toInt) ∧
      (-2 ^ 31 ≤ l.UnreadCount.toInt + g.UnreadCount.toInt →
        l.UnreadCount.toInt + g.UnreadCount.toInt < 2 ^ 31 →
        (l.UnreadCount + g.UnreadCount).toInt = l.UnreadCount.toInt + g.UnreadCount.toInt) ∧
      (diff K E localMap generated [] []).nc.get? g.ConversationID = none) ∧
    (localMap.get? g.ConversationID = none →
      (diff K E localMap generated [] []).nc.get? g.ConversationID =
        some (addFaceURLAndName K E g) ∧
      (diff K E localMap generated [] []).cc.get? g.ConversationID = none) := by
  obtain ⟨h1, h2⟩ := foldl_diffStep_at K E generated.values g
    { localMap := localMap, cc := [], nc := [] } hkeyed.nodup_ids hg
  refine ⟨?_, ?_⟩
  · intro l hl
    obtain ⟨a, b⟩ := h1 l hl
    refine ⟨?_, rfl, goInt32_toInt_add_of_range _ _, by simpa [GoMap.get?] using b⟩
    unfold diff
    rw [a]
    unfold mergeInto
    by_cases hlt : g.LatestMsgSendTime > l.LatestMsgSendTime
    · simp [hlt, max_eq_right (le_of_lt hlt)]
    · simp [hlt, max_eq_left (not_lt.mp hlt)]
  · intro hl
    obtain ⟨a, b⟩ := h2 hl
    exact ⟨a, by simpa [GoMap.get?] using b⟩

/-- C4 at a concrete input: `c3` is known locally with send time 300 and unread count 1,
the batch generated send time 500 and unread count 2 for it; on a local row with the
largest `int32` as unread count the addition wraps around. -/
theorem diff_changed_and_new_witness :
    ((diff constant sampleEnv [("c3", c3First)]
        [("c3", { c3Third with UnreadCount := 2 })] [] []).cc.get? "c3" =
      some { c3First with UnreadCount := 3, LatestMsgSendTime := 500, LatestMsg := "m500" } ∧
    (diff constant sampleEnv [("c3", c3First)]
        [("c3", { c3Third with UnreadCount := 2 })] [] []).nc.get? "c3" = none) ∧
    ((diff constant sampleEnv [("c3", { c3First with UnreadCount := 2147483647 })]
        [("c3", { c3Third with UnreadCount := 2 })] [] []).cc.get? "c3").map
      (·.UnreadCount.toInt) = some (-2147483647) := by
  have h := (diff_changed_and_new constant sampleEnv [("c3", c3First)]
    [("c3", { c3Third with UnreadCount := 2 })] ⟨by decide, by decide⟩
    { c3Third with UnreadCount := 2 } (by decide)).1 c3First (by decide)
  exact ⟨⟨h.1, h.2.2.2⟩, by decide⟩

theorem foldsAs_classify (K : Constants) (E : Env) : FoldsAs K E (classify K E) :=
  fun s v ptr msg => classify_conversationSet K E s v ptr msg

theorem foldsAs_superClassify (K : Constants) (E : Env) : FoldsAs K E (superClassify K E) :=
  fun s v ptr msg => superClassify_conversationSet K E s v ptr msg

/-- C5 (counterexample). The claim of unread correctness as the specification states it
fails: the stored message `b` is delivered again and goes to the exception bucket, the
committed row of `s_u2` has unread count 8 = 7 + 1, while two messages of the batch
satisfy the three conditions of the specification. -/
theorem unread_correctness_counterexample :
    (doMsgNew constant dupEnv dupBatch).exceptionMsg.map (·.ClientMsgID) = ["b"] ∧
    (doMsgNew constant dupEnv dupBatch).updatedConversations.map
      (fun r => (r.ConversationID, r.UnreadCount)) = [("s_u2", 8)] ∧
    (doMsgNew constant dupEnv dupBatch).insertedConversations = [] ∧
    unreadBefore dupEnv "s_u2" = 7 ∧
    claimedUnreadCount constant dupEnv dupBatch "s_u2" = 2 ∧
    ∃ row ∈ (doMsgNew constant dupEnv dupBatch).updatedConversations,
      row.ConversationID = "s_u2" ∧
      row.UnreadCount ≠
        unreadBefore dupEnv "s_u2" + claimedUnreadCount constant dupEnv dupBatch "s_u2" := by
  decide

/-- C5 (amended). For a batch without two deliveries of one client message id, every
conversation row that `doMsgNew` or `doSuperGroupMsgNew` hands to the store (batch
update or batch insert of conversations) has as unread count the count of its row in
the local conversation list (0 without such a row) plus the number of messages of the
batch that belong to it, pass the unread gating (other sender, `IsUnreadCount`, send
time above the cached read watermark), reach classification, are not yet in the store
and have `IsConversationUpdate` set. The sum is taken in `int32`: it is the integer sum
wrapped to 32 bits, and it is the integer sum itself whenever the count before plus the
number of counting messages stays below `2^31`. -/
theorem unread_correctness (K : Constants) (E : Env) (allMsg : List (List MsgData))
    (_hdistinct : (allMsg.flatten.map (·.ClientMsgID)).Nodup) (row : LocalConversation) :
    (row ∈ (doMsgNew K E allMsg).updatedConversations ++
        (doMsgNew K E allMsg).insertedConversations →
      row.UnreadCount = unreadBefore E row.ConversationID +
        ((allMsg.flatten.countP
          (countsUnread K E (contentSwitch K E) row.ConversationID) : Nat) : GoInt32) ∧
      row.UnreadCount.toInt = toInt32 ((unreadBefore E row.ConversationID).toInt +
        allMsg.flatten.countP (countsUnread K E (contentSwitch K E) row.ConversationID)) ∧
      ((unreadBefore E row.ConversationID).toInt +
          allMsg.flatten.countP (countsUnread K E (contentSwitch K E) row.ConversationID)
          < 2 ^ 31 →
        row.UnreadCount.toInt = (unreadBefore E row.ConversationID).toInt +
          allMsg.flatten.countP (countsUnread K E (contentSwitch K E) row.ConversationID))) ∧
    (row ∈ (doSuperGroupMsgNew K E allMsg).updatedConversations ++
        (doSuperGroupMsgNew K E allMsg).insertedConversations →
      row.UnreadCount = unreadBefore E row.ConversationID +
        ((allMsg.flatten.countP
          (countsUnread K E (superContentSwitch K E) row.ConversationID) : Nat) : GoInt32) ∧
      row.UnreadCount.toInt = toInt32 ((unreadBefore E row.ConversationID).toInt +
        allMsg.flatten.countP
          (countsUnread K E (superContentSwitch K E) row.ConversationID)) ∧
      ((unreadBefore E row.ConversationID).toInt +
          allMsg.flatten.countP
            (countsUnread K E (superContentSwitch K E) row.ConversationID) < 2 ^ 31 →
        row.UnreadCount.toInt = (unreadBefore E row.ConversationID).toInt +
          allMsg.flatten.countP
            (countsUnread K E (superContentSwitch K E) row.ConversationID))) := by
  constructor
  · intro hrow
    have hs := foldl_loopBody_conversationSet K E (contentSwitch K E) (classify K E)
      (foldsAs_classify K E) allMsg.flatten {}
    have h : row.UnreadCount = unreadBefore E row.ConversationID +
        ((allMsg.flatten.countP
          (countsUnread K E (contentSwitch K E) row.ConversationID) : Nat) : GoInt32) := by
      rw [commit_rows_unread K E _ (doMsgNewLoop K E allMsg) _ hs row hrow,
        sum_unread_eq_countP]
    exact ⟨h, goInt32_toInt_add_natCast _ _ _ h, goInt32_toInt_add_natCast_of_lt _ _ _ h⟩
  · intro hrow
    have hs := foldl_loopBody_conversationSet K E (superContentSwitch K E) (superClassify K E)
      (foldsAs_superClassify K E) allMsg.flatten {}
    have h : row.UnreadCount = unreadBefore E row.ConversationID +
        ((allMsg.flatten.countP
          (countsUnread K E (superContentSwitch K E) row.ConversationID) : Nat) : GoInt32) := by
      rw [commit_rows_unread K E _ (doSuperGroupMsgNewLoop K E allMsg) _ hs row hrow,
        sum_unread_eq_countP]
    exact ⟨h, goInt32_toInt_add_natCast _ _ _ h, goInt32_toInt_add_natCast_of_lt _ _ _ h⟩

/-- C5 (amended) at scenario S3: the committed row of `s_u2` has unread count
8 = 7 + 1; only the 600-time message counts. -/
theorem unread_correctness_witness :
    s3Row.UnreadCount.toInt = (unreadBefore s3Env s3Row.ConversationID).toInt +
      s3Batch.flatten.countP
        (countsUnread constant s3Env (contentSwitch constant s3Env) s3Row.ConversationID) ∧
    s3Row.UnreadCount.toInt = 8 :=
  ⟨((unread_correctness constant s3Env s3Batch (by decide) s3Row).1 (by decide)).2.2
    (by decide), by decide⟩

theorem classify_unread (K : Constants) (E : Env) (s : BatchState)
    (v : MsgData) (ptr : Nat) (msg : MsgStruct) :
    (classify K E s v ptr msg).unreadMessages =
      if v.SendID ≠ E.loginUserID ∧ E.GetMessageController msg = none ∧
          unreadGate E v msg (receiverConversation K E v msg) = true then
        s.unreadMessages ++
          [{ ConversationID := (receiverConversation K E v msg).ConversationID
             ClientMsgID := msg.ClientMsgID
             SendTime := msg.SendTime }]
      else s.unreadMessages := by
  unfold classify
  by_cases hs : v.SendID = E.loginUserID
  · simp only [hs, if_true, ne_eq, not_true_eq_false, false_and, if_false]
    cases hg : E.GetMessageController msg with
    | some m => simp only; split <;> rfl
    | none => exact (senderNotFound_conversationSet K E s v ptr msg).2.1
  · simp only [hs, if_false, ne_eq, not_false_eq_true, true_and]
    cases hg : E.GetMessageController msg with
    | some m => simp
    | none =>
      simp only [(receiverNotFound_unread K E s v ptr msg).1, true_and]

theorem superClassify_unread (K : Constants) (E : Env) (s : BatchState)
    (v : MsgData) (ptr : Nat) (msg : MsgStruct) :
    (superClassify K E s v ptr msg).unreadMessages =
      if v.SendID ≠ E.loginUserID ∧ E.GetMessageController msg = none ∧
          unreadGate E v msg (receiverConversation K E v msg) = true then
        s.unreadMessages ++
          [{ ConversationID := (receiverConversation K E v msg).ConversationID
             ClientMsgID := msg.ClientMsgID
             SendTime := msg.SendTime }]
      else s.unreadMessages := by
  unfold superClassify
  by_cases hs : v.SendID = E.loginUserID
  · simp only [hs, if_true, ne_eq, not_true_eq_false, false_and, if_false]
    cases hg : E.GetMessageController msg with
    | some m => simp only; split <;> (try split) <;> rfl
    | none => exact (senderNotFound_conversationSet K E s v ptr msg).2.1
  · simp only [hs, if_false, ne_eq, not_false_eq_true, true_and]
    cases hg : E.GetMessageController msg with
    | some m => simp only [reduceCtorEq, false_and, if_false]; split <;> rfl
    | none =>
      simp only [(superReceiverNotFound_unread K E s v ptr msg).1, true_and]

theorem unreadOf_updateConversation_zero (lc : LocalConversation)
    (cs : GoMap LocalConversation) (h0 : lc.UnreadCount = 0) (c : String) :
    unreadOf (updateConversation lc cs) c = unreadOf cs c := by
  unfold unreadOf
  by_cases hc : c = lc.ConversationID
  · subst hc
    rw [updateConversation_get?_self]
    cases hg : cs.get? lc.ConversationID with
    | none => simp [h0]
    | some e => simp [mergeInto_unread, h0]
  · rw [updateConversation_get?_of_ne lc cs c hc]

/-- A message that fails the unread gating leaves the unread rows and every unread count
of the conversation set as they are, whatever the classifier of the method, as long as
it folds and appends as the not-found branches do. -/
theorem loopBody_gating (K : Constants) (E : Env)
    (switch1 : MsgData → MsgStruct → List Effect × Bool)
    (classifier : BatchState → MsgData → Nat → MsgStruct → BatchState)
    (hc : FoldsAs K E classifier)
    (hu : ∀ s v ptr msg, (classifier s v ptr msg).unreadMessages =
      if v.SendID ≠ E.loginUserID ∧ E.GetMessageController msg = none ∧
          unreadGate E v msg (receiverConversation K E v msg) = true then
        s.unreadMessages ++
          [{ ConversationID := (receiverConversation K E v msg).ConversationID
             ClientMsgID := msg.ClientMsgID
             SendTime := msg.SendTime }]
      else s.unreadMessages)
    (s : BatchState) (v : MsgData) (h : passesUnreadGating K E v = false) :
    (loopBody K E switch1 classifier s v).unreadMessages = s.unreadMessages ∧
    ∀ c, unreadOf (loopBody K E switch1 classifier s v).conversationSet c =
      unreadOf s.conversationSet c := by
  constructor
  · cases hcl : classified K E switch1 v with
    | none => exact (loopBody_of_not_classified K E switch1 classifier s v hcl).2.1
    | some msg =>
      rw [loopBody_of_classified K E switch1 classifier s v msg hcl, hu]
      have ht := (prepare_ok_fields K E v msg (classified_fields K E switch1 v msg hcl).1).1
      by_cases hs : v.SendID = E.loginUserID
      · simp [hs]
      · rw [unreadGate_eq K E v msg ht hs, h]
        simp
  · intro c
    rw [loopBody_conversationSet K E switch1 classifier hc]
    cases ha : aggregated K E switch1 v with
    | none => rfl
    | some lc =>
      simp only
      apply unreadOf_updateConversation_zero
      have hu' := aggregated_unread K E switch1 v lc ha lc.ConversationID
      have hcu : countsUnread K E switch1 lc.ConversationID v = false := by
        unfold countsUnread
        cases classified K E switch1 v with
        | none => rfl
        | some msg => simp [h]
      simpa [hcu] using hu'

/-- C6. Unread gating in `doMsgNew` and `doSuperGroupMsgNew`: a message that fails one of
the three conditions (`IsUnreadCount` set, sender other than the login user, send time
strictly above the `UpdateUnreadCountTime` of the cached conversation) produces no
unread row and adds 0 to the unread count of every conversation of the set; so only a
message passing all three contributes an unread row and an increment. -/
theorem unread_gating (K : Constants) (E : Env) (s : BatchState) (v : MsgData)
    (h : ¬ (v.Options.IsUnreadCount = true ∧ v.SendID ≠ E.loginUserID ∧
      v.SendTime > (E.GetConversation (receiverConversationID K E v)).UpdateUnreadCountTime)) :
    ((doMsgNewStep K E s v).unreadMessages = s.unreadMessages ∧
      ∀ c, unreadOf (doMsgNewStep K E s v).conversationSet c = unreadOf s.conversationSet c) ∧
    ((doSuperGroupMsgNewStep K E s v).unreadMessages = s.unreadMessages ∧
      ∀ c, unreadOf (doSuperGroupMsgNewStep K E s v).conversationSet c =
        unreadOf s.conversationSet c) := by
  have hp : passesUnreadGating K E v = false := by
    unfold passesUnreadGating
    by_contra hne
    simp only [Bool.not_eq_false, Bool.and_eq_true, decide_eq_true_eq] at hne
    exact h ⟨hne.1.2, hne.1.1, hne.2⟩
  exact ⟨loopBody_gating K E _ _ (foldsAs_classify K E) (classify_unread K E) s v hp,
    loopBody_gating K E _ _ (foldsAs_superClassify K E) (superClassify_unread K E) s v hp⟩

/-- Scenario S3 through C6: with read watermark 500 the 400-time message, processed
first, leaves no unread row; the whole batch gives one unread row, for the 600-time
message, unread count 7 + 1 and latest send time 600. -/
theorem unread_gating_witness :
    (doMsgNewStep constant s3Env {} (peerMsg "a" 400)).unreadMessages = [] ∧
    (doMsgNew constant s3Env s3Batch).loop.unreadMessages = [s3UnreadRow] ∧
    (doMsgNew constant s3Env s3Batch).updatedConversations = [s3Row] ∧
    (doMsgNew constant s3Env s3Batch).insertedConversations = [] ∧
    (doSuperGroupMsgNew constant s3Env s3Batch).loop.unreadMessages = [s3UnreadRow] ∧
    (doSuperGroupMsgNew constant s3Env s3Batch).updatedConversations = [s3Row] :=
  ⟨(unread_gating constant s3Env {} (peerMsg "a" 400) (by decide)).1.1,
    by decide, by decide, by decide, by decide, by decide⟩

/-- C7 (failing input). One batch delivers the new peer message `b` twice: `doMsgNew` and
`doSuperGroupMsgNew` emit two unread rows for `b` and commit unread count 7 + 2 for its
conversation, where one row and 7 + 1 are due. -/
theorem duplicate_in_batch_counted_twice :
    s3Env.GetMessageController (copyMsg (peerMsg "b" 600)) = none ∧
    (doMsgNew constant s3Env twiceBatch).loop.unreadMessages = [s3UnreadRow, s3UnreadRow] ∧
    (doMsgNew constant s3Env twiceBatch).updatedConversations =
      [{ s3Row with UnreadCount := 9 }] ∧
    (doSuperGroupMsgNew constant s3Env twiceBatch).loop.unreadMessages =
      [s3UnreadRow, s3UnreadRow] ∧
    (doSuperGroupMsgNew constant s3Env twiceBatch).updatedConversations =
      [{ s3Row with UnreadCount := 9 }] := by
  decide

/-! ### The hidden-conversation overlay -/

theorem overlayStep_of_ne (st : OverlayState) (h : LocalConversation) (k : String)
    (hk : k ≠ h.ConversationID) :
    (overlayStep st h).newConversationSet.get? k = st.newConversationSet.get? k ∧
    (overlayStep st h).phConversationChangedSet.get? k = st.phConversationChangedSet.get? k := by
  unfold overlayStep
  split
  · simp [GoMap.get?_set_of_ne _ _ _ _ hk]
  · exact ⟨rfl, rfl⟩

theorem foldl_overlayStep_of_ne (hs : List LocalConversation) (k : String) :
    ∀ st : OverlayState, (∀ h ∈ hs, k ≠ h.ConversationID) →
      (hs.foldl overlayStep st).newConversationSet.get? k = st.newConversationSet.get? k ∧
      (hs.foldl overlayStep st).phConversationChangedSet.get? k =
        st.phConversationChangedSet.get? k := by
  induction hs with
  | nil => intro st _; exact ⟨rfl, rfl⟩
  | cons h hs ih =>
    intro st hne
    simp only [List.foldl_cons]
    obtain ⟨a, b⟩ := ih (overlayStep st h) (fun x hx => hne x (List.mem_cons_of_mem _ hx))
    obtain ⟨c, d⟩ := overlayStep_of_ne st h k (hne h (List.mem_cons_self _ _))
    exact ⟨a.trans c, b.trans d⟩

theorem foldl_overlayStep_at (hs : List LocalConversation) (h g : LocalConversation) :
    ∀ st : OverlayState, (hs.map (·.ConversationID)).Nodup → h ∈ hs →
      st.newConversationSet.get? h.ConversationID = some g →
      (hs.foldl overlayStep st).newConversationSet.get? h.ConversationID =
        some (overlayFlags h g) ∧
      (hs.foldl overlayStep st).phConversationChangedSet.get? h.ConversationID =
        some (overlayFlags h g) := by
  induction hs with
  | nil => intro st _ hh; simp at hh
  | cons x xs ih =>
    intro st hnd hh hg
    simp only [List.map_cons, List.nodup_cons] at hnd
    simp only [List.foldl_cons]
    rcases List.mem_cons.mp hh with rfl | hh
    · have hrest : ∀ y ∈ xs, h.ConversationID ≠ y.ConversationID := by
        intro y hy heq
        exact hnd.1 (List.mem_map.mpr ⟨y, hy, heq.symm⟩)
      obtain ⟨a, b⟩ := foldl_overlayStep_of_ne xs h.ConversationID (overlayStep st h) hrest
      rw [a, b]
      unfold overlayStep
      rw [hg]
      simp [GoMap.get?_set_self]
    · have hne : h.ConversationID ≠ x.ConversationID := by
        intro heq
        exact hnd.1 (List.mem_map.mpr ⟨h, hh, heq⟩)
      apply ih (overlayStep st x) hnd.2 hh
      rw [(overlayStep_of_ne st x h.ConversationID hne).1]
      exact hg

theorem phNewOf_not_hidden (newSet ph : GoMap LocalConversation) :
    ∀ p ∈ phNewOf newSet ph, ph.get? p.2.ConversationID = none := by
  unfold phNewOf
  have key : ∀ (xs : GoMap LocalConversation) (acc : GoMap LocalConversation),
      (∀ p ∈ acc, ph.get? p.2.ConversationID = none) →
      ∀ p ∈ xs.foldl (fun acc kv =>
        if (ph.get? kv.2.ConversationID).isSome then acc else acc.set kv.1 kv.2) acc,
        ph.get? p.2.ConversationID = none := by
    intro xs
    induction xs with
    | nil => intro acc hacc; exact hacc
    | cons x xs ih =>
      intro acc hacc
      simp only [List.foldl_cons]
      apply ih
      split
      · exact hacc
      · next hx =>
        intro p hp
        rcases GoMap.mem_set _ _ _ _ hp with hp | hp
        · rw [hp]
          simpa using hx
        · exact hacc p hp
  exact key newSet [] (fun p hp => by simp at hp)

theorem overlayFlags_flags (v nc : LocalConversation) :
    (overlayFlags v nc).RecvMsgOpt = v.RecvMsgOpt ∧
    (overlayFlags v nc).GroupAtType = v.GroupAtType ∧
    (overlayFlags v nc).IsPinned = v.IsPinned ∧
    (overlayFlags v nc).IsPrivateChat = v.IsPrivateChat ∧
    (overlayFlags v nc).BurnDuration =
      (if v.IsPrivateChat = true then v.BurnDuration else nc.BurnDuration) ∧
    (overlayFlags v nc).IsNotInGroup = v.IsNotInGroup ∧
    (overlayFlags v nc).AttachedInfo = v.AttachedInfo ∧
    (overlayFlags v nc).Ex = v.Ex := by
  unfold overlayFlags
  cases hp : v.IsPrivateChat <;> simp

/-- The overlay inside `commit`: a hidden row `h` whose id `diff` put in the new set is
committed through the batch update with the overlaid flags, not through the batch
insert, and the new set handed to `NewConDirect` holds the same overlaid row. -/
theorem commit_hidden (K : Constants) (E : Env) (updates : List Effect) (s : BatchState)
    (hnd : (E.GetHiddenConversationList.map (·.ConversationID)).Nodup)
    (h g : LocalConversation) (hh : h ∈ E.GetHiddenConversationList)
    (hg : (commit K E updates s).diffNewConversationSet.get? h.ConversationID = some g) :
    (commit K E updates s).phConversationChangedSet.get? h.ConversationID =
      some (overlayFlags h g) ∧
    (commit K E updates s).newConversationSet.get? h.ConversationID =
      some (overlayFlags h g) ∧
    overlayFlags h g ∈ (commit K E updates s).updatedConversations ∧
    ∀ r ∈ (commit K E updates s).insertedConversations,
      r.ConversationID ≠ h.ConversationID := by
  obtain ⟨a, b⟩ := foldl_overlayStep_at E.GetHiddenConversationList h g
    { newConversationSet :=
        (diff K E (listToMap E.GetAllConversationListDB) s.conversationSet [] []).nc }
    hnd hh hg
  refine ⟨b, a, ?_, ?_⟩
  · simp only [BatchResult.updatedConversations, mapConversationToList, List.mem_append]
    exact Or.inr ((GoMap.mem_values_iff _ _).mpr ⟨_, GoMap.mem_of_get? _ _ _ b⟩)
  · intro r hr heq
    simp only [BatchResult.insertedConversations, mapConversationToList] at hr
    obtain ⟨k, hk⟩ := (GoMap.mem_values_iff _ _).mp hr
    have := phNewOf_not_hidden _ _ _ hk
    simp only [heq] at this
    have hb : (hiddenOverlay E.GetHiddenConversationList
      (diff K E (listToMap E.GetAllConversationListDB) s.conversationSet [] []).nc
      ).phConversationChangedSet.get? h.ConversationID = some (overlayFlags h g) := b
    rw [hb] at this
    cases this

/-- C8 (counterexample). Hidden-conversation preservation as the specification states it
fails for the burn duration: the hidden row of `s_u2` has burn duration 30 and is not a
private chat; the row committed for `s_u2` has burn duration 0. -/
theorem hidden_flags_counterexample :
    hiddenRow ∈ s4Env.GetHiddenConversationList ∧
    (doMsgNew constant s4Env s4Batch).diffNewConversationSet.keys = ["s_u2"] ∧
    (doMsgNew constant s4Env s4Batch).updatedConversations = [s4Row] ∧
    s4Row.BurnDuration ≠ hiddenRow.BurnDuration := by
  decide

/-- C8 (amended). In `doMsgNew` and `doSuperGroupMsgNew`, for a hidden list with one row
an id: for every hidden row `h` whose id is among the batch's new conversations, the
row committed for that id goes through the batch update (not the batch insert) and
carries the `RecvMsgOpt`, `GroupAtType`, `IsPinned`, `IsPrivateChat`, `IsNotInGroup`,
`AttachedInfo` and `Ex` of `h`; it carries the `BurnDuration` of `h` when `h` is a
private chat, and keeps the burn duration of the new record otherwise. -/
theorem hidden_flags_preserved (K : Constants) (E : Env) (allMsg : List (List MsgData))
    (R : BatchResult) (hR : R = doMsgNew K E allMsg ∨ R = doSuperGroupMsgNew K E allMsg)
    (hnd : (E.GetHiddenConversationList.map (·.ConversationID)).Nodup)
    (h g : LocalConversation) (hh : h ∈ E.GetHiddenConversationList)
    (hg : R.diffNewConversationSet.get? h.ConversationID = some g) :
    ∃ row, R.phConversationChangedSet.get? h.ConversationID = some row ∧
      row ∈ R.updatedConversations ∧
      (∀ r ∈ R.insertedConversations, r.ConversationID ≠ h.ConversationID) ∧
      row.RecvMsgOpt = h.RecvMsgOpt ∧
      row.GroupAtType = h.GroupAtType ∧
      row.IsPinned = h.IsPinned ∧
      row.IsPrivateChat = h.IsPrivateChat ∧
      row.BurnDuration = (if h.IsPrivateChat = true then h.BurnDuration else g.BurnDuration) ∧
      row.IsNotInGroup = h.IsNotInGroup ∧
      row.AttachedInfo = h.AttachedInfo ∧
      row.Ex = h.Ex := by
  obtain ⟨f1, f2, f3, f4, f5, f6, f7, f8⟩ := overlayFlags_flags h g
  rcases hR with rfl | rfl
  · obtain ⟨a, _, c, d⟩ := commit_hidden K E _ (doMsgNewLoop K E allMsg) hnd h g hh hg
    exact ⟨overlayFlags h g, a, c, d, f1, f2, f3, f4, f5, f6, f7, f8⟩
  · obtain ⟨a, _, c, d⟩ := commit_hidden K E _ (doSuperGroupMsgNewLoop K E allMsg) hnd h g hh hg
    exact ⟨overlayFlags h g, a, c, d, f1, f2, f3, f4, f5, f6, f7, f8⟩

/-- C8 (amended) at scenario S4: the committed row of `s_u2` is pinned like the hidden
row and keeps burn duration 0, the hidden row not being a private chat. -/
theorem hidden_flags_preserved_witness :
    ∃ row, (doMsgNew constant s4Env s4Batch).phConversationChangedSet.get? "s_u2" = some row ∧
      row ∈ (doMsgNew constant s4Env s4Batch).updatedConversations ∧
      (∀ r ∈ (doMsgNew constant s4Env s4Batch).insertedConversations,
        r.ConversationID ≠ "s_u2") ∧
      row.RecvMsgOpt = 2 ∧ row.GroupAtType = 0 ∧ row.IsPinned = true ∧
      row.IsPrivateChat = false ∧ row.BurnDuration = 0 ∧ row.IsNotInGroup = false ∧
      row.AttachedInfo = "" ∧ row.Ex = "ex" :=
  hidden_flags_preserved constant s4Env s4Batch (doMsgNew constant s4Env s4Batch) (Or.inl rfl)
    (by decide) hiddenRow { s4Row with IsPinned := false, RecvMsgOpt := 0, Ex := "" }
    (by decide) (by decide)

/-! ### The final conversation-update commands -/

theorem mem_conversationCommands_changed (n c : GoMap LocalConversation) (t : Bool)
    (rows : List LocalConversation)
    (h : ConCmd.ConChangeDirect rows ∈ conversationCommands n c t) :
    rows = mapConversationToList c := by
  unfold conversationCommands at h
  simp only [List.mem_append] at h
  rcases h with (h | h) | h
  · split at h <;> simp at h
  · split at h
    · simpa using h
    · simp at h
  · split at h <;> simp at h

theorem newConDirect_mem_conversationCommands (n c : GoMap LocalConversation) (t : Bool)
    (hn : n ≠ []) :
    ConCmd.NewConDirect (mapConversationToList n) ∈ conversationCommands n c t := by
  unfold conversationCommands
  have : n.length > 0 := List.length_pos.mpr hn
  simp [this]

/-- The commands at the end of `commit` for a hidden row whose id `diff` put in the new
set: the overlaid row is in the argument of `NewConDirect`, and no row of that id is in
the argument of a `ConChangeDirect`. -/
theorem commit_hidden_commands (K : Constants) (E : Env) (updates : List Effect)
    (s : BatchState) (rs : List LocalConversation)
    (hs : s.conversationSet = foldConversations rs [])
    (hnd : (E.GetHiddenConversationList.map (·.ConversationID)).Nodup)
    (h g : LocalConversation) (hh : h ∈ E.GetHiddenConversationList)
    (hg : (commit K E updates s).diffNewConversationSet.get? h.ConversationID = some g) :
    (∃ rows, ConCmd.NewConDirect rows ∈ (commit K E updates s).commands ∧
      overlayFlags h g ∈ rows ∧ (overlayFlags h g).ConversationID = h.ConversationID) ∧
    (∀ rows, ConCmd.ConChangeDirect rows ∈ (commit K E updates s).commands →
      ∀ r ∈ rows, r.ConversationID ≠ h.ConversationID) := by
  have hG : KeyedByID s.conversationSet := by
    rw [hs]; exact keyedByID_foldConversations rs [] keyedByID_nil
  obtain ⟨hcc, hnc⟩ := diff_rows K E (listToMap E.GetAllConversationListDB) s.conversationSet
    hG.nodup_ids
  obtain ⟨g0, _, hnone, heq⟩ := hnc _ (GoMap.mem_of_get? _ _ _ hg)
  have hkey : h.ConversationID = g0.ConversationID := (Prod.mk.inj heq).1
  have hgid : g.ConversationID = h.ConversationID := by
    rw [(Prod.mk.inj heq).2, (addFaceURLAndName_fields K E g0).1, hkey]
  obtain ⟨_, b, _, _⟩ := commit_hidden K E updates s hnd h g hh hg
  constructor
  · refine ⟨mapConversationToList (commit K E updates s).newConversationSet, ?_, ?_, ?_⟩
    · apply newConDirect_mem_conversationCommands
      intro hnil
      have b' : (hiddenOverlay E.GetHiddenConversationList
          (diff K E (listToMap E.GetAllConversationListDB) s.conversationSet [] []).nc
          ).newConversationSet.get? h.ConversationID = some (overlayFlags h g) := b
      rw [hnil] at b'
      simp [GoMap.get?] at b'
    · exact (GoMap.mem_values_iff _ _).mpr ⟨_, GoMap.mem_of_get? _ _ _ b⟩
    · rw [(overlayFlags_fields h g).1, hgid]
  · intro rows hrows r hr heqid
    have hrows' := mem_conversationCommands_changed _ _ _ _ hrows
    rw [hrows'] at hr
    obtain ⟨k, hk⟩ := (GoMap.mem_values_iff _ _).mp hr
    obtain ⟨g1, _, l, hl, hp⟩ := hcc _ hk
    have hr1 : r = mergeInto l g1 := (Prod.mk.inj hp).2
    have hlid := listToMap_keyed _ _ _ hl
    rw [hr1, mergeInto_id, hlid] at heqid
    rw [heqid, hkey, hnone] at hl
    cases hl

/-- C9 (counterexample). The claim on the emission for a hidden conversation as the
specification states it fails: in scenario S4 the only conversation command with rows
is `NewConDirect`, and it carries the row of the hidden conversation `s_u2`; there is
no `ConChangeDirect`. -/
theorem hidden_emission_counterexample :
    hiddenRow ∈ s4Env.GetHiddenConversationList ∧
    (doMsgNew constant s4Env s4Batch).commands =
      [ConCmd.NewConDirect [s4Row], ConCmd.TotalUnreadMessageChanged] ∧
    (doSuperGroupMsgNew constant s4Env s4Batch).commands =
      [ConCmd.NewConDirect [s4Row], ConCmd.TotalUnreadMessageChanged] := by
  decide

/-- C9 (amended). When a batch delivers a new message for a conversation of the hidden
list (one row an id) that is absent from the local list, the commands at the end of
`doMsgNew` and `doSuperGroupMsgNew` carry that conversation, with the hidden flags
overlaid, in the argument of `NewConDirect` and in no argument of `ConChangeDirect`; it
is the store commit that treats it as changed (the same row is in
`phConversationChangedSet`). -/
theorem hidden_conversation_emitted_as_new (K : Constants) (E : Env)
    (allMsg : List (List MsgData)) (R : BatchResult)
    (hR : R = doMsgNew K E allMsg ∨ R = doSuperGroupMsgNew K E allMsg)
    (hnd : (E.GetHiddenConversationList.map (·.ConversationID)).Nodup)
    (h g : LocalConversation) (hh : h ∈ E.GetHiddenConversationList)
    (hg : R.diffNewConversationSet.get? h.ConversationID = some g) :
    (∃ rows row, ConCmd.NewConDirect rows ∈ R.commands ∧ row ∈ rows ∧
      row.ConversationID = h.ConversationID ∧
      R.phConversationChangedSet.get? h.ConversationID = some row) ∧
    (∀ rows, ConCmd.ConChangeDirect rows ∈ R.commands →
      ∀ r ∈ rows, r.ConversationID ≠ h.ConversationID) := by
  rcases hR with rfl | rfl
  · have hs := foldl_loopBody_conversationSet K E (contentSwitch K E) (classify K E)
      (foldsAs_classify K E) allMsg.flatten {}
    obtain ⟨⟨rows, h1, h2, h3⟩, h4⟩ :=
      commit_hidden_commands K E _ (doMsgNewLoop K E allMsg) _ hs hnd h g hh hg
    obtain ⟨a, _, _, _⟩ := commit_hidden K E _ (doMsgNewLoop K E allMsg) hnd h g hh hg
    exact ⟨⟨rows, overlayFlags h g, h1, h2, h3, a⟩, h4⟩
  · have hs := foldl_loopBody_conversationSet K E (superContentSwitch K E) (superClassify K E)
      (foldsAs_superClassify K E) allMsg.flatten {}
    obtain ⟨⟨rows, h1, h2, h3⟩, h4⟩ :=
      commit_hidden_commands K E _ (doSuperGroupMsgNewLoop K E allMsg) _ hs hnd h g hh hg
    obtain ⟨a, _, _, _⟩ := commit_hidden K E _ (doSuperGroupMsgNewLoop K E allMsg) hnd h g hh hg
    exact ⟨⟨rows, overlayFlags h g, h1, h2, h3, a⟩, h4⟩

/-- C9 (amended) at scenario S4. -/
theorem hidden_conversation_emitted_as_new_witness :
    (∃ rows row, ConCmd.NewConDirect rows ∈ (doMsgNew constant s4Env s4Batch).commands ∧
      row ∈ rows ∧ row.ConversationID = "s_u2" ∧
      (doMsgNew constant s4Env s4Batch).phConversationChangedSet.get? "s_u2" = some row) ∧
    (∀ rows, ConCmd.ConChangeDirect rows ∈ (doMsgNew constant s4Env s4Batch).commands →
      ∀ r ∈ rows, r.ConversationID ≠ "s_u2") :=
  hidden_conversation_emitted_as_new constant s4Env s4Batch (doMsgNew constant s4Env s4Batch)
    (Or.inl rfl) (by decide) hiddenRow { s4Row with IsPinned := false, RecvMsgOpt := 0, Ex := "" }
    (by decide) (by decide)

/-! ### Echo of an own send -/

theorem msgStructToLocalChatLog_fields (K : Constants) (m : MsgStruct) :
    (msgStructToLocalChatLog K m).ClientMsgID = m.ClientMsgID ∧
    (msgStructToLocalChatLog K m).Status = m.Status ∧
    (msgStructToLocalChatLog K m).Seq = m.Seq ∧
    (msgStructToLocalChatLog K m).Content = m.Content := by
  unfold msgStructToLocalChatLog
  simp only
  split <;> exact ⟨rfl, rfl, rfl, rfl⟩

/-- C10 (counterexample). The claim on the echo of an own send as the specification
states it fails for a message marked has-deleted: the own message `A`, stored with
`seq = 0`, arrives with status has-deleted; `doMsgNew` puts it in the insert bucket and
the update bucket stays empty. -/
theorem echo_of_own_send_counterexample :
    (ownMsg "A" 4).SendID = s1Env.loginUserID ∧
    (s1Env.GetMessageController (copyMsg (ownMsg "A" 4))).map (·.Seq) = some 0 ∧
    (doMsgNewStep constant s1Env {} (ownMsg "A" 4)).updateMsg = [] ∧
    (doMsgNewStep constant s1Env {} (ownMsg "A" 4)).insertMsg.map
      (fun r => (r.ClientMsgID, r.Status)) = [("A", 4)] := by
  decide

/-- C10 (amended). In `doMsgNew`, an own message (`SendID` equal to the login user) that
reaches classification (status not has-deleted, decoded without error, non-empty client
message id, no `continue` in the notification switches) and is found in the store with
`seq == 0` is appended exactly once to the update bucket, with status filtered when
`IsConversationUpdate` is unset and send-success otherwise; apart from the calls of
the notification switches nothing else changes: insert bucket, exception bucket,
conversation set, unread rows, new-message list and the other listener lists are as
before. -/
theorem echo_of_own_send (K : Constants) (E : Env) (s : BatchState) (v : MsgData)
    (msg : MsgStruct) (m : LocalChatLog)
    (hcl : classified K E (contentSwitch K E) v = some msg)
    (hs : v.SendID = E.loginUserID)
    (hf : E.GetMessageController msg = some m) (hseq : m.Seq = 0) :
    ∃ row : LocalChatLog,
      row.ClientMsgID = v.ClientMsgID ∧
      row.Status =
        (if v.Options.IsConversationUpdate = true then K.MsgStatusSendSuccess
         else K.MsgStatusFiltered) ∧
      doMsgNewStep K E s v =
        { s with
          nextPtr := s.nextPtr + 1
          effects := s.effects ++ (route K (contentSwitch K E) v msg).1
          updateMsg := s.updateMsg ++ [row] } := by
  obtain ⟨hprep, _⟩ := classified_fields K E _ v msg hcl
  obtain ⟨_, hid, hst, _, _⟩ := prepare_ok_fields K E v msg hprep
  refine ⟨msgStructToLocalChatLog K
    (if (!v.Options.IsConversationUpdate) = true then { msg with Status := K.MsgStatusFiltered }
     else msg), ?_, ?_, ?_⟩
  · rw [(msgStructToLocalChatLog_fields K _).1]
    cases v.Options.IsConversationUpdate <;> simpa using hid
  · rw [(msgStructToLocalChatLog_fields K _).2.1]
    cases v.Options.IsConversationUpdate <;> simp [hst]
  · unfold doMsgNewStep
    rw [loopBody_of_classified K E _ _ s v msg hcl]
    unfold classify
    simp only [hs, if_true, hf, hseq]

/-- C10 (amended) at scenario S1: the own message `A`, stored with `seq = 0`, arrives
with `seq = 42`; the only change is one row for `A` with status send-success in the
update bucket. -/
theorem echo_of_own_send_witness :
    ∃ row : LocalChatLog,
      row.ClientMsgID = "A" ∧ row.Status = 2 ∧
      doMsgNewStep constant s1Env {} (ownMsg "A" 0) =
        { nextPtr := 1, updateMsg := [row] } :=
  echo_of_own_send constant s1Env {} (ownMsg "A" 0) s1Prepared s1Stored
    (by decide) (by decide) (by decide) (by decide)

/-! ### Classification of a message found in the store -/

/-- C11 (counterexample). The claim on duplicate delivery as the specification states it
fails for a message marked has-deleted: the peer message `b`, stored with `seq = 7`,
arrives again with status has-deleted; `doMsgNew` puts it in the insert bucket and adds
no exception row. -/
theorem duplicate_delivery_counterexample :
    (peerMsgWithStatus "b" 4).SendID ≠ dupEnv.loginUserID ∧
    (dupEnv.GetMessageController (copyMsg (peerMsgWithStatus "b" 4))).map (·.Seq) = some 7 ∧
    (doMsgNewStep constant dupEnv {} (peerMsgWithStatus "b" 4)).exceptionMsg = [] ∧
    (doMsgNewStep constant dupEnv {} (peerMsgWithStatus "b" 4)).insertMsg.map
      (fun r => (r.ClientMsgID, r.Status)) = [("b", 4)] := by
  decide

theorem msgStructToLocalErrChatLog_fields (K : Constants) (m : MsgStruct) :
    (msgStructToLocalErrChatLog K m).ClientMsgID = m.ClientMsgID ∧
    (msgStructToLocalErrChatLog K m).Status = m.Status ∧
    (msgStructToLocalErrChatLog K m).Seq = m.Seq ∧
    (msgStructToLocalErrChatLog K m).Content = m.Content := by
  unfold msgStructToLocalErrChatLog
  simp only
  split <;> exact ⟨rfl, rfl, rfl, rfl⟩

/-- C11 (amended). In `doMsgNew`, a message that reaches classification (status not
has-deleted, decoded without error, non-empty client message id, no `continue` in the
notification switches), whose client message id is found in the store, and that is
sent by another user or sent by the login user with a stored `seq` other than 0, adds
exactly one exception row for its client message id and, apart from the calls of the
notification switches, changes nothing else: insert, update and special-update
buckets, conversation set, unread rows and all listener lists are as before. -/
theorem duplicate_delivery (K : Constants) (E : Env) (s : BatchState) (v : MsgData)
    (msg : MsgStruct) (m : LocalChatLog)
    (hcl : classified K E (contentSwitch K E) v = some msg)
    (hf : E.GetMessageController msg = some m)
    (hdup : v.SendID ≠ E.loginUserID ∨ m.Seq ≠ 0) :
    ∃ row : LocalErrChatLog,
      row.ClientMsgID = v.ClientMsgID ∧
      doMsgNewStep K E s v =
        { s with
          nextPtr := s.nextPtr + 1
          effects := s.effects ++ (route K (contentSwitch K E) v msg).1
          exceptionMsg := s.exceptionMsg ++ [row] } := by
  obtain ⟨hprep, _⟩ := classified_fields K E _ v msg hcl
  obtain ⟨_, hid, _, _, _⟩ := prepare_ok_fields K E v msg hprep
  refine ⟨msgStructToLocalErrChatLog K msg, ?_, ?_⟩
  · rw [(msgStructToLocalErrChatLog_fields K msg).1, hid]
  · unfold doMsgNewStep
    rw [loopBody_of_classified K E _ _ s v msg hcl]
    unfold classify
    by_cases hs : v.SendID = E.loginUserID
    · have hseq : m.Seq ≠ 0 := by
        rcases hdup with h | h
        · exact absurd hs h
        · exact h
      simp only [hs, if_true, hf, hseq, if_false]
    · simp only [hs, if_false, hf]

/-- C11 (amended) at scenario S2: the stored peer message `b` is delivered again; the
only change is one exception row for `b`. -/
theorem duplicate_delivery_witness :
    ∃ row : LocalErrChatLog,
      row.ClientMsgID = "b" ∧
      doMsgNewStep constant dupEnv {} (peerMsg "b" 600) =
        { nextPtr := 1, exceptionMsg := [row] } :=
  duplicate_delivery constant dupEnv {} (peerMsg "b" 600)
    { copyMsg (peerMsg "b" 600) with Status := 2 } { ClientMsgID := "b", Seq := 7 }
    (by decide) (by decide) (Or.inl (by decide))

/-- C12 (counterexample). The claim on the super-group classification as the
specification states it fails for a message marked has-deleted: an own message found
with `seq = 0` and `create_time = 0` that arrives with status has-deleted goes to the
insert bucket of `doSuperGroupMsgNew`, not to the special-update bucket. -/
theorem super_found_classification_counterexample :
    (ownMsg "A" 4).SendID = stubEnv.loginUserID ∧
    (stubEnv.GetMessageController (copyMsg (ownMsg "A" 4))).map
      (fun r => (r.Seq, r.CreateTime)) = some (0, 0) ∧
    (doSuperGroupMsgNewStep constant stubEnv {} (ownMsg "A" 4)).specialUpdateMsg = [] ∧
    (doSuperGroupMsgNewStep constant stubEnv {} (ownMsg "A" 4)).insertMsg.map
      (fun r => (r.ClientMsgID, r.Status)) = [("A", 4)] := by
  decide

/-- C12 (amended). In `doSuperGroupMsgNew`, for a message that reaches classification
(status not has-deleted, decoded without error, non-empty client message id, no
`continue` in the notification switches) and is found in the store as `m`: an own
message with `m.Seq = 0` and `m.CreateTime = 0` goes to the special-update bucket only;
an own message with `m.Seq = 0` and `m.CreateTime ≠ 0` goes to the update bucket only
(status filtered when `IsConversationUpdate` is unset); a message of another user with
`m.Seq = 0` goes to the special-update bucket only; every message with `m.Seq ≠ 0` goes
to the exception bucket only. -/
theorem super_found_classification (K : Constants) (E : Env) (s : BatchState) (v : MsgData)
    (msg : MsgStruct) (m : LocalChatLog)
    (hcl : classified K E (superContentSwitch K E) v = some msg)
    (hf : E.GetMessageController msg = some m) :
    (v.SendID = E.loginUserID → m.Seq = 0 → m.CreateTime = 0 →
      doSuperGroupMsgNewStep K E s v =
        { s with
          nextPtr := s.nextPtr + 1
          effects := s.effects ++ (route K (superContentSwitch K E) v msg).1
          specialUpdateMsg := s.specialUpdateMsg ++ [msgStructToLocalChatLog K msg] }) ∧
    (v.SendID = E.loginUserID → m.Seq = 0 → m.CreateTime ≠ 0 →
      doSuperGroupMsgNewStep K E s v =
        { s with
          nextPtr := s.nextPtr + 1
          effects := s.effects ++ (route K (superContentSwitch K E) v msg).1
          updateMsg := s.updateMsg ++
            [msgStructToLocalChatLog K
              (if v.Options.IsConversationUpdate = true then msg
               else { msg with Status := K.MsgStatusFiltered })] }) ∧
    (v.SendID ≠ E.loginUserID → m.Seq = 0 →
      doSuperGroupMsgNewStep K E s v =
        { s with
          nextPtr := s.nextPtr + 1
          effects := s.effects ++ (route K (superContentSwitch K E) v msg).1
          specialUpdateMsg := s.specialUpdateMsg ++ [msgStructToLocalChatLog K msg] }) ∧
    (m.Seq ≠ 0 →
      doSuperGroupMsgNewStep K E s v =
        { s with
          nextPtr := s.nextPtr + 1
          effects := s.effects ++ (route K (superContentSwitch K E) v msg).1
          exceptionMsg := s.exceptionMsg ++ [msgStructToLocalErrChatLog K msg] }) := by
  have hstep : doSuperGroupMsgNewStep K E s v =
      superClassify K E
        { s with
          nextPtr := s.nextPtr + 1
          effects := s.effects ++ (route K (superContentSwitch K E) v msg).1 }
        v s.nextPtr msg := by
    unfold doSuperGroupMsgNewStep
    exact loopBody_of_classified K E _ _ s v msg hcl
  rw [hstep]
  unfold superClassify
  refine ⟨?_, ?_, ?_, ?_⟩
  · intro hs hseq hct
    simp only [hs, if_true, hf, hseq, hct]
  · intro hs hseq hct
    simp only [hs, if_true, hf, hseq, hct, if_false]
    cases v.Options.IsConversationUpdate <;> simp
  · intro hs hseq
    simp only [hs, if_false, hf, hseq, if_true]
  · intro hseq
    by_cases hs : v.SendID = E.loginUserID
    · simp only [hs, if_true, hf, hseq, if_false]
    · simp only [hs, if_false, hf, hseq]

/-- C12 (amended) at a store of stubs: an own message found with `seq = 0` and
`create_time = 0` goes to the special-update bucket only. -/
theorem super_found_classification_witness :
    doSuperGroupMsgNewStep constant stubEnv {} (ownMsg "A" 0) =
      { nextPtr := 1, specialUpdateMsg := [msgStructToLocalChatLog constant s1Prepared] } :=
  (super_found_classification constant stubEnv {} (ownMsg "A" 0) s1Prepared
    { ClientMsgID := "A", Seq := 0 } (by decide) (by decide)).1
    (by decide) (by decide) (by decide)

/-! ### The has-deleted short-circuit -/

/-- C13. Has-deleted short-circuit: for an inbound message whose status is has-deleted,
the iteration of `doMsgNew` and of `doSuperGroupMsgNew` appends exactly one row to the
insert bucket, the copy of the message as it arrived (not decoded: content and
attached info as received, status still has-deleted), and changes nothing else: no
call to a notification handler, nothing in the update, special-update or exception
buckets, the conversation set, the unread rows or the listener lists. -/
theorem has_deleted_short_circuit (K : Constants) (E : Env) (s : BatchState) (v : MsgData)
    (h : v.Status = K.MsgStatusHasDeleted) :
    (msgStructToLocalChatLog K (copyMsg v)).Status = K.MsgStatusHasDeleted ∧
    (msgStructToLocalChatLog K (copyMsg v)).Content = v.Content ∧
    (msgStructToLocalChatLog K (copyMsg v)).AttachedInfo = v.AttachedInfo ∧
    (msgStructToLocalChatLog K (copyMsg v)).ClientMsgID = v.ClientMsgID ∧
    doMsgNewStep K E s v =
      { s with
        nextPtr := s.nextPtr + 1
        insertMsg := s.insertMsg ++ [msgStructToLocalChatLog K (copyMsg v)] } ∧
    doSuperGroupMsgNewStep K E s v =
      { s with
        nextPtr := s.nextPtr + 1
        insertMsg := s.insertMsg ++ [msgStructToLocalChatLog K (copyMsg v)] } := by
  have hp : prepare K E v = Prepared.hasDeleted (copyMsg v) := by
    unfold prepare
    have : (copyMsg v).Status = K.MsgStatusHasDeleted := h
    rw [if_pos this]
  have hrow : (msgStructToLocalChatLog K (copyMsg v)).AttachedInfo = v.AttachedInfo := by
    unfold msgStructToLocalChatLog
    simp only
    split <;> rfl
  obtain ⟨f1, f2, _, f4⟩ := msgStructToLocalChatLog_fields K (copyMsg v)
  refine ⟨f2.trans h, f4, hrow, f1, ?_, ?_⟩
  · unfold doMsgNewStep loopBody
    rw [hp]
  · unfold doSuperGroupMsgNewStep loopBody
    rw [hp]

/-- C13 at a concrete message: a has-deleted peer message is inserted verbatim. -/
theorem has_deleted_short_circuit_witness :
    doMsgNewStep constant sampleEnv {} (peerMsgWithStatus "d" 4) =
      { nextPtr := 1
        insertMsg := [msgStructToLocalChatLog constant (copyMsg (peerMsgWithStatus "d" 4))] } :=
  (has_deleted_short_circuit constant sampleEnv {} (peerMsgWithStatus "d" 4)
    (by decide)).2.2.2.2.1

/-! ### The commit phases -/

theorem map_phaseOf_insertCalls (E : Env) (rows : List LocalChatLog) :
    (insertCalls E rows).map phaseOf =
      Phase.insertMessages ::
        List.replicate (if E.BatchInsertMessageListControllerOk rows = true then 0
          else rows.length) Phase.insertOneMessage := by
  unfold insertCalls
  cases E.BatchInsertMessageListControllerOk rows
  · simp only [Bool.false_eq_true, if_false, List.map_cons, List.map_map, phaseOf]
    congr 1
    rw [List.eq_replicate_iff]
    constructor
    · simp
    · intro b hb
      obtain ⟨r, _, rfl⟩ := List.mem_map.mp hb
      rfl
  · simp [phaseOf]

/-- C14 (counterexample). The fixed commit order as the specification states it fails in
the super-group path: the first store call of `doSuperGroupMsgNew` is the batch special
update, the batch update of messages comes second. -/
theorem commit_order_counterexample :
    (doSuperGroupMsgNew constant stubEnv [[ownMsg "A" 0]]).storeCalls.take 2 =
      [Effect.BatchSpecialUpdateMessageList [msgStructToLocalChatLog constant s1Prepared],
       Effect.BatchUpdateMessageList []] := by
  decide

/-- C14 (amended). Fixed commit order: the store calls of the commit phases of one batch
are, in `doMsgNew`: batch update of messages, batch insert of messages (followed, when
it fails, by one insert a row of the insert bucket), batch insert of exception
messages, batch update of conversations, batch insert of conversations, batch insert
of unread rows; in `doSuperGroupMsgNew` the same sequence preceded by the batch special
update of messages, which comes before the batch update of messages. -/
theorem commit_order (K : Constants) (E : Env) (allMsg : List (List MsgData)) :
    (doMsgNew K E allMsg).storeCalls.map phaseOf =
      [Phase.updateMessages, Phase.insertMessages] ++
      List.replicate
        (if E.BatchInsertMessageListControllerOk (doMsgNew K E allMsg).loop.insertMsg = true
          then 0 else (doMsgNew K E allMsg).loop.insertMsg.length) Phase.insertOneMessage ++
      [Phase.insertExceptions, Phase.updateConversations, Phase.insertConversations,
       Phase.insertUnreadRows] ∧
    (doSuperGroupMsgNew K E allMsg).storeCalls.map phaseOf =
      [Phase.specialUpdateMessages, Phase.updateMessages, Phase.insertMessages] ++
      List.replicate
        (if E.BatchInsertMessageListControllerOk
            (doSuperGroupMsgNew K E allMsg).loop.insertMsg = true
          then 0 else (doSuperGroupMsgNew K E allMsg).loop.insertMsg.length)
        Phase.insertOneMessage ++
      [Phase.insertExceptions, Phase.updateConversations, Phase.insertConversations,
       Phase.insertUnreadRows] := by
  constructor
  · simp only [doMsgNew, commit, List.map_append, map_phaseOf_insertCalls, List.map_cons,
      List.map_nil, phaseOf]
    rfl
  · simp only [doSuperGroupMsgNew, commit, List.map_append, map_phaseOf_insertCalls,
      List.map_cons, List.map_nil, phaseOf]
    rfl

/-! ### The insert fallback -/

theorem singleInserts_insertCalls (E : Env) (rows : List LocalChatLog) :
    singleInserts (insertCalls E rows) =
      if E.BatchInsertMessageListControllerOk rows = true then [] else rows := by
  unfold insertCalls singleInserts
  cases E.BatchInsertMessageListControllerOk rows
  · simp only [Bool.false_eq_true, if_false, List.filterMap_cons]
    induction rows with
    | nil => rfl
    | cons r rs ih => simp only [List.map_cons, List.filterMap_cons, ih]
  · simp

theorem insertFallback_eq (E : Env) (rows : List LocalChatLog) :
    ∀ done : List LocalChatLog,
      insertFallback E done rows =
        ((((rows.inits.map (done ++ ·)).zip rows).filter
          fun p => !E.InsertMessageControllerOk p.1 p.2).map Prod.snd).map
          chatLogToErrChatLog := by
  induction rows with
  | nil => intro done; simp [insertFallback]
  | cons v rest ih =>
    intro done
    have hin : ((v :: rest).inits.map (done ++ ·)) =
        done :: (rest.inits.map ((done ++ [v]) ++ ·)) := by
      simp [List.inits_cons, List.map_map, Function.comp_def]
    rw [hin]
    simp only [insertFallback, List.zip_cons_cons, List.filter_cons, ih (done ++ [v])]
    cases E.InsertMessageControllerOk done v <;> simp

theorem insertFallback_nil_eq (E : Env) (rows : List LocalChatLog) :
    insertFallback E [] rows = (failedInserts E rows).map chatLogToErrChatLog := by
  rw [insertFallback_eq E rows []]
  unfold failedInserts
  simp

theorem commit_insert_fallback (K : Constants) (E : Env) (updates : List Effect)
    (hup : singleInserts updates = []) (s : BatchState) :
    (E.BatchInsertMessageListControllerOk s.insertMsg = true →
      singleInserts (commit K E updates s).storeCalls = [] ∧
      (commit K E updates s).exceptionMsg = s.exceptionMsg) ∧
    (E.BatchInsertMessageListControllerOk s.insertMsg = false →
      singleInserts (commit K E updates s).storeCalls = s.insertMsg ∧
      (commit K E updates s).exceptionMsg =
        s.exceptionMsg ++ (failedInserts E s.insertMsg).map chatLogToErrChatLog) := by
  have hcalls : singleInserts (commit K E updates s).storeCalls =
      singleInserts (insertCalls E s.insertMsg) := by
    simp only [commit, singleInserts, List.filterMap_append] at hup ⊢
    rw [hup]
    simp
  constructor
  · intro hok
    rw [hcalls, singleInserts_insertCalls]
    simp [commit, hok]
  · intro hfail
    rw [hcalls, singleInserts_insertCalls]
    simp [commit, hfail, insertFallback_nil_eq]

/-- C15. Insert fallback, in `doMsgNew` and `doSuperGroupMsgNew`: when the batch insert of
the insert bucket succeeds there is no per-row insert and the exception bucket stays
as the loop left it; when it fails, the rows of the insert bucket are inserted one by
one in bucket order and the exception bucket gains, in that order, one exception row
for each row whose individual insert fails and none for the others; such an exception
row is a field-for-field copy of the message row. -/
theorem insert_fallback (K : Constants) (E : Env) (allMsg : List (List MsgData))
    (R : BatchResult) (hR : R = doMsgNew K E allMsg ∨ R = doSuperGroupMsgNew K E allMsg) :
    (E.BatchInsertMessageListControllerOk R.loop.insertMsg = true →
      singleInserts R.storeCalls = [] ∧ R.exceptionMsg = R.loop.exceptionMsg) ∧
    (E.BatchInsertMessageListControllerOk R.loop.insertMsg = false →
      singleInserts R.storeCalls = R.loop.insertMsg ∧
      R.exceptionMsg =
        R.loop.exceptionMsg ++ (failedInserts E R.loop.insertMsg).map chatLogToErrChatLog) ∧
    (∀ v : LocalChatLog,
      (chatLogToErrChatLog v).Seq = v.Seq ∧
      (chatLogToErrChatLog v).ClientMsgID = v.ClientMsgID ∧
      (chatLogToErrChatLog v).ServerMsgID = v.ServerMsgID ∧
      (chatLogToErrChatLog v).SendID = v.SendID ∧
      (chatLogToErrChatLog v).RecvID = v.RecvID ∧
      (chatLogToErrChatLog v).SenderPlatformID = v.SenderPlatformID ∧
      (chatLogToErrChatLog v).SenderNickname = v.SenderNickname ∧
      (chatLogToErrChatLog v).SenderFaceURL = v.SenderFaceURL ∧
      (chatLogToErrChatLog v).SessionType = v.SessionType ∧
      (chatLogToErrChatLog v).MsgFrom = v.MsgFrom ∧
      (chatLogToErrChatLog v).ContentType = v.ContentType ∧
      (chatLogToErrChatLog v).Content = v.Content ∧
      (chatLogToErrChatLog v).IsRead = v.IsRead ∧
      (chatLogToErrChatLog v).Status = v.Status ∧
      (chatLogToErrChatLog v).SendTime = v.SendTime ∧
      (chatLogToErrChatLog v).CreateTime = v.CreateTime ∧
      (chatLogToErrChatLog v).AttachedInfo = v.AttachedInfo ∧
      (chatLogToErrChatLog v).Ex = v.Ex) := by
  have hcopy : ∀ v : LocalChatLog,
      (chatLogToErrChatLog v).Seq = v.Seq ∧
      (chatLogToErrChatLog v).ClientMsgID = v.ClientMsgID ∧
      (chatLogToErrChatLog v).ServerMsgID = v.ServerMsgID ∧
      (chatLogToErrChatLog v).SendID = v.SendID ∧
      (chatLogToErrChatLog v).RecvID = v.RecvID ∧
      (chatLogToErrChatLog v).SenderPlatformID = v.SenderPlatformID ∧
      (chatLogToErrChatLog v).SenderNickname = v.SenderNickname ∧
      (chatLogToErrChatLog v).SenderFaceURL = v.SenderFaceURL ∧
      (chatLogToErrChatLog v).SessionType = v.SessionType ∧
      (chatLogToErrChatLog v).MsgFrom = v.MsgFrom ∧
      (chatLogToErrChatLog v).ContentType = v.ContentType ∧
      (chatLogToErrChatLog v).Content = v.Content ∧
      (chatLogToErrChatLog v).IsRead = v.IsRead ∧
      (chatLogToErrChatLog v).Status = v.Status ∧
      (chatLogToErrChatLog v).SendTime = v.SendTime ∧
      (chatLogToErrChatLog v).CreateTime = v.CreateTime ∧
      (chatLogToErrChatLog v).AttachedInfo = v.AttachedInfo ∧
      (chatLogToErrChatLog v).Ex = v.Ex :=
    fun v => ⟨rfl, rfl, rfl, rfl, rfl, rfl, rfl, rfl, rfl, rfl, rfl, rfl, rfl, rfl, rfl, rfl,
      rfl, rfl⟩
  rcases hR with rfl | rfl
  · obtain ⟨a, b⟩ := commit_insert_fallback K E
      [Effect.BatchUpdateMessageList (doMsgNewLoop K E allMsg).updateMsg] rfl
      (doMsgNewLoop K E allMsg)
    exact ⟨a, b, hcopy⟩
  · obtain ⟨a, b⟩ := commit_insert_fallback K E
      [Effect.BatchSpecialUpdateMessageList (doSuperGroupMsgNewLoop K E allMsg).specialUpdateMsg,
       Effect.BatchUpdateMessageList (doSuperGroupMsgNewLoop K E allMsg).updateMsg] rfl
      (doSuperGroupMsgNewLoop K E allMsg)
    exact ⟨a, b, hcopy⟩

/-- C15 at a store that rejects the batch and the row `bad`: the three rows are inserted
one by one in bucket order and the exception bucket gains one row, for `bad`. -/
theorem insert_fallback_witness :
    (singleInserts (doMsgNew constant rejectingEnv fallbackBatch).storeCalls).map
      (·.ClientMsgID) = ["a", "bad", "c"] ∧
    (doMsgNew constant rejectingEnv fallbackBatch).exceptionMsg.map (·.ClientMsgID) =
      ["bad"] :=
  have h := ((insert_fallback constant rejectingEnv fallbackBatch
    (doMsgNew constant rejectingEnv fallbackBatch) (Or.inl rfl)).2.1 (by decide))
  ⟨by rw [h.1]; decide, by rw [h.2]; decide⟩

/-! ### Consumed notifications -/

theorem sessionSwitch_of_signaling (K : Constants) (v : MsgData) (msg : MsgStruct)
    (h : Effect.signalingDoNotification v ∈ (sessionSwitch K v msg).1) :
    sessionSwitch K v msg = ([Effect.signalingDoNotification v], true) := by
  unfold sessionSwitch at h ⊢
  split_ifs at h ⊢ <;> simp at h ⊢

theorem sessionSwitch_of_workMoments (K : Constants) (v : MsgData) (msg : MsgStruct) (c : String)
    (h : Effect.workMomentsDoNotification c ∈ (sessionSwitch K v msg).1) :
    sessionSwitch K v msg = ([Effect.workMomentsDoNotification msg.Content], false) := by
  unfold sessionSwitch at h ⊢
  split_ifs at h ⊢ <;> simp at h ⊢

theorem loopBody_of_consumed (K : Constants) (E : Env)
    (switch1 : MsgData → MsgStruct → List Effect × Bool)
    (classifier : BatchState → MsgData → Nat → MsgStruct → BatchState)
    (s : BatchState) (v : MsgData) (msg : MsgStruct)
    (hp : prepare K E v = Prepared.ok msg) (hr : (route K switch1 v msg).2 = true) :
    loopBody K E switch1 classifier s v =
      { s with nextPtr := s.nextPtr + 1, effects := s.effects ++ (route K switch1 v msg).1 } := by
  unfold loopBody
  rw [hp]
  simp only
  rw [if_pos hr]

/-- C16 (counterexample). A work-moments notification is not consumed: a peer message
with content type `WorkMomentNotification` in a single chat is handed to the
work-moments handler and is then classified by `doMsgNew` as a new message, with a row
in the insert bucket, an unread row, an entry in the new-message list and a record in
the conversation set. -/
theorem work_moments_counterexample :
    (doMsgNewStep constant sampleEnv {} workMomentMsg).effects =
      [Effect.workMomentsDoNotification ""] ∧
    (doMsgNewStep constant sampleEnv {} workMomentMsg).insertMsg.map (·.ClientMsgID) = ["w"] ∧
    (doMsgNewStep constant sampleEnv {} workMomentMsg).unreadMessages.map (·.ClientMsgID) =
      ["w"] ∧
    (doMsgNewStep constant sampleEnv {} workMomentMsg).newMessages.map (·.val.ClientMsgID) =
      ["w"] ∧
    (doMsgNewStep constant sampleEnv {} workMomentMsg).conversationSet.keys = ["s_u2"] := by
  decide

/-- C16 (amended). Signaling notifications are consumed: in `doMsgNew` and in
`doSuperGroupMsgNew`, for a message that reaches the session switch (status not
has-deleted, decoded without error, non-empty client message id, no `continue` in the
first switch) and is routed there to the signaling handler, the iteration ends after
the handler call: the message is not classified and the buckets, the conversation set,
the unread rows and the listener lists stay as they were. A message routed to the
work-moments handler is not consumed: after the handler call it is classified like
any other message. -/
theorem signaling_consumed (K : Constants) (E : Env) (s : BatchState) (v : MsgData)
    (msg : MsgStruct) (hp : prepare K E v = Prepared.ok msg) :
    (Effect.signalingDoNotification v ∈ (sessionSwitch K v msg).1 →
      ((contentSwitch K E v msg).2 = false →
        classified K E (contentSwitch K E) v = none ∧
        doMsgNewStep K E s v =
          { s with
            nextPtr := s.nextPtr + 1
            effects := s.effects ++
              ((contentSwitch K E v msg).1 ++ [Effect.signalingDoNotification v]) }) ∧
      ((superContentSwitch K E v msg).2 = false →
        classified K E (superContentSwitch K E) v = none ∧
        doSuperGroupMsgNewStep K E s v =
          { s with
            nextPtr := s.nextPtr + 1
            effects := s.effects ++
              ((superContentSwitch K E v msg).1 ++ [Effect.signalingDoNotification v]) })) ∧
    (Effect.workMomentsDoNotification msg.Content ∈ (sessionSwitch K v msg).1 →
      ((contentSwitch K E v msg).2 = false →
        classified K E (contentSwitch K E) v = some msg ∧
        doMsgNewStep K E s v =
          classify K E
            { s with
              nextPtr := s.nextPtr + 1
              effects := s.effects ++
                ((contentSwitch K E v msg).1 ++ [Effect.workMomentsDoNotification msg.Content]) }
            v s.nextPtr msg) ∧
      ((superContentSwitch K E v msg).2 = false →
        classified K E (superContentSwitch K E) v = some msg ∧
        doSuperGroupMsgNewStep K E s v =
          superClassify K E
            { s with
              nextPtr := s.nextPtr + 1
              effects := s.effects ++
                ((superContentSwitch K E v msg).1 ++
                  [Effect.workMomentsDoNotification msg.Content]) }
            v s.nextPtr msg)) := by
  have hsig : ∀ switch1 : MsgData → MsgStruct → List Effect × Bool,
      Effect.signalingDoNotification v ∈ (sessionSwitch K v msg).1 →
      (switch1 v msg).2 = false →
      route K switch1 v msg = ((switch1 v msg).1 ++ [Effect.signalingDoNotification v], true) := by
    intro switch1 h h1
    unfold route
    rw [h1, sessionSwitch_of_signaling K v msg h]
    simp
  have hwm : ∀ switch1 : MsgData → MsgStruct → List Effect × Bool,
      Effect.workMomentsDoNotification msg.Content ∈ (sessionSwitch K v msg).1 →
      (switch1 v msg).2 = false →
      route K switch1 v msg =
        ((switch1 v msg).1 ++ [Effect.workMomentsDoNotification msg.Content], false) := by
    intro switch1 h h1
    unfold route
    rw [h1, sessionSwitch_of_workMoments K v msg _ h]
    simp
  have hnone : ∀ switch1 : MsgData → MsgStruct → List Effect × Bool,
      (route K switch1 v msg).2 = true → classified K E switch1 v = none := by
    intro switch1 h
    unfold classified
    rw [hp]
    simp only
    rw [if_pos h]
  have hsome : ∀ switch1 : MsgData → MsgStruct → List Effect × Bool,
      (route K switch1 v msg).2 = false → classified K E switch1 v = some msg := by
    intro switch1 h
    unfold classified
    rw [hp]
    simp only
    rw [h]
    simp
  refine ⟨fun h => ⟨fun h1 => ⟨?_, ?_⟩, fun h1 => ⟨?_, ?_⟩⟩,
    fun h => ⟨fun h1 => ⟨?_, ?_⟩, fun h1 => ⟨?_, ?_⟩⟩⟩
  · exact hnone _ (by rw [hsig _ h h1])
  · unfold doMsgNewStep
    rw [loopBody_of_consumed K E _ _ s v msg hp (by rw [hsig _ h h1]), hsig _ h h1]
  · exact hnone _ (by rw [hsig _ h h1])
  · unfold doSuperGroupMsgNewStep
    rw [loopBody_of_consumed K E _ _ s v msg hp (by rw [hsig _ h h1]), hsig _ h h1]
  · exact hsome _ (by rw [hwm _ h h1])
  · unfold doMsgNewStep
    rw [loopBody_of_classified K E _ _ s v msg (hsome _ (by rw [hwm _ h h1])), hwm _ h h1]
  · exact hsome _ (by rw [hwm _ h h1])
  · unfold doSuperGroupMsgNewStep
    rw [loopBody_of_classified K E _ _ s v msg (hsome _ (by rw [hwm _ h h1])), hwm _ h h1]

/-- C16 (amended) at a signaling message of a peer in a single chat: the only change of
the iteration is the call of the signaling handler. -/
theorem signaling_consumed_witness :
    doMsgNewStep constant sampleEnv {} signalingMsg =
      { nextPtr := 1, effects := [Effect.signalingDoNotification signalingMsg] } :=
  ((signaling_consumed constant sampleEnv {} signalingMsg
    { copyMsg signalingMsg with Status := 2 } (by decide)).1 (by decide)).1 (by decide) |>.2

/-! ### The super-group update notification -/

/-- C17. A message with content type `SuperGroupUpdateNotification` is handed to the
super-group notification handler in both methods; `doMsgNew` then skips it, while
`doSuperGroupMsgNew` goes on and classifies it: the peer message `t` gets a row in
the insert bucket, an unread row, an entry in the new-message list and a record in
the conversation set. -/
theorem super_group_update_not_skipped :
    doMsgNewStep constant sampleEnv {} superGroupUpdateMsg =
      { nextPtr := 1, effects := [Effect.superGroupDoNotification superGroupUpdateMsg] } ∧
    (doSuperGroupMsgNewStep constant sampleEnv {} superGroupUpdateMsg).effects =
      [Effect.superGroupDoNotification superGroupUpdateMsg] ∧
    (doSuperGroupMsgNewStep constant sampleEnv {} superGroupUpdateMsg).insertMsg.map
      (·.ClientMsgID) = ["t"] ∧
    (doSuperGroupMsgNewStep constant sampleEnv {} superGroupUpdateMsg).unreadMessages.map
      (·.ClientMsgID) = ["t"] ∧
    (doSuperGroupMsgNewStep constant sampleEnv {} superGroupUpdateMsg).newMessages.map
      (·.val.ClientMsgID) = ["t"] ∧
    (doSuperGroupMsgNewStep constant sampleEnv {} superGroupUpdateMsg).conversationSet.keys =
      ["sg_g1"] := by
  decide

/-! ### Revoke of a quoted message -/

theorem isContainRevokedList_first (target : String) (r : MessageRevoked)
    (post : List MessageRevoked) (hr : r.ClientMsgID = target) :
    ∀ pre : List MessageRevoked, (∀ e ∈ pre, e.ClientMsgID ≠ target) →
      isContainRevokedList target (pre ++ r :: post) = some r := by
  intro pre
  induction pre with
  | nil =>
    intro _
    simp [isContainRevokedList, hr]
  | cons e rest ih =>
    intro h
    have he : target ≠ e.ClientMsgID := fun h0 => h e (List.mem_cons_self _ _) h0.symm
    simp only [List.cons_append, isContainRevokedList, if_neg he]
    exact ih fun x hx => h x (List.mem_cons_of_mem _ hx)

theorem isContainRevokedList_none (target : String) :
    ∀ l : List MessageRevoked, (∀ e ∈ l, e.ClientMsgID ≠ target) →
      isContainRevokedList target l = none := by
  intro l
  induction l with
  | nil => intro _; rfl
  | cons e rest ih =>
    intro h
    have he : target ≠ e.ClientMsgID := fun h0 => h e (List.mem_cons_self _ _) h0.symm
    simp only [isContainRevokedList, if_neg he]
    exact ih fun x hx => h x (List.mem_cons_of_mem _ hx)

/-- C18. Revoke quoting law: for a stored quote message `q` and a list `R` of revoke
payloads, if the quoted message decoded from `q` has the client message id of some
element of `R`, and `r` is the first such element, `QuoteMsgRevokeHandle` rewrites the
content of `q` to the JSON of its quote element in which the quoted message has
content type `AdvancedRevoke` and content the JSON of `r` (nothing else of the quote
element or of the row changes), and writes that row to the store with one update; if
`q` has no quoted message or no element of `R` matches, `q` is unchanged and no store
call is made. -/
theorem quote_revoke_law (K : Constants) (E : Env) (q : LocalChatLog) (R : List MessageRevoked) :
    (∀ (qm : MsgStruct) (pre post : List MessageRevoked) (r : MessageRevoked),
      (E.jsonToQuoteElem q.Content).QuoteMessage = some qm →
      R = pre ++ r :: post →
      (∀ e ∈ pre, e.ClientMsgID ≠ qm.ClientMsgID) →
      r.ClientMsgID = qm.ClientMsgID →
      (QuoteMsgRevokeHandle K E q R).1 =
        { q with
          Content := E.quoteElemToJson
            { E.jsonToQuoteElem q.Content with
              QuoteMessage := some
                { qm with
                  Content := E.messageRevokedToJson r
                  ContentType := K.AdvancedRevoke } } } ∧
      (QuoteMsgRevokeHandle K E q R).2 =
        [Effect.UpdateMessageController (QuoteMsgRevokeHandle K E q R).1]) ∧
    ((E.jsonToQuoteElem q.Content).QuoteMessage = none →
      QuoteMsgRevokeHandle K E q R = (q, [])) ∧
    (∀ qm : MsgStruct, (E.jsonToQuoteElem q.Content).QuoteMessage = some qm →
      (∀ e ∈ R, e.ClientMsgID ≠ qm.ClientMsgID) →
      QuoteMsgRevokeHandle K E q R = (q, [])) := by
  refine ⟨?_, ?_, ?_⟩
  · intro qm pre post r hq hR hpre hr
    have hfind := isContainRevokedList_first qm.ClientMsgID r post hr pre hpre
    rw [← hR] at hfind
    unfold QuoteMsgRevokeHandle
    rw [hq]
    simp [hfind]
  · intro hq
    unfold QuoteMsgRevokeHandle
    rw [hq]
  · intro qm hq hno
    have hfind := isContainRevokedList_none qm.ClientMsgID R hno
    unfold QuoteMsgRevokeHandle
    rw [hq]
    simp only [hfind]

/-- C18 at a quote of the message `x` and the payloads for `y`, `x`, `x`: the content of
the quote row carries the first payload of `x`, and the row is written once. -/
theorem quote_revoke_law_witness :
    (QuoteMsgRevokeHandle constant quoteEnv quoteRow revokedList).1 = quoteRowRevoked ∧
    (QuoteMsgRevokeHandle constant quoteEnv quoteRow revokedList).2 =
      [Effect.UpdateMessageController quoteRowRevoked] :=
  have h := (quote_revoke_law constant quoteEnv quoteRow revokedList).1
    { ClientMsgID := "x", ContentType := 101, Content := "hello" }
    [{ ClientMsgID := "y", SourceMessageSendTime := 1 }]
    [{ ClientMsgID := "x", SourceMessageSendTime := 3 }]
    { ClientMsgID := "x", SourceMessageSendTime := 2 }
    (by decide) (by decide) (by decide) (by decide)
  ⟨h.1.trans (by decide), h.2.trans (by rw [h.1]; decide)⟩

/-! ### Revoke of a message that is not in the store -/

/-- C19 (counterexample). The stub insert does not follow the path. In the regular path
(`doMsgNew`) an advanced-revoke message whose payload has session type super-group and
whose target `x` cannot be updated gets a stub row inserted; in the super-group path
(`doSuperGroupMsgNew`) an advanced-revoke message whose payload has another session
type gets none. -/
theorem missing_revoke_target_counterexample :
    doMsgNewRevokeCalls constant revokeEnv [[revokeMsg "sg"]] =
      [Effect.UpdateMessageController { ClientMsgID := "x", Status := 5, SessionType := 3 },
       Effect.InsertMessageController { ClientMsgID := "x", Status := 5, SessionType := 3 }] ∧
    doSuperGroupMsgNewRevokeCalls constant revokeEnv [[superRevokeMsg "single"]] =
      [Effect.UpdateMessageController
        { ClientMsgID := "x", Status := 5, SessionType := 1, RecvID := "g1" }] := by
  decide

/-- C19 (amended). Missing revoke target: `doMsgNew` and `doSuperGroupMsgNew` hand their
advanced-revoke messages to the same `newRevokeMessage`. When the payload of such a
message names a target client message id for which the status update fails, the
iteration makes that failed update and then inserts the same row, a stub with the
target id and status revoked, exactly when the session type of the payload is
super-group; for any other payload session type nothing is inserted. In both cases the
message is put on the failed list and reaches neither the listener nor the quote
handling. -/
theorem missing_revoke_target (K : Constants) (E : Env) (st : RevokeState) (w : MsgStruct)
    (msg : MessageRevoked)
    (hdec : E.jsonToMessageRevoked w.Content = some msg)
    (hfail : E.UpdateMessageControllerOk st.effects (revokeTarget K w msg) = false) :
    (revokeTarget K w msg).ClientMsgID = msg.ClientMsgID ∧
    (revokeTarget K w msg).Status = K.MsgStatusRevoked ∧
    (msg.SessionType = K.SuperGroupChatType →
      newRevokeStep K E st w =
        { st with
          failedRevokeMessageList := st.failedRevokeMessageList ++ [w]
          effects := st.effects ++
            [Effect.UpdateMessageController (revokeTarget K w msg),
             Effect.InsertMessageController (revokeTarget K w msg)] }) ∧
    (msg.SessionType ≠ K.SuperGroupChatType →
      newRevokeStep K E st w =
        { st with
          failedRevokeMessageList := st.failedRevokeMessageList ++ [w]
          effects := st.effects ++ [Effect.UpdateMessageController (revokeTarget K w msg)] }) ∧
    (∀ allMsg : List (List MsgData),
      doMsgNewRevokeCalls K E allMsg =
        newRevokeMessage K E ((doMsgNewLoop K E allMsg).newMsgRevokeList.map (·.val)) ∧
      doSuperGroupMsgNewRevokeCalls K E allMsg =
        newRevokeMessage K E
          ((doSuperGroupMsgNewLoop K E allMsg).newMsgRevokeList.map (·.val))) := by
  refine ⟨rfl, rfl, ?_, ?_, fun _ => ⟨rfl, rfl⟩⟩
  · intro hs
    unfold newRevokeStep
    rw [hdec]
    simp only [hfail, if_true, hs, List.append_assoc, List.singleton_append]
  · intro hs
    unfold newRevokeStep
    rw [hdec]
    simp only [hfail, if_true, hs, if_false, List.append_nil]

/-- C19 (amended) at a revoke message of a single chat whose payload has session type
super-group, in a store where the update fails: the stub for `x` is inserted. -/
theorem missing_revoke_target_witness :
    newRevokeStep constant revokeEnv {} (copyMsg (revokeMsg "sg")) =
      { failedRevokeMessageList := [copyMsg (revokeMsg "sg")]
        effects :=
          [Effect.UpdateMessageController { ClientMsgID := "x", Status := 5, SessionType := 3 },
           Effect.InsertMessageController { ClientMsgID := "x", Status := 5, SessionType := 3 }] } :=
  (missing_revoke_target constant revokeEnv {} (copyMsg (revokeMsg "sg"))
    { ClientMsgID := "x", SessionType := 3 } (by decide) (by decide)).2.2.1 (by decide)

/-! ### A malformed read receipt -/

/-- C20. A malformed 1-to-1 read receipt ends `doMsgReadState`: the method returns at a
receipt whose content does not decode, so the receipts after it are not applied and
`OnRecvC2CReadReceipt` is not called. For the receipts for `a`, a malformed one, and
for `c`, only `a` is marked read and nothing is reported; without the malformed
receipt both rows are marked read and both receipts are reported. -/
theorem malformed_receipt_ends_read_state :
    (∀ (K : Constants) (E : Env) (st : ReadState) (rd : MsgStruct) (rest : List MsgStruct),
      E.jsonToStringList rd.Content = none →
      doMsgReadStateFrom K E st (rd :: rest) = st.effects) ∧
    doMsgReadState constant readEnv [receipt "r1" "a", receipt "r2" "bad", receipt "r3" "c"] =
      [Effect.UpdateMessage (readRow "a"),
       Effect.doUpdateConversation (ConCmd.ConversationLatestMsgHasRead [("s_u2", ["a"])])] ∧
    doMsgReadState constant readEnv [receipt "r1" "a", receipt "r3" "c"] =
      [Effect.UpdateMessage (readRow "a"),
       Effect.doUpdateConversation (ConCmd.ConversationLatestMsgHasRead [("s_u2", ["a"])]),
       Effect.UpdateMessage (readRow "c"),
       Effect.doUpdateConversation (ConCmd.ConversationLatestMsgHasRead [("s_u2", ["a", "c"])]),
       Effect.OnRecvC2CReadReceipt [reported "a", reported "c"]] := by
  refine ⟨?_, by decide, by decide⟩
  intro K E st rd rest h
  simp only [doMsgReadStateFrom, h]

/-! ### The @-mention annotation -/

/-- C28. The method `genConversationGroupAtType(lc, s)`: for an at-text message `s` the
group-at type of `lc` becomes at-all-and-me when the at-list holds both the login user
id and the at-all sentinel, at-all when it holds the sentinel only, at-me when it holds
the login user id only, and `lc` stays as it is when it holds neither; for any other
content type `lc` stays as it is. No other field of `lc` changes. -/
theorem genConversationGroupAtType_cases (K : Constants) (E : Env) (lc : LocalConversation)
    (s : MsgStruct) :
    (s.ContentType = K.AtText →
      (E.loginUserID ∈ s.AtElem.AtUserList → K.AtAllString ∈ s.AtElem.AtUserList →
        genConversationGroupAtType K E lc s = { lc with GroupAtType := K.AtAllAtMe }) ∧
      (E.loginUserID ∉ s.AtElem.AtUserList → K.AtAllString ∈ s.AtElem.AtUserList →
        genConversationGroupAtType K E lc s = { lc with GroupAtType := K.AtAll }) ∧
      (E.loginUserID ∈ s.AtElem.AtUserList → K.AtAllString ∉ s.AtElem.AtUserList →
        genConversationGroupAtType K E lc s = { lc with GroupAtType := K.AtMe }) ∧
      (E.loginUserID ∉ s.AtElem.AtUserList → K.AtAllString ∉ s.AtElem.AtUserList →
        genConversationGroupAtType K E lc s = lc)) ∧
    (s.ContentType ≠ K.AtText → genConversationGroupAtType K E lc s = lc) := by
  refine ⟨fun ht => ⟨fun hme hall => ?_, fun hme hall => ?_, fun hme hall => ?_,
    fun hme hall => ?_⟩, fun ht => ?_⟩
  · simp only [genConversationGroupAtType, ht, if_true, hall, hme]
  · simp only [genConversationGroupAtType, ht, if_true, hall, hme, if_false]
  · simp only [genConversationGroupAtType, ht, if_true, hall, hme, if_false]
  · simp only [genConversationGroupAtType, ht, if_true, hall, hme, if_false]
  · simp only [genConversationGroupAtType, ht, if_false]

/-- C28 at the four at-lists over the login user `u1` and the sentinel, and at a text
message. -/
theorem genConversationGroupAtType_cases_witness :
    genConversationGroupAtType constant sampleEnv atRecord (atStruct ["u1", "AtAllTag"]) =
      { atRecord with GroupAtType := 3 } ∧
    genConversationGroupAtType constant sampleEnv atRecord (atStruct ["u3", "AtAllTag"]) =
      { atRecord with GroupAtType := 2 } ∧
    genConversationGroupAtType constant sampleEnv atRecord (atStruct ["u1", "u3"]) =
      { atRecord with GroupAtType := 1 } ∧
    genConversationGroupAtType constant sampleEnv atRecord (atStruct ["u3"]) = atRecord ∧
    genConversationGroupAtType constant sampleEnv atRecord
      { atStruct ["u1", "AtAllTag"] with ContentType := 101 } = atRecord :=
  have h := genConversationGroupAtType_cases constant sampleEnv atRecord
  ⟨(h (atStruct ["u1", "AtAllTag"])).1 rfl |>.1 (by decide) (by decide),
   (h (atStruct ["u3", "AtAllTag"])).1 rfl |>.2.1 (by decide) (by decide),
   (h (atStruct ["u1", "u3"])).1 rfl |>.2.2.1 (by decide) (by decide),
   (h (atStruct ["u3"])).1 rfl |>.2.2.2 (by decide) (by decide),
   (h { atStruct ["u1", "AtAllTag"] with ContentType := 101 }).2 (by decide)⟩

/-- C25 (counterexample). An at-text message of another user in a group whose at-list
holds the login user id and the at-all sentinel: the record folded into the
conversation set by `doMsgNew`, and the row committed for it, have group-at type 0,
not at-all-and-me. -/
theorem at_mention_counterexample :
    (prepare constant atEnv atMsg = Prepared.ok
      { copyMsg atMsg with
        Status := 2
        AtElem := { Text := "hi", AtUserList := ["u1", "AtAllTag"], IsAtSelf := true } }) ∧
    aggregated constant atEnv (contentSwitch constant atEnv) atMsg = some atRecord ∧
    (doMsgNewStep constant atEnv {} atMsg).conversationSet = [("g_g1", atRecord)] ∧
    (doMsgNew constant atEnv [[atMsg]]).insertedConversations = [atRecord] ∧
    atRecord.GroupAtType = 0 ∧ constant.AtAllAtMe = 3 := by
  decide

/-- C25 (amended). In `doMsgNew` and in `doSuperGroupMsgNew`, the provisional conversation
record that an iteration folds into the conversation set has group-at type 0,
whatever the content type and the at-list of the message: the loop does not call
`genConversationGroupAtType`. -/
theorem at_mention_not_annotated (K : Constants) (E : Env) (v : MsgData)
    (lc : LocalConversation)
    (h : aggregated K E (contentSwitch K E) v = some lc ∨
      aggregated K E (superContentSwitch K E) v = some lc) :
    lc.GroupAtType = 0 := by
  have hfold : ∀ msg : MsgStruct, foldedRecord K E v msg = some lc → lc.GroupAtType = 0 := by
    intro msg hf
    have hr : (receiverConversation K E v msg).GroupAtType = 0 := by
      unfold receiverConversation
      simp only
      split_ifs <;> rfl
    have hs : (senderConversation K E v msg).GroupAtType = 0 := by
      unfold senderConversation
      simp only
      split_ifs <;> rfl
    unfold foldedRecord at hf
    split_ifs at hf
    · rw [← Option.some.inj hf]; exact hs
    · rw [← Option.some.inj hf]; exact hr
    · rw [← Option.some.inj hf]; exact hr
  have hagg : ∀ switch1 : MsgData → MsgStruct → List Effect × Bool,
      aggregated K E switch1 v = some lc → lc.GroupAtType = 0 := by
    intro switch1 ha
    unfold aggregated at ha
    cases hc : classified K E switch1 v with
    | none => rw [hc] at ha; cases ha
    | some msg =>
      rw [hc] at ha
      simp only at ha
      cases hg : E.GetMessageController msg with
      | some m => rw [hg] at ha; cases ha
      | none => rw [hg] at ha; exact hfold msg ha
  rcases h with h | h
  · exact hagg _ h
  · exact hagg _ h

/-- C25 (amended) at the at-text message that mentions the login user and everybody. -/
theorem at_mention_not_annotated_witness : atRecord.GroupAtType = 0 :=
  at_mention_not_annotated constant atEnv atMsg atRecord (Or.inl (by decide))

/-! ### The hidden overlay as a partition of the new set -/

namespace GoMap

variable {V : Type}

theorem get?_isSome_of_mem (m : GoMap V) (k : String) (v : V) (h : (k, v) ∈ m) :
    (m.get? k).isSome = true := by
  induction m with
  | nil => simp at h
  | cons p rest ih =>
    obtain ⟨k', v'⟩ := p
    by_cases hk : k' = k
    · simp [get?, hk]
    · have hrest : (k, v) ∈ rest := by
        rcases List.mem_cons.mp h with h | h
        · exact absurd (Prod.mk.inj h).1.symm hk
        · exact h
      simp [get?, hk, ih hrest]

theorem mem_keys_of_get? (m : GoMap V) (k : String) (v : V) (h : m.get? k = some v) :
    k ∈ m.keys :=
  List.mem_map.mpr ⟨(k, v), mem_of_get? m k v h, rfl⟩

theorem set_of_not_mem_keys (m : GoMap V) (k : String) (v : V) (h : k ∉ m.keys) :
    m.set k v = m ++ [(k, v)] := by
  induction m with
  | nil => rfl
  | cons p rest ih =>
    obtain ⟨k', v'⟩ := p
    have hk : k' ≠ k := by
      intro e
      apply h
      simp [keys, e]
    have hrest : k ∉ keys rest := by
      intro e
      apply h
      simp only [keys, List.map_cons, List.mem_cons]
      exact Or.inr e
    simp [set, hk, ih hrest]

end GoMap

theorem overlayStep_at_key (st : OverlayState) (h : LocalConversation) (k : String)
    (hinv : (st.phConversationChangedSet.get? k).isSome = true →
      st.phConversationChangedSet.get? k = st.newConversationSet.get? k) :
    (((overlayStep st h).phConversationChangedSet.get? k).isSome = true →
      (overlayStep st h).phConversationChangedSet.get? k =
        (overlayStep st h).newConversationSet.get? k) ∧
    ((overlayStep st h).newConversationSet.get? k).isSome =
      (st.newConversationSet.get? k).isSome ∧
    ((overlayStep st h).phConversationChangedSet.get? k).isSome =
      ((st.phConversationChangedSet.get? k).isSome ||
        (decide (h.ConversationID = k) && (st.newConversationSet.get? k).isSome)) := by
  cases hn : st.newConversationSet.get? h.ConversationID with
  | none =>
    have hstep : overlayStep st h = st := by simp only [overlayStep, hn]
    rw [hstep]
    refine ⟨hinv, rfl, ?_⟩
    by_cases hk : h.ConversationID = k
    · rw [← hk, hn]; simp
    · simp [hk]
  | some nc =>
    have hstep : overlayStep st h =
        { newConversationSet := st.newConversationSet.set h.ConversationID (overlayFlags h nc)
          phConversationChangedSet :=
            st.phConversationChangedSet.set h.ConversationID (overlayFlags h nc) } := by
      simp only [overlayStep, hn]
    rw [hstep]
    by_cases hk : h.ConversationID = k
    · subst hk
      simp [GoMap.get?_set_self, hn]
    · have hk' : k ≠ h.ConversationID := fun e => hk e.symm
      simp only [GoMap.get?_set_of_ne _ _ _ _ hk']
      refine ⟨hinv, ?_, ?_⟩ <;> simp [hk]

theorem foldl_overlayStep_at_key (hs : List LocalConversation) (k : String) :
    ∀ st : OverlayState,
      ((st.phConversationChangedSet.get? k).isSome = true →
        st.phConversationChangedSet.get? k = st.newConversationSet.get? k) →
      (((hs.foldl overlayStep st).phConversationChangedSet.get? k).isSome = true →
        (hs.foldl overlayStep st).phConversationChangedSet.get? k =
          (hs.foldl overlayStep st).newConversationSet.get? k) ∧
      ((hs.foldl overlayStep st).newConversationSet.get? k).isSome =
        (st.newConversationSet.get? k).isSome ∧
      ((hs.foldl overlayStep st).phConversationChangedSet.get? k).isSome =
        ((st.phConversationChangedSet.get? k).isSome ||
          (decide (k ∈ hs.map (·.ConversationID)) &&
            (st.newConversationSet.get? k).isSome)) := by
  induction hs with
  | nil => intro st hinv; exact ⟨hinv, rfl, by simp⟩
  | cons h hs ih =>
    intro st hinv
    obtain ⟨a1, b1, c1⟩ := overlayStep_at_key st h k hinv
    obtain ⟨a2, b2, c2⟩ := ih (overlayStep st h) a1
    simp only [List.foldl_cons]
    refine ⟨a2, b2.trans b1, ?_⟩
    have hmem : decide (k ∈ (h :: hs).map (·.ConversationID)) =
        (decide (h.ConversationID = k) || decide (k ∈ hs.map (·.ConversationID))) := by
      by_cases hk : h.ConversationID = k
      · simp [hk]
      · have hk' : ¬ k = h.ConversationID := fun e => hk e.symm
        simp [hk, hk']
    rw [c2, c1, b1, hmem]
    generalize (st.phConversationChangedSet.get? k).isSome = a
    generalize (st.newConversationSet.get? k).isSome = b
    generalize decide (h.ConversationID = k) = c
    generalize decide (k ∈ hs.map (·.ConversationID)) = d
    cases a <;> cases b <;> cases c <;> cases d <;> rfl

theorem foldl_overlayStep_keys (hs : List LocalConversation) :
    ∀ st : OverlayState,
      (hs.foldl overlayStep st).newConversationSet.keys = st.newConversationSet.keys := by
  induction hs with
  | nil => intro st; rfl
  | cons h hs ih =>
    intro st
    simp only [List.foldl_cons]
    rw [ih]
    cases hn : st.newConversationSet.get? h.ConversationID with
    | none => simp only [overlayStep, hn]
    | some nc =>
      simp only [overlayStep, hn]
      rw [GoMap.keys_set, if_pos (GoMap.mem_keys_of_get? _ _ _ hn)]

theorem foldl_diffStep_nc_nodup (K : Constants) (E : Env) (vs : List LocalConversation) :
    ∀ st : DiffState, st.nc.keys.Nodup → (vs.foldl (diffStep K E) st).nc.keys.Nodup := by
  induction vs with
  | nil => intro st h; exact h
  | cons v vs ih =>
    intro st h
    simp only [List.foldl_cons]
    apply ih
    rcases diffStep_cases K E st v with ⟨l, _, heq⟩ | ⟨_, heq⟩
    · rw [heq]; exact h
    · rw [heq]; exact GoMap.nodup_keys_set _ _ _ h

theorem get?_filter_keyed (ph : GoMap LocalConversation) (k : String) :
    ∀ l : GoMap LocalConversation, (∀ p ∈ l, p.2.ConversationID = p.1) →
      GoMap.get? (l.filter fun kv => !(ph.get? kv.2.ConversationID).isSome) k =
        if (ph.get? k).isSome = true then none else l.get? k := by
  intro l
  induction l with
  | nil => intro _; simp [GoMap.get?]
  | cons p rest ih =>
    intro hl
    obtain ⟨k', v'⟩ := p
    have hid : v'.ConversationID = k' := hl (k', v') (List.mem_cons_self _ _)
    have ih' := ih fun q hq => hl q (List.mem_cons_of_mem _ hq)
    by_cases hp : (ph.get? k').isSome = true
    · have hf : List.filter (fun kv : String × LocalConversation =>
          !(ph.get? kv.2.ConversationID).isSome) ((k', v') :: rest) =
          List.filter (fun kv => !(ph.get? kv.2.ConversationID).isSome) rest := by
        rw [List.filter_cons]; simp [hid, hp]
      rw [hf, ih']
      by_cases hk : k' = k
      · subst hk; simp [hp]
      · simp [GoMap.get?, hk]
    · have hf : List.filter (fun kv : String × LocalConversation =>
          !(ph.get? kv.2.ConversationID).isSome) ((k', v') :: rest) =
          (k', v') :: List.filter (fun kv => !(ph.get? kv.2.ConversationID).isSome) rest := by
        rw [List.filter_cons]; simp [hid, hp]
      rw [hf]
      by_cases hk : k' = k
      · subst hk; simp [GoMap.get?, hp]
      · simp only [GoMap.get?, if_neg hk]
        exact ih'

theorem phNewOf_eq_filter (ph : GoMap LocalConversation) :
    ∀ (l acc : GoMap LocalConversation), l.keys.Nodup → (∀ p ∈ l, p.1 ∉ acc.keys) →
      l.foldl (fun acc kv =>
        if (ph.get? kv.2.ConversationID).isSome then acc else acc.set kv.1 kv.2) acc =
      acc ++ l.filter fun kv => !(ph.get? kv.2.ConversationID).isSome := by
  intro l
  induction l with
  | nil => intro acc _ _; simp
  | cons p rest ih =>
    intro acc hnd hacc
    have hnd' : (GoMap.keys rest).Nodup := (List.nodup_cons.mp hnd).2
    have hp : p.1 ∉ GoMap.keys rest := (List.nodup_cons.mp hnd).1
    simp only [List.foldl_cons]
    by_cases hh : (ph.get? p.2.ConversationID).isSome = true
    · rw [if_pos hh, ih acc hnd' fun q hq => hacc q (List.mem_cons_of_mem _ hq)]
      rw [List.filter_cons]
      simp [hh]
    · rw [if_neg hh, GoMap.set_of_not_mem_keys _ _ _ (hacc p (List.mem_cons_self _ _))]
      rw [ih _ hnd' ?_]
      · rw [List.filter_cons]
        simp [hh]
      · intro q hq hmem
        simp only [GoMap.keys, List.map_append, List.map_cons, List.map_nil, List.mem_append,
          List.mem_singleton] at hmem
        rcases hmem with hmem | hmem
        · exact hacc q (List.mem_cons_of_mem _ hq) hmem
        · exact hp (hmem ▸ List.mem_map.mpr ⟨q, hq, rfl⟩)

theorem phNewOf_get? (newSet ph : GoMap LocalConversation) (hnd : newSet.keys.Nodup)
    (hid : ∀ p ∈ newSet, p.2.ConversationID = p.1) (k : String) :
    (phNewOf newSet ph).get? k =
      if (ph.get? k).isSome = true then none else newSet.get? k := by
  unfold phNewOf
  rw [phNewOf_eq_filter ph newSet [] hnd (fun _ _ h => by simp [GoMap.keys] at h)]
  simpa using get?_filter_keyed ph k newSet hid

theorem commit_partition (K : Constants) (E : Env) (updates : List Effect) (s : BatchState)
    (hG : KeyedByID s.conversationSet) (k : String) :
    (((commit K E updates s).phConversationChangedSet.get? k).isSome = true ↔
      k ∈ E.GetHiddenConversationList.map (·.ConversationID) ∧
        ((commit K E updates s).newConversationSet.get? k).isSome = true) ∧
    ((commit K E updates s).phNewConversationSet.get? k =
      if k ∈ E.GetHiddenConversationList.map (·.ConversationID) then none
      else (commit K E updates s).newConversationSet.get? k) ∧
    (∀ r, (commit K E updates s).phConversationChangedSet.get? k = some r →
      (commit K E updates s).newConversationSet.get? k = some r) ∧
    (∀ row, (commit K E updates s).newConversationSet.get? k = some row →
      (k ∈ E.GetHiddenConversationList.map (·.ConversationID) →
        row ∈ (commit K E updates s).updatedConversations ∧
        ∀ r ∈ (commit K E updates s).insertedConversations, r.ConversationID ≠ k) ∧
      (k ∉ E.GetHiddenConversationList.map (·.ConversationID) →
        row ∈ (commit K E updates s).insertedConversations ∧
        ∀ r ∈ (commit K E updates s).updatedConversations, r.ConversationID ≠ k)) := by
  obtain ⟨hcc, hnc⟩ := diff_rows K E (listToMap E.GetAllConversationListDB) s.conversationSet
    hG.nodup_ids
  generalize hd : diff K E (listToMap E.GetAllConversationListDB) s.conversationSet [] [] = d
    at hcc hnc
  have hnc_id : ∀ p ∈ d.nc, p.2.ConversationID = p.1 := by
    intro p hp
    obtain ⟨g, _, _, heq⟩ := hnc p hp
    rw [heq]
    exact (addFaceURLAndName_fields K E g).1
  have hnc_nd : d.nc.keys.Nodup := by
    rw [← hd]
    exact foldl_diffStep_nc_nodup K E _ _ List.nodup_nil
  obtain ⟨A, B, C⟩ := foldl_overlayStep_at_key E.GetHiddenConversationList k
    { newConversationSet := d.nc } (by intro h; simp [GoMap.get?] at h)
  obtain ⟨hrows_new, hrows_ph⟩ := hiddenOverlay_rows E.GetHiddenConversationList d.nc
    { newConversationSet := d.nc }
    (fun p hp => ⟨p.2, hp, rfl, rfl⟩) (fun p hp => by simp at hp)
  have hkeys := foldl_overlayStep_keys E.GetHiddenConversationList
    { newConversationSet := d.nc }
  generalize ho : E.GetHiddenConversationList.foldl overlayStep
    { newConversationSet := d.nc } = o at A B C hrows_new hrows_ph hkeys
  have ePh : (commit K E updates s).phConversationChangedSet = o.phConversationChangedSet := by
    rw [← ho, ← hd]; rfl
  have eNew : (commit K E updates s).newConversationSet = o.newConversationSet := by
    rw [← ho, ← hd]; rfl
  have ePhNew : (commit K E updates s).phNewConversationSet =
      phNewOf o.newConversationSet o.phConversationChangedSet := by
    rw [← ho, ← hd]; rfl
  have eCc : (commit K E updates s).conversationChangedSet = d.cc := by
    rw [← hd]; rfl
  have hnew_nd : o.newConversationSet.keys.Nodup := by
    rw [hkeys]; exact hnc_nd
  have hnew_id : ∀ p ∈ o.newConversationSet, p.2.ConversationID = p.1 := by
    intro p hp
    obtain ⟨g, hg, hid, _⟩ := hrows_new p hp
    rw [hid]
    exact hnc_id _ hg
  have hph_id : ∀ p ∈ o.phConversationChangedSet, p.2.ConversationID = p.1 := by
    intro p hp
    obtain ⟨g, hg, hid, _⟩ := hrows_ph p hp
    rw [hid]
    exact hnc_id _ hg
  have hphNew := phNewOf_get? o.newConversationSet o.phConversationChangedSet hnew_nd hnew_id k
  have hC : (o.phConversationChangedSet.get? k).isSome = true ↔
      k ∈ E.GetHiddenConversationList.map (·.ConversationID) ∧
        (o.newConversationSet.get? k).isSome = true := by
    rw [C, B]
    simp [GoMap.get?]
  have hlocal_none : ∀ row, o.newConversationSet.get? k = some row →
      (listToMap E.GetAllConversationListDB).get? k = none := by
    intro row hrow
    have hk : k ∈ d.nc.keys := by
      rw [← hkeys]; exact GoMap.mem_keys_of_get? _ _ _ hrow
    obtain ⟨p, hp, hpk⟩ := List.mem_map.mp hk
    obtain ⟨g, _, hnone, heq⟩ := hnc p hp
    have : k = g.ConversationID := by rw [← hpk, heq]
    rw [this]; exact hnone
  rw [ePh, eNew, ePhNew]
  refine ⟨hC, ?_, ?_, ?_⟩
  · rw [hphNew]
    by_cases hkH : k ∈ E.GetHiddenConversationList.map (·.ConversationID)
    · rw [if_pos hkH]
      by_cases hsome : (o.phConversationChangedSet.get? k).isSome = true
      · rw [if_pos hsome]
      · rw [if_neg hsome]
        cases hn : o.newConversationSet.get? k with
        | none => rfl
        | some row => exact absurd (hC.mpr ⟨hkH, by rw [hn]; rfl⟩) hsome
    · rw [if_neg hkH, if_neg fun hsome => hkH (hC.mp hsome).1]
  · intro r hr
    have h1 := A (by rw [hr]; rfl)
    rw [hr] at h1
    exact h1.symm
  · intro row hrow
    constructor
    · intro hkH
      have hsome : (o.phConversationChangedSet.get? k).isSome = true :=
        hC.mpr ⟨hkH, by rw [hrow]; rfl⟩
      have hget : o.phConversationChangedSet.get? k = some row := by
        rw [A hsome]; exact hrow
      constructor
      · simp only [BatchResult.updatedConversations, mapConversationToList, List.mem_append,
          ePh]
        exact Or.inr ((GoMap.mem_values_iff _ _).mpr ⟨_, GoMap.mem_of_get? _ _ _ hget⟩)
      · intro r hr heq
        simp only [BatchResult.insertedConversations, mapConversationToList, ePhNew] at hr
        obtain ⟨k', hk'⟩ := (GoMap.mem_values_iff _ _).mp hr
        have h0 := phNewOf_not_hidden _ _ _ hk'
        simp only [heq] at h0
        rw [h0] at hsome
        cases hsome
    · intro hkH
      have hget : (phNewOf o.newConversationSet o.phConversationChangedSet).get? k =
          some row := by
        rw [hphNew, if_neg fun hsome => hkH (hC.mp hsome).1]; exact hrow
      constructor
      · simp only [BatchResult.insertedConversations, mapConversationToList, ePhNew]
        exact (GoMap.mem_values_iff _ _).mpr ⟨_, GoMap.mem_of_get? _ _ _ hget⟩
      · intro r hr heq
        simp only [BatchResult.updatedConversations, mapConversationToList, List.mem_append,
          ePh, eCc] at hr
        rcases hr with hr | hr
        · obtain ⟨k', hk'⟩ := (GoMap.mem_values_iff _ _).mp hr
          obtain ⟨g1, _, l, hl, hp⟩ := hcc _ hk'
          have hr1 : r = mergeInto l g1 := (Prod.mk.inj hp).2
          have hlid := listToMap_keyed _ _ _ hl
          rw [hr1, mergeInto_id, hlid] at heq
          rw [heq, hlocal_none row hrow] at hl
          cases hl
        · obtain ⟨k', hk'⟩ := (GoMap.mem_values_iff _ _).mp hr
          have hid := hph_id _ hk'
          have hsome := GoMap.get?_isSome_of_mem _ _ _ hk'
          simp only at hid
          rw [← hid, heq] at hsome
          exact hkH (hC.mp hsome).1

/-- C29. Hidden overlay partitions the new set, in `doMsgNew` and `doSuperGroupMsgNew`: for
every conversation id `k`, the hidden-changed set has an entry for `k` exactly when `k`
is the id of a hidden row and the new set has an entry for `k`, and that entry is the
one of the new set; the genuinely-new set has the entry of the new set for `k` when `k`
is not the id of a hidden row, and none otherwise. So the two sets are disjoint and
their union is the new set, and a new conversation is committed by exactly one call:
the conversation batch-update when its id is in the hidden list (no row of the batch
insert has its id), the conversation batch-insert otherwise (no row of the batch
update has its id). -/
theorem hidden_overlay_partition (K : Constants) (E : Env) (allMsg : List (List MsgData))
    (R : BatchResult) (hR : R = doMsgNew K E allMsg ∨ R = doSuperGroupMsgNew K E allMsg)
    (k : String) :
    ((R.phConversationChangedSet.get? k).isSome = true ↔
      k ∈ E.GetHiddenConversationList.map (·.ConversationID) ∧
        (R.newConversationSet.get? k).isSome = true) ∧
    (R.phNewConversationSet.get? k =
      if k ∈ E.GetHiddenConversationList.map (·.ConversationID) then none
      else R.newConversationSet.get? k) ∧
    (∀ r, R.phConversationChangedSet.get? k = some r →
      R.newConversationSet.get? k = some r) ∧
    (∀ row, R.newConversationSet.get? k = some row →
      (k ∈ E.GetHiddenConversationList.map (·.ConversationID) →
        row ∈ R.updatedConversations ∧
        ∀ r ∈ R.insertedConversations, r.ConversationID ≠ k) ∧
      (k ∉ E.GetHiddenConversationList.map (·.ConversationID) →
        row ∈ R.insertedConversations ∧
        ∀ r ∈ R.updatedConversations, r.ConversationID ≠ k)) := by
  rcases hR with rfl | rfl
  · apply commit_partition
    have hs := foldl_loopBody_conversationSet K E (contentSwitch K E) (classify K E)
      (foldsAs_classify K E) allMsg.flatten {}
    have hs' : (doMsgNewLoop K E allMsg).conversationSet = _ := hs
    rw [hs']
    exact keyedByID_foldConversations _ [] keyedByID_nil
  · apply commit_partition
    have hs := foldl_loopBody_conversationSet K E (superContentSwitch K E) (superClassify K E)
      (foldsAs_superClassify K E) allMsg.flatten {}
    have hs' : (doSuperGroupMsgNewLoop K E allMsg).conversationSet = _ := hs
    rw [hs']
    exact keyedByID_foldConversations _ [] keyedByID_nil

/-- C29 at scenario S4, where the only new conversation `s_u2` is hidden: it is not in the
genuinely-new set and its row is committed by the batch update. -/
theorem hidden_overlay_partition_witness :
    (doMsgNew constant s4Env s4Batch).phNewConversationSet.get? "s_u2" = none ∧
    s4Row ∈ (doMsgNew constant s4Env s4Batch).updatedConversations ∧
    ∀ r ∈ (doMsgNew constant s4Env s4Batch).insertedConversations,
      r.ConversationID ≠ "s_u2" :=
  have h := hidden_overlay_partition constant s4Env s4Batch _ (Or.inl rfl) "s_u2"
  ⟨h.2.1.trans (by decide), (h.2.2.2 s4Row (by decide)).1 (by decide)⟩

/-! ### Group read receipts -/

theorem toInt32_range (n : Int) : -2 ^ 31 ≤ toInt32 n ∧ toInt32 n < 2 ^ 31 := by
  unfold toInt32
  omega

theorem toInt32_of_lt (n : Int) (h0 : 0 ≤ n) (h : n < 2 ^ 31) : toInt32 n = n := by
  unfold toInt32
  have h1 : (n + 2 ^ 31) % 2 ^ 32 = n + 2 ^ 31 :=
    Int.emod_eq_of_lt (by omega) (by omega)
  rw [h1]
  omega

theorem foldl_groupReadOne_effects (E : Env) (userID : String) (messages : List LocalChatLog) :
    ∀ acc : List Effect × List String,
      (∀ e ∈ acc.1, e ∈ (messages.foldl (groupReadOne E userID) acc).1) ∧
      ∀ message ∈ messages,
        Effect.UpdateMessageController (groupReadRow E userID message) ∈
          (messages.foldl (groupReadOne E userID) acc).1 := by
  induction messages with
  | nil => intro acc; exact ⟨fun e he => he, fun m hm => by simp at hm⟩
  | cons m ms ih =>
    intro acc
    obtain ⟨hkeep, hall⟩ := ih (groupReadOne E userID acc m)
    have hstep : (groupReadOne E userID acc m).1 =
        acc.1 ++ [Effect.UpdateMessageController (groupReadRow E userID m)] := by
      unfold groupReadOne
      split <;> rfl
    simp only [List.foldl_cons]
    constructor
    · intro e he
      exact hkeep e (by rw [hstep]; exact List.mem_append_left _ he)
    · intro message hm
      rcases List.mem_cons.mp hm with rfl | hm
      · exact hkeep _ (by rw [hstep]; simp)
      · exact hall message hm

/-- C21 (counterexample). A group read receipt whose reader is the login user `u1`: the row
written for the message `m1` carries no attached info, so the reader is not added to
the has-read list of the message (which holds `u3` only). -/
theorem group_read_receipt_counterexample :
    (groupReceipt "u1" "m1").SendID = groupReadEnv.loginUserID ∧
    DoGroupMsgReadState constant groupReadEnv [groupReceipt "u1" "m1"] =
      [Effect.UpdateMessageController { ClientMsgID := "m1", IsRead := true, AttachedInfo := "" },
       Effect.OnRecvGroupReadReceipt
        [{ UserID := "u1", GroupID := "g1", SessionType := 2, ContentType := 116,
           MsgIDList := ["m1"] }]] := by
  decide

/-- C21 (amended). Group read receipts: for the bucket of a reader and a group in
`DoGroupMsgReadState` and every local message returned for the deduplicated id list of
the bucket, the method updates the row of the message with `is_read` set. When the
reader is not the login user, the attached info written with the row has the reader's
id in the has-read list, the list has no duplicates and the has-read count is the
length of the list (as an `int32`); `utils.RemoveRepeatedStringInList` is taken to
return a duplicate-free list with the same members. When the reader is the login user
no attached info is written. -/
theorem group_read_receipt (K : Constants) (E : Env) (st : GroupReadState)
    (userID groupID : String) (msgIDList : List String) (sessionType : Int)
    (messages : List LocalChatLog) (message : LocalChatLog)
    (hdedup : ∀ l, (E.RemoveRepeatedStringInList l).Nodup ∧
      ∀ x, x ∈ E.RemoveRepeatedStringInList l ↔ x ∈ l)
    (hs : E.getConversationTypeByGroupID groupID = some sessionType)
    (hm : E.GetMultipleMessageController st.effects (E.RemoveRepeatedStringInList msgIDList)
      groupID sessionType = some messages)
    (hmem : message ∈ messages) :
    Effect.UpdateMessageController (groupReadRow E userID message) ∈
      (groupReadBucket K E st userID groupID msgIDList).effects ∧
    (groupReadRow E userID message).ClientMsgID = message.ClientMsgID ∧
    (groupReadRow E userID message).IsRead = true ∧
    (userID ≠ E.loginUserID →
      (groupReadRow E userID message).AttachedInfo =
        E.attachedInfoToJson (groupReadInfo E userID message) ∧
      userID ∈ (groupReadInfo E userID message).HasReadUserIDList ∧
      (groupReadInfo E userID message).HasReadUserIDList.Nodup ∧
      (groupReadInfo E userID message).HasReadCount =
        toInt32 (groupReadInfo E userID message).HasReadUserIDList.length ∧
      (((groupReadInfo E userID message).HasReadUserIDList.length : Int) < 2 ^ 31 →
        (groupReadInfo E userID message).HasReadCount =
          (groupReadInfo E userID message).HasReadUserIDList.length)) ∧
    (userID = E.loginUserID → (groupReadRow E userID message).AttachedInfo = "") := by
  refine ⟨?_, rfl, rfl, ?_, ?_⟩
  · unfold groupReadBucket
    rw [hs]
    simp only [hm]
    exact (foldl_groupReadOne_effects E userID messages (st.effects, [])).2 message hmem
  · intro hne
    refine ⟨?_, ?_, (hdedup _).1, rfl, ?_⟩
    · simp only [groupReadRow, if_pos hne]
    · exact ((hdedup _).2 userID).mpr (by simp)
    · intro hlt
      exact toInt32_of_lt _ (Int.natCast_nonneg _) hlt
  · intro heq
    simp only [groupReadRow, heq, ne_eq, not_true_eq_false, if_false]

/-- C21 (amended) at a receipt of the reader `u2` for the message `m1`, which `u3` has read
before: the attached info written lists `u3` and `u2`, with count 2. -/
theorem group_read_receipt_witness :
    Effect.UpdateMessageController
        { ClientMsgID := "m1", IsRead := true, AttachedInfo := "u3,u2#2" } ∈
      (groupReadBucket constant groupReadEnv {} "u2" "g1" ["m1", "m1"]).effects ∧
    (groupReadInfo groupReadEnv "u2" groupReadMessage).HasReadUserIDList = ["u3", "u2"] ∧
    (groupReadInfo groupReadEnv "u2" groupReadMessage).HasReadCount = 2 :=
  have h := group_read_receipt constant groupReadEnv {} "u2" "g1" ["m1", "m1"] 2
    [groupReadMessage] groupReadMessage
    (fun l => ⟨List.nodup_dedup l, fun _ => List.mem_dedup⟩) (by decide) (by decide)
    (by decide)
  ⟨by have h1 := h.1; exact (by decide : groupReadRow groupReadEnv "u2" groupReadMessage =
      { ClientMsgID := "m1", IsRead := true, AttachedInfo := "u3,u2#2" }) ▸ h1,
   by decide, by decide⟩

/-! ### The new-message broadcast -/

theorem listenerMessages_newMessage (E : Env) (l : List MsgStruct) :
    listenerMessages (l.flatMap fun w =>
      (if E.msgListenerSet then [Effect.OnRecvNewMessage (E.msgToJson w)] else []) ++
      (if E.listenerForServiceSet then
        [Effect.listenerForServiceOnRecvNewMessage (E.msgToJson w)] else [])) =
      if E.msgListenerSet then l.map E.msgToJson else [] := by
  induction l with
  | nil => simp [listenerMessages]
  | cons w ws ih =>
    simp only [listenerMessages] at ih ⊢
    rw [List.flatMap_cons, List.filterMap_append, ih]
    cases E.msgListenerSet <;> cases E.listenerForServiceSet <;> simp

theorem serviceMessages_newMessage (E : Env) (l : List MsgStruct) :
    serviceMessages (l.flatMap fun w =>
      (if E.msgListenerSet then [Effect.OnRecvNewMessage (E.msgToJson w)] else []) ++
      (if E.listenerForServiceSet then
        [Effect.listenerForServiceOnRecvNewMessage (E.msgToJson w)] else [])) =
      if E.listenerForServiceSet then l.map E.msgToJson else [] := by
  induction l with
  | nil => simp [serviceMessages]
  | cons w ws ih =>
    simp only [serviceMessages] at ih ⊢
    rw [List.flatMap_cons, List.filterMap_append, ih]
    cases E.msgListenerSet <;> cases E.listenerForServiceSet <;> simp

/-- The calls of the new-message broadcast, where sorting permutes the list. If a batch
listener is set, a non-empty new-message list is emitted, sorted, in exactly one
`OnRecvNewMessages` call, an empty list makes no call, and neither `msgListener` nor
`listenerForService` is called. Otherwise the calls are `OnRecvNewMessage` calls only:
`msgListener`, when set, receives every message of the sorted list once, in order, and
`listenerForService`, when set, receives every message of the sorted list once, in
order. -/
theorem newMessageBroadcast_calls (E : Env) (l : List MsgStruct)
    (hperm : (E.sortNewMsgList l).Perm l) :
    (E.batchMsgListenerSet = true →
      newMessageBroadcast E l =
        (if l = [] then [] else [Effect.OnRecvNewMessages (E.sortNewMsgList l)]) ∧
      listenerMessages (newMessageBroadcast E l) = [] ∧
      serviceMessages (newMessageBroadcast E l) = []) ∧
    (E.batchMsgListenerSet = false →
      listenerMessages (newMessageBroadcast E l) =
        (if E.msgListenerSet then (E.sortNewMsgList l).map E.msgToJson else []) ∧
      serviceMessages (newMessageBroadcast E l) =
        (if E.listenerForServiceSet then (E.sortNewMsgList l).map E.msgToJson else []) ∧
      ∀ e ∈ newMessageBroadcast E l,
        (∃ m ∈ l, e = Effect.OnRecvNewMessage (E.msgToJson m)) ∨
        (∃ m ∈ l, e = Effect.listenerForServiceOnRecvNewMessage (E.msgToJson m))) := by
  constructor
  · intro hb
    have hlen : (E.sortNewMsgList l).length = l.length := hperm.length_eq
    have heq : newMessageBroadcast E l =
        (if l = [] then [] else [Effect.OnRecvNewMessages (E.sortNewMsgList l)]) := by
      simp only [newMessageBroadcast, batchNewMessages, hb, if_true]
      by_cases hl : l = []
      · have h0 : ¬ (E.sortNewMsgList l).length > 0 := by
          rw [hlen, hl]; exact Nat.lt_irrefl 0
        rw [if_neg h0, if_pos hl]
      · have hpos : (E.sortNewMsgList l).length > 0 := by
          rw [hlen]; exact List.length_pos.mpr hl
        rw [if_pos hpos, if_neg hl]
    refine ⟨heq, ?_, ?_⟩
    · rw [heq]; split <;> rfl
    · rw [heq]; split <;> rfl
  · intro hb
    have heq : newMessageBroadcast E l = newMessage E l := by
      simp [newMessageBroadcast, hb]
    rw [heq]
    refine ⟨listenerMessages_newMessage E _, serviceMessages_newMessage E _, ?_⟩
    intro e he
    unfold newMessage at he
    obtain ⟨w, hw, hew⟩ := List.mem_flatMap.mp he
    have hwl : w ∈ l := hperm.subset hw
    rcases List.mem_append.mp hew with h1 | h1
    · left
      refine ⟨w, hwl, ?_⟩
      split at h1
      · simpa using h1
      · simp at h1
    · right
      refine ⟨w, hwl, ?_⟩
      split at h1
      · simpa using h1
      · simp at h1

/-- C22. With a batch listener and a service listener both set, the broadcast of the new
messages is the single call `OnRecvNewMessages` with the sorted list: `batchNewMessages`
hands nothing to the service listener, in the broadcast of a list of two messages and
in a run of `doMsgNew` and `doSuperGroupMsgNew` on a batch of two new messages. The
sibling `newMessage`, which runs when no batch listener is set, hands every message to
the service listener. -/
theorem batch_broadcast_skips_service :
    batchListenerEnv.batchMsgListenerSet = true ∧
    batchListenerEnv.listenerForServiceSet = true ∧
    batchListenerEnv.msgListenerSet = true ∧
    newMessageBroadcast batchListenerEnv broadcastList =
      [Effect.OnRecvNewMessages
        [{ ClientMsgID := "early", SendTime := 100 }, { ClientMsgID := "late", SendTime := 300 }]] ∧
    serviceMessages (newMessageBroadcast batchListenerEnv broadcastList) = [] ∧
    serviceMessages ((doMsgNew constant batchListenerEnv
      [[peerMsg "a" 600, peerMsg "b" 500]]).trace constant batchListenerEnv) = [] ∧
    serviceMessages ((doSuperGroupMsgNew constant batchListenerEnv
      [[peerMsg "a" 600, peerMsg "b" 500]]).trace constant batchListenerEnv) = [] ∧
    serviceListenerEnv.batchMsgListenerSet = false ∧
    serviceListenerEnv.listenerForServiceSet = true ∧
    serviceMessages (newMessageBroadcast serviceListenerEnv broadcastList) =
      ["early", "late"] ∧
    serviceMessages ((doMsgNew constant serviceListenerEnv
      [[peerMsg "a" 600, peerMsg "b" 500]]).trace constant serviceListenerEnv) =
      ["b", "a"] := by
  decide

/-! ### The reaction modifier -/

/-- C26 (counterexample). The row update is not issued when the operation is a set and the
update of the reaction extensions fails: the only call is the failed
`GetAndUpdateMessageReactionExtension`. -/
theorem reaction_modifier_counterexample :
    reactionEnv.jsonToReactionModifier (reactionMsg "set").Content =
      some { ClientMsgID := "x", IsReact := true, MsgFirstModifyTime := 9, Operation := 2 } ∧
    constant.SetMessageExtensions = 2 ∧
    doReactionMsgModifier constant reactionEnv [reactionMsg "set"] =
      [Effect.GetAndUpdateMessageReactionExtension "x" []] := by
  decide

/-- With a nil message listener, an add operation of a message that was not sent here
ends in the run-time error of the listener call: the row update is not reached. -/
theorem reactionModifierStep_nil_listener (K : Constants) (E : Env) (effects : List Effect)
    (msgStruct : MsgStruct) (n : ReactionMessageModifierNotification)
    (hl : E.msgListenerSet = false)
    (hdec : E.jsonToReactionModifier msgStruct.Content = some n)
    (hadd : n.Operation = K.AddMessageExtensions) (hs : sentHere E msgStruct = false) :
    reactionModifierStep K E effects msgStruct = effects ++ [Effect.nilListenerCall] := by
  unfold reactionModifierStep
  rw [hdec]
  simp only
  rw [if_pos hadd, hs, hl]
  rfl

/-- C26 (amended). With a message listener set, for a reaction-modifier message whose
content decodes to a notification `n`, `doReactionMsgModifier` ends the iteration with
an update of the message row with client message id `n.ClientMsgID` that sets `IsReact`,
`IsExternalExtensions` and `MsgFirstModifyTime` to the values of `n`, whenever the
operation is an add, or is not a set, or the update of the reaction extensions
succeeds, and the loop goes on to the next message; when the operation is a set and the
update of the reaction extensions fails, the iteration ends after the failed call and
no row update is issued. -/
theorem reaction_modifier_updates_row (K : Constants) (E : Env) (effects : List Effect)
    (msgStruct : MsgStruct) (n : ReactionMessageModifierNotification)
    (hl : E.msgListenerSet = true)
    (hdec : E.jsonToReactionModifier msgStruct.Content = some n) :
    (reactionRow K n).ClientMsgID = n.ClientMsgID ∧
    (reactionRow K n).IsReact = n.IsReact ∧
    (reactionRow K n).IsExternalExtensions = n.IsExternalExtensions ∧
    (reactionRow K n).MsgFirstModifyTime = n.MsgFirstModifyTime ∧
    ((n.Operation = K.AddMessageExtensions ∨ n.Operation ≠ K.SetMessageExtensions ∨
        E.GetAndUpdateMessageReactionExtensionOk effects n.ClientMsgID
          n.SuccessReactionExtensionList = true) →
      ∃ calls, reactionModifierStep K E effects msgStruct =
          effects ++ calls ++ [Effect.UpdateMessageController (reactionRow K n)] ∧
        (∀ row, Effect.UpdateMessageController row ∉ calls) ∧
        Effect.nilListenerCall ∉ calls ∧
        ∀ rest, panicked effects = false →
          doReactionMsgModifierFrom K E effects (msgStruct :: rest) =
            doReactionMsgModifierFrom K E
              (effects ++ calls ++ [Effect.UpdateMessageController (reactionRow K n)]) rest) ∧
    (n.Operation ≠ K.AddMessageExtensions → n.Operation = K.SetMessageExtensions →
      E.GetAndUpdateMessageReactionExtensionOk effects n.ClientMsgID
        n.SuccessReactionExtensionList = false →
      reactionModifierStep K E effects msgStruct =
        effects ++ [Effect.GetAndUpdateMessageReactionExtension n.ClientMsgID
          n.SuccessReactionExtensionList]) := by
  have hloop : ∀ calls,
      reactionModifierStep K E effects msgStruct =
        effects ++ calls ++ [Effect.UpdateMessageController (reactionRow K n)] →
      Effect.nilListenerCall ∉ calls →
      ∀ rest, panicked effects = false →
        doReactionMsgModifierFrom K E effects (msgStruct :: rest) =
          doReactionMsgModifierFrom K E
            (effects ++ calls ++ [Effect.UpdateMessageController (reactionRow K n)]) rest := by
    intro calls hstep hcalls rest hp
    have hnot : panicked (reactionModifierStep K E effects msgStruct) = false := by
      rw [hstep]
      unfold panicked at hp ⊢
      simp only [decide_eq_false_iff_not] at hp ⊢
      intro hmem
      rcases List.mem_append.mp hmem with h1 | h1
      · rcases List.mem_append.mp h1 with h2 | h2
        · exact hp h2
        · exact hcalls h2
      · simp at h1
    rw [doReactionMsgModifierFrom, hnot, hstep]
    rfl
  refine ⟨rfl, rfl, rfl, rfl, ?_, ?_⟩
  · intro h
    have hstep : ∃ calls, reactionModifierStep K E effects msgStruct =
          effects ++ calls ++ [Effect.UpdateMessageController (reactionRow K n)] ∧
        (∀ row, Effect.UpdateMessageController row ∉ calls) ∧
        Effect.nilListenerCall ∉ calls := by
      unfold reactionModifierStep
      rw [hdec]
      simp only
      rw [hl]
      by_cases hadd : n.Operation = K.AddMessageExtensions
      · rw [if_pos hadd]
        by_cases hs : (!sentHere E msgStruct) = true
        · rw [if_pos hs, if_pos rfl]
          exact ⟨[Effect.OnRecvMessageExtensionsAdded n.ClientMsgID
            n.SuccessReactionExtensionList], rfl, by simp, by simp⟩
        · rw [if_neg hs]
          exact ⟨[], by simp, by simp, by simp⟩
      · rw [if_neg hadd]
        by_cases hset : n.Operation = K.SetMessageExtensions
        · rw [if_pos hset]
          have hok : E.GetAndUpdateMessageReactionExtensionOk effects n.ClientMsgID
              n.SuccessReactionExtensionList = true := by
            rcases h with h | h | h
            · exact absurd h hadd
            · exact absurd hset h
            · exact h
          rw [hok, if_neg (by simp)]
          by_cases hs : (!sentHere E msgStruct) = true
          · rw [if_pos hs, if_pos rfl]
            exact ⟨[Effect.GetAndUpdateMessageReactionExtension n.ClientMsgID
                n.SuccessReactionExtensionList,
              Effect.OnRecvMessageExtensionsChanged n.ClientMsgID
                n.SuccessReactionExtensionList], by simp, by simp, by simp⟩
          · rw [if_neg hs]
            exact ⟨[Effect.GetAndUpdateMessageReactionExtension n.ClientMsgID
                n.SuccessReactionExtensionList], by simp, by simp, by simp⟩
        · rw [if_neg hset]
          exact ⟨[], by simp, by simp, by simp⟩
    obtain ⟨calls, h1, h2, h3⟩ := hstep
    exact ⟨calls, h1, h2, h3, hloop calls h1 h3⟩
  · intro hadd hset hfail
    unfold reactionModifierStep
    rw [hdec]
    simp only
    rw [if_neg hadd, if_pos hset, hfail]
    simp only [if_true]

/-- C26 (amended) at a notification whose operation is neither add nor set, in a store
where the update of the reaction extensions fails: the row update is issued. -/
theorem reaction_modifier_updates_row_witness :
    reactionEnv.msgListenerSet = true ∧
    ∃ calls, reactionModifierStep constant reactionEnv [] (reactionMsg "other") =
        [] ++ calls ++
          [Effect.UpdateMessageController
            (reactionRow constant
              { ClientMsgID := "x", IsReact := true, MsgFirstModifyTime := 9, Operation := 3 })] ∧
      (∀ row, Effect.UpdateMessageController row ∉ calls) ∧
      Effect.nilListenerCall ∉ calls ∧
      ∀ rest, panicked [] = false →
        doReactionMsgModifierFrom constant reactionEnv [] (reactionMsg "other" :: rest) =
          doReactionMsgModifierFrom constant reactionEnv
            ([] ++ calls ++
              [Effect.UpdateMessageController
                (reactionRow constant
                  { ClientMsgID := "x", IsReact := true, MsgFirstModifyTime := 9,
                    Operation := 3 })]) rest :=
  ⟨by decide,
    (reaction_modifier_updates_row constant reactionEnv [] (reactionMsg "other")
      { ClientMsgID := "x", IsReact := true, MsgFirstModifyTime := 9, Operation := 3 }
      (by decide) (by decide)).2.2.2.2.1 (Or.inr (Or.inl (by decide)))⟩

/-! ### The new-message list -/

/-- C30. A message occurs twice in the new-message list: a typing message of another user
with `IsConversationUpdate` set is appended once after the conversation update and once
more by the last `switch`, in `doMsgNew` and in `doSuperGroupMsgNew`; the same holds for
the content types `CustomMsgOnlineOnly` and `CustomMsgNotTriggerConversation`. An
`OANotification` occurs once and an `AdvancedRevoke` not at all. `ptr` is the identity
of the working copy: both entries are the same message. -/
theorem typing_message_listed_twice :
    typingMsg.Options.IsConversationUpdate = true ∧
    (doMsgNew constant sampleEnv [[typingMsg]]).loop.newMessages.map
      (fun m => (m.ptr, m.val.ClientMsgID)) = [(0, "ty"), (0, "ty")] ∧
    (doSuperGroupMsgNew constant sampleEnv [[typingMsg]]).loop.newMessages.map
      (fun m => (m.ptr, m.val.ClientMsgID)) = [(0, "ty"), (0, "ty")] ∧
    (doMsgNew constant sampleEnv
      [[{ typingMsg with ContentType := constant.CustomMsgOnlineOnly }]]).loop.newMessages.map
      (fun m => (m.ptr, m.val.ClientMsgID)) = [(0, "ty"), (0, "ty")] ∧
    (doMsgNew constant sampleEnv
      [[{ typingMsg with
          ContentType := constant.CustomMsgNotTriggerConversation }]]).loop.newMessages.map
      (fun m => (m.ptr, m.val.ClientMsgID)) = [(0, "ty"), (0, "ty")] ∧
    (doMsgNew constant sampleEnv
      [[{ typingMsg with ContentType := constant.OANotification }]]).loop.newMessages.map
      (fun m => (m.ptr, m.val.ClientMsgID)) = [(0, "ty")] ∧
    (doMsgNew constant sampleEnv
      [[{ typingMsg with ContentType := constant.AdvancedRevoke }]]).loop.newMessages = [] ∧
    listenerMessages (dispatch constant sampleEnv
      (doMsgNew constant sampleEnv [[typingMsg]]).loop) = ["ty", "ty"] := by
  decide

/-! ### The two entry points -/

theorem contentSwitch_eq_super (K : Constants) (E : Env) (v : MsgData) (msg : MsgStruct)
    (h1 : K.MsgDeleteNotification ≠ K.ConversationUnreadNotification)
    (h2 : K.MsgDeleteNotification ≠ K.BusinessNotification)
    (hv : v.ContentType ≠ K.SuperGroupUpdateNotification) :
    contentSwitch K E v msg = superContentSwitch K E v msg := by
  unfold contentSwitch superContentSwitch
  by_cases hc : v.ContentType = K.ConversationChangeNotification ∨
      v.ContentType = K.ConversationPrivateChatNotification
  · rw [if_pos hc, if_pos hc]
  · rw [if_neg hc, if_neg hc, if_neg hv, if_neg hv]
    by_cases hd : v.ContentType = K.MsgDeleteNotification
    · rw [if_pos hd, if_neg (by rw [hd]; exact h1), if_neg (by rw [hd]; exact h2)]
    · rw [if_neg hd]

theorem receiverDispatch_eq_super (K : Constants) (v : MsgData) (s : BatchState) (m : MsgRef)
    (h1 : K.Typing ≠ K.CustomMsgOnlineOnly)
    (h2 : K.Typing ≠ K.CustomMsgNotTriggerConversation)
    (h3 : K.Typing ≠ K.OANotification) :
    receiverDispatch K v s m = superReceiverDispatch K v s m := by
  unfold receiverDispatch superReceiverDispatch
  by_cases ht : m.val.ContentType = K.Typing
  · simp only [ht, h1, h2, h3, if_true, if_false]
  · simp only [ht, if_false]

theorem receiverNotFound_eq_super (K : Constants) (E : Env) (s : BatchState) (v : MsgData)
    (ptr : Nat) (msg : MsgStruct)
    (h1 : K.Typing ≠ K.CustomMsgOnlineOnly)
    (h2 : K.Typing ≠ K.CustomMsgNotTriggerConversation)
    (h3 : K.Typing ≠ K.OANotification) :
    receiverNotFound K E s v ptr msg = superReceiverNotFound K E s v ptr msg := by
  unfold receiverNotFound superReceiverNotFound
  simp only [receiverDispatch_eq_super K v _ _ h1 h2 h3]

theorem classify_eq_super (K : Constants) (E : Env) (s : BatchState) (v : MsgData)
    (ptr : Nat) (msg : MsgStruct)
    (h1 : K.Typing ≠ K.CustomMsgOnlineOnly)
    (h2 : K.Typing ≠ K.CustomMsgNotTriggerConversation)
    (h3 : K.Typing ≠ K.OANotification)
    (hseq : ∀ m, E.GetMessageController msg = some m → m.Seq ≠ 0) :
    classify K E s v ptr msg = superClassify K E s v ptr msg := by
  unfold classify superClassify
  cases hg : E.GetMessageController msg with
  | none =>
    simp only [receiverNotFound_eq_super K E s v ptr msg h1 h2 h3]
  | some m =>
    have hm := hseq m hg
    simp only [hm, if_false]

theorem step_eq_super (K : Constants) (E : Env) (s : BatchState) (v : MsgData)
    (hK : K.MsgDeleteNotification ≠ K.ConversationUnreadNotification ∧
      K.MsgDeleteNotification ≠ K.BusinessNotification ∧
      K.Typing ≠ K.CustomMsgOnlineOnly ∧
      K.Typing ≠ K.CustomMsgNotTriggerConversation ∧
      K.Typing ≠ K.OANotification)
    (hv : v.ContentType ≠ K.SuperGroupUpdateNotification)
    (hseq : foundWithSeqZero K E v = false) :
    doMsgNewStep K E s v = doSuperGroupMsgNewStep K E s v := by
  obtain ⟨k1, k2, k3, k4, k5⟩ := hK
  unfold doMsgNewStep doSuperGroupMsgNewStep loopBody
  cases hp : prepare K E v with
  | hasDeleted msg => rfl
  | decodeError => rfl
  | emptyID msg => rfl
  | ok msg =>
    have hroute : route K (contentSwitch K E) v msg = route K (superContentSwitch K E) v msg := by
      unfold route
      rw [contentSwitch_eq_super K E v msg k1 k2 hv]
    have hfound : ∀ m, E.GetMessageController msg = some m → m.Seq ≠ 0 := by
      intro m hm h0
      unfold foundWithSeqZero at hseq
      rw [hp] at hseq
      simp only [hm, h0, decide_True] at hseq
      cases hseq
    simp only [hroute]
    rw [classify_eq_super K E _ v s.nextPtr msg k3 k4 k5 hfound]

theorem loop_eq_super (K : Constants) (E : Env)
    (hK : K.MsgDeleteNotification ≠ K.ConversationUnreadNotification ∧
      K.MsgDeleteNotification ≠ K.BusinessNotification ∧
      K.Typing ≠ K.CustomMsgOnlineOnly ∧
      K.Typing ≠ K.CustomMsgNotTriggerConversation ∧
      K.Typing ≠ K.OANotification)
    (msgs : List MsgData) :
    ∀ s : BatchState,
      (∀ v ∈ msgs, v.ContentType ≠ K.SuperGroupUpdateNotification ∧
        foundWithSeqZero K E v = false) →
      msgs.foldl (doMsgNewStep K E) s = msgs.foldl (doSuperGroupMsgNewStep K E) s := by
  induction msgs with
  | nil => intro s _; rfl
  | cons v vs ih =>
    intro s h
    have hv := h v (List.mem_cons_self _ _)
    simp only [List.foldl_cons]
    rw [step_eq_super K E s v hK hv.1 hv.2]
    exact ih _ fun w hw => h w (List.mem_cons_of_mem _ hw)

theorem senderDispatch_special (K : Constants) (s : BatchState) (m : MsgRef) :
    (senderDispatch K s m).specialUpdateMsg = s.specialUpdateMsg ∧
    (senderDispatch K s m).effects = s.effects := by
  constructor
  · simp only [senderDispatch, apply_ite BatchState.specialUpdateMsg, ite_self]
  · simp only [senderDispatch, apply_ite BatchState.effects, ite_self]

theorem receiverDispatch_special (K : Constants) (v : MsgData) (s : BatchState) (m : MsgRef) :
    (receiverDispatch K v s m).specialUpdateMsg = s.specialUpdateMsg ∧
    (receiverDispatch K v s m).effects = s.effects := by
  constructor
  · simp only [receiverDispatch, apply_ite BatchState.specialUpdateMsg, ite_self]
  · simp only [receiverDispatch, apply_ite BatchState.effects, ite_self]

theorem superReceiverDispatch_effects (K : Constants) (v : MsgData) (s : BatchState)
    (m : MsgRef) : (superReceiverDispatch K v s m).effects = s.effects := by
  simp only [superReceiverDispatch, apply_ite BatchState.effects, ite_self]

theorem classify_special (K : Constants) (E : Env) (s : BatchState) (v : MsgData) (ptr : Nat)
    (msg : MsgStruct) :
    (classify K E s v ptr msg).specialUpdateMsg = s.specialUpdateMsg ∧
    (classify K E s v ptr msg).effects = s.effects := by
  unfold classify
  by_cases hs : v.SendID = E.loginUserID
  · simp only [hs, if_true]
    cases hg : E.GetMessageController msg with
    | some m => simp only; constructor <;> (split_ifs <;> rfl)
    | none =>
      unfold senderNotFound
      simp only [(senderDispatch_special K _ _).1, (senderDispatch_special K _ _).2]
      cases v.Options.IsConversationUpdate <;> cases v.Options.IsHistory <;> simp
  · simp only [hs, if_false]
    cases hg : E.GetMessageController msg with
    | some m => simp
    | none =>
      unfold receiverNotFound
      simp only [(receiverDispatch_special K _ _ _).1, (receiverDispatch_special K _ _ _).2]
      cases v.Options.IsConversationUpdate <;> cases v.Options.IsHistory <;>
        cases unreadGate E v msg (receiverConversation K E v msg) <;> simp

theorem superClassify_effects (K : Constants) (E : Env) (s : BatchState) (v : MsgData)
    (ptr : Nat) (msg : MsgStruct) :
    (superClassify K E s v ptr msg).effects = s.effects := by
  unfold superClassify
  by_cases hs : v.SendID = E.loginUserID
  · simp only [hs, if_true]
    cases hg : E.GetMessageController msg with
    | some m => simp only; split_ifs <;> rfl
    | none =>
      unfold senderNotFound
      simp only [(senderDispatch_special K _ _).2]
      cases v.Options.IsConversationUpdate <;> cases v.Options.IsHistory <;> simp
  · simp only [hs, if_false]
    cases hg : E.GetMessageController msg with
    | some m => simp only; split_ifs <;> rfl
    | none =>
      unfold superReceiverNotFound
      simp only [superReceiverDispatch_effects]
      cases v.Options.IsConversationUpdate <;> cases v.Options.IsHistory <;>
        cases unreadGate E v msg (receiverConversation K E v msg) <;> simp

theorem doMsgNewStep_special (K : Constants) (E : Env) (s : BatchState) (v : MsgData) :
    (doMsgNewStep K E s v).specialUpdateMsg = s.specialUpdateMsg := by
  unfold doMsgNewStep loopBody
  cases hp : prepare K E v with
  | hasDeleted msg => rfl
  | decodeError => rfl
  | emptyID msg => rfl
  | ok msg =>
    simp only
    split
    · rfl
    · rw [(classify_special K E _ v s.nextPtr msg).1]

theorem doMsgNewLoop_special (K : Constants) (E : Env) (msgs : List MsgData) :
    ∀ s : BatchState,
      (msgs.foldl (doMsgNewStep K E) s).specialUpdateMsg = s.specialUpdateMsg := by
  induction msgs with
  | nil => intro s; rfl
  | cons v vs ih =>
    intro s
    simp only [List.foldl_cons]
    rw [ih, doMsgNewStep_special]

/-- C24. The regular and the super-group entry point agree outside the rules of section
4.3.5: for a batch in which no message has content type `SuperGroupUpdateNotification`
and none is found in the store with `seq = 0`, the loops of `doMsgNew` and
`doSuperGroupMsgNew` end in the same state (insert, update and exception buckets,
conversation set, unread rows, listener lists, handler calls), the special-update
bucket is empty, and the results of the two methods differ only in the store call
`BatchSpecialUpdateMessageList` of the empty bucket that `doSuperGroupMsgNew` makes
first. The constants of the `case` lists that the two methods order differently are
taken to be distinct. -/
theorem entry_points_agree (K : Constants) (E : Env) (allMsg : List (List MsgData))
    (hK : K.MsgDeleteNotification ≠ K.ConversationUnreadNotification ∧
      K.MsgDeleteNotification ≠ K.BusinessNotification ∧
      K.Typing ≠ K.CustomMsgOnlineOnly ∧
      K.Typing ≠ K.CustomMsgNotTriggerConversation ∧
      K.Typing ≠ K.OANotification)
    (h : ∀ v ∈ allMsg.flatten, v.ContentType ≠ K.SuperGroupUpdateNotification ∧
      foundWithSeqZero K E v = false) :
    doSuperGroupMsgNewLoop K E allMsg = doMsgNewLoop K E allMsg ∧
    (doSuperGroupMsgNewLoop K E allMsg).specialUpdateMsg = [] ∧
    doSuperGroupMsgNew K E allMsg =
      { doMsgNew K E allMsg with
        storeCalls :=
          Effect.BatchSpecialUpdateMessageList [] :: (doMsgNew K E allMsg).storeCalls } := by
  have hloop : doSuperGroupMsgNewLoop K E allMsg = doMsgNewLoop K E allMsg :=
    (loop_eq_super K E hK allMsg.flatten {} h).symm
  have hspecial : (doMsgNewLoop K E allMsg).specialUpdateMsg = [] :=
    doMsgNewLoop_special K E allMsg.flatten {}
  refine ⟨hloop, by rw [hloop]; exact hspecial, ?_⟩
  unfold doSuperGroupMsgNew doMsgNew
  rw [hloop]
  simp only [commit, hspecial, List.cons_append, List.nil_append, List.singleton_append]

/-- C24 at the batch that delivers the stored message `b` (found with `seq = 7`) again:
both methods put it into the exception bucket. -/
theorem entry_points_agree_witness :
    doSuperGroupMsgNewLoop constant dupEnv dupBatch = doMsgNewLoop constant dupEnv dupBatch ∧
    (doSuperGroupMsgNewLoop constant dupEnv dupBatch).specialUpdateMsg = [] ∧
    doSuperGroupMsgNew constant dupEnv dupBatch =
      { doMsgNew constant dupEnv dupBatch with
        storeCalls :=
          Effect.BatchSpecialUpdateMessageList [] ::
            (doMsgNew constant dupEnv dupBatch).storeCalls } :=
  entry_points_agree constant dupEnv dupBatch (by decide) (by decide)

/-! ### The order of the conversation-update commands -/

theorem all_of_postsNoCommand (l : List Effect) (h : l.all postsNoCommand = true) :
    l.all postsNoLoopCommand = true := by
  rw [List.all_eq_true] at h ⊢
  intro e he
  have := h e he
  cases e <;> simp_all [postsNoCommand, postsNoLoopCommand]

theorem foldl_effects_all {α : Type} (p : Effect → Bool) (step : List Effect → α → List Effect)
    (hstep : ∀ acc a, acc.all p = true → (step acc a).all p = true) :
    ∀ (l : List α) (acc : List Effect), acc.all p = true → (l.foldl step acc).all p = true := by
  intro l
  induction l with
  | nil => intro acc h; exact h
  | cons a l ih => intro acc h; exact ih _ (hstep acc a h)

theorem unreadNotificationEffects_early (E : Env) (content : String) :
    (unreadNotificationEffects E content).all postsNoLateCommand = true := by
  unfold unreadNotificationEffects
  simp only [List.all_append, List.all_cons, List.all_nil, postsNoLateCommand, Bool.and_true]
  rw [List.all_eq_true]
  intro e he
  obtain ⟨id, _, hid⟩ := List.mem_flatMap.mp he
  simp only [List.mem_cons, List.mem_singleton, List.not_mem_nil, or_false] at hid
  rcases hid with rfl | rfl <;> rfl

theorem contentSwitch_early (K : Constants) (E : Env) (v : MsgData) (msg : MsgStruct) :
    (contentSwitch K E v msg).1.all postsNoLateCommand = true ∧
    (superContentSwitch K E v msg).1.all postsNoLateCommand = true := by
  constructor
  · unfold contentSwitch
    split_ifs <;> first | rfl | exact unreadNotificationEffects_early E _
  · unfold superContentSwitch
    split_ifs <;> first | rfl | exact unreadNotificationEffects_early E _

theorem sessionSwitch_early (K : Constants) (v : MsgData) (msg : MsgStruct) :
    (sessionSwitch K v msg).1.all postsNoLateCommand = true := by
  unfold sessionSwitch
  split_ifs <;> rfl

theorem route_early (K : Constants) (switch1 : MsgData → MsgStruct → List Effect × Bool)
    (v : MsgData) (msg : MsgStruct)
    (h1 : (switch1 v msg).1.all postsNoLateCommand = true) :
    (route K switch1 v msg).1.all postsNoLateCommand = true := by
  unfold route
  split
  · exact h1
  · simp only [List.all_append, h1, sessionSwitch_early, Bool.and_self]

theorem loopBody_early (K : Constants) (E : Env)
    (switch1 : MsgData → MsgStruct → List Effect × Bool)
    (classifier : BatchState → MsgData → Nat → MsgStruct → BatchState)
    (h1 : ∀ v msg, (switch1 v msg).1.all postsNoLateCommand = true)
    (hc : ∀ s v ptr msg, (classifier s v ptr msg).effects = s.effects)
    (s : BatchState) (v : MsgData) (hs : s.effects.all postsNoLateCommand = true) :
    (loopBody K E switch1 classifier s v).effects.all postsNoLateCommand = true := by
  unfold loopBody
  cases hp : prepare K E v with
  | hasDeleted msg => exact hs
  | decodeError => exact hs
  | emptyID msg => exact hs
  | ok msg =>
    simp only
    split
    · simp only [List.all_append, hs, route_early K switch1 v msg (h1 v msg), Bool.and_self]
    · rw [hc]
      simp only [List.all_append, hs, route_early K switch1 v msg (h1 v msg), Bool.and_self]

theorem foldl_loopBody_early (K : Constants) (E : Env)
    (switch1 : MsgData → MsgStruct → List Effect × Bool)
    (classifier : BatchState → MsgData → Nat → MsgStruct → BatchState)
    (h1 : ∀ v msg, (switch1 v msg).1.all postsNoLateCommand = true)
    (hc : ∀ s v ptr msg, (classifier s v ptr msg).effects = s.effects)
    (msgs : List MsgData) :
    ∀ s : BatchState, s.effects.all postsNoLateCommand = true →
      (msgs.foldl (loopBody K E switch1 classifier) s).effects.all postsNoLateCommand = true := by
  induction msgs with
  | nil => intro s hs; exact hs
  | cons v vs ih =>
    intro s hs
    exact ih _ (loopBody_early K E switch1 classifier h1 hc s v hs)

theorem insertCalls_early (E : Env) (rows : List LocalChatLog) :
    (insertCalls E rows).all postsNoLateCommand = true := by
  unfold insertCalls
  simp only [List.all_cons, postsNoLateCommand, Bool.true_and]
  split
  · rfl
  · rw [List.all_eq_true]
    intro e he
    obtain ⟨r, _, rfl⟩ := List.mem_map.mp he
    rfl

theorem foldl_readOne_all (E : Env) (rd : MsgStruct) (ids : List String) :
    ∀ acc : List Effect × List String, acc.1.all postsNoLoopCommand = true →
      (ids.foldl (readOne E rd) acc).1.all postsNoLoopCommand = true := by
  induction ids with
  | nil => intro acc h; exact h
  | cons v vs ih =>
    intro acc h
    simp only [List.foldl_cons]
    apply ih
    unfold readOne
    split
    · exact h
    · simp only
      split <;> simp [List.all_append, h, postsNoLoopCommand]

theorem doMsgReadStateFrom_all (K : Constants) (E : Env) (l : List MsgStruct) :
    ∀ st : ReadState, st.effects.all postsNoLoopCommand = true →
      (doMsgReadStateFrom K E st l).all postsNoLoopCommand = true := by
  induction l with
  | nil =>
    intro st h
    unfold doMsgReadStateFrom
    split
    · split <;> simp [List.all_append, h, postsNoLoopCommand]
    · exact h
  | cons rd rest ih =>
    intro st h
    unfold doMsgReadStateFrom
    split
    · exact h
    · next ids _ =>
      apply ih
      unfold readStep
      simp only [List.all_append, foldl_readOne_all E rd ids (st.effects, []) h, List.all_cons,
        postsNoLoopCommand, List.all_nil, Bool.and_self]

theorem foldl_groupReadOne_all (E : Env) (userID : String) (messages : List LocalChatLog) :
    ∀ acc : List Effect × List String, acc.1.all postsNoCommand = true →
      (messages.foldl (groupReadOne E userID) acc).1.all postsNoCommand = true := by
  induction messages with
  | nil => intro acc h; exact h
  | cons m ms ih =>
    intro acc h
    simp only [List.foldl_cons]
    apply ih
    unfold groupReadOne
    split <;> simp [List.all_append, h, postsNoCommand]

theorem groupReadBucket_all (K : Constants) (E : Env) (st : GroupReadState)
    (userID groupID : String) (ids : List String)
    (h : st.effects.all postsNoCommand = true) :
    (groupReadBucket K E st userID groupID ids).effects.all postsNoCommand = true := by
  unfold groupReadBucket
  split
  · exact h
  · split
    · exact h
    · exact foldl_groupReadOne_all E userID _ (st.effects, []) h

theorem DoGroupMsgReadState_all (K : Constants) (E : Env) (l : List MsgStruct) :
    (DoGroupMsgReadState K E l).all postsNoCommand = true := by
  have inner : ∀ (userID : String) (gm : List (String × List String)) (st : GroupReadState),
      st.effects.all postsNoCommand = true →
      (gm.foldl (fun st g => groupReadBucket K E st userID g.1 g.2) st).effects.all
        postsNoCommand = true := by
    intro userID gm
    induction gm with
    | nil => intro st h; exact h
    | cons g gs ih => intro st h; exact ih _ (groupReadBucket_all K E st userID g.1 g.2 h)
  have outer : ∀ (um : List (String × List (String × List String))) (st : GroupReadState),
      st.effects.all postsNoCommand = true →
      (um.foldl (fun st u =>
        u.2.foldl (fun st g => groupReadBucket K E st u.1 g.1 g.2) st) st).effects.all
        postsNoCommand = true := by
    intro um
    induction um with
    | nil => intro st h; exact h
    | cons u us ih => intro st h; exact ih _ (inner u.1 u.2 st h)
  unfold DoGroupMsgReadState
  simp only
  have hall := outer (l.foldl (groupReadCollect E) []) {} rfl
  split
  · split <;>
      simp only [List.all_append, List.all_cons, List.all_nil, postsNoCommand, Bool.and_true,
        hall]
  · exact hall

theorem revokeMessage_all (K : Constants) (E : Env) (l : List MsgStruct) :
    (revokeMessage K E l).all postsNoCommand = true := by
  unfold revokeMessage
  apply foldl_effects_all postsNoCommand (revokeStep K E) _ l [] rfl
  intro acc w h
  unfold revokeStep
  split
  · simp only
    split <;> simp [List.all_append, h, postsNoCommand]
  · exact h

theorem newMessageBroadcast_all (E : Env) (l : List MsgStruct) :
    (newMessageBroadcast E l).all postsNoCommand = true := by
  unfold newMessageBroadcast batchNewMessages newMessage
  split
  · split <;> rfl
  · rw [List.all_eq_true]
    intro e he
    obtain ⟨w, _, hw⟩ := List.mem_flatMap.mp he
    rcases List.mem_append.mp hw with h1 | h1
    · split at h1
      · simp only [List.mem_singleton] at h1; rw [h1]; rfl
      · simp at h1
    · split at h1
      · simp only [List.mem_singleton] at h1; rw [h1]; rfl
      · simp at h1

theorem quoteRevokeCalls_all (K : Constants) (E : Env) (rows : List LocalChatLog)
    (revoked : List MessageRevoked) :
    (quoteRevokeCalls K E rows revoked).all postsNoCommand = true := by
  unfold quoteRevokeCalls
  rw [List.all_eq_true]
  intro e he
  obtain ⟨v, _, hv⟩ := List.mem_flatMap.mp he
  unfold QuoteMsgRevokeHandle at hv
  split at hv
  · simp at hv
  · split at hv
    · simp at hv
    · simp only [List.mem_singleton] at hv; rw [hv]; rfl

theorem newRevokeStep_all (K : Constants) (E : Env) (st : RevokeState) (w : MsgStruct)
    (h : st.effects.all postsNoCommand = true) :
    (newRevokeStep K E st w).effects.all postsNoCommand = true := by
  unfold newRevokeStep
  split
  · exact h
  · split
    · simp only [List.all_append, h, List.all_cons, List.all_nil, postsNoCommand,
        Bool.and_true, Bool.true_and]
      split <;> rfl
    · simp only [List.all_append, h, List.all_cons, List.all_nil, postsNoCommand,
        Bool.and_true, Bool.true_and]
      split <;> rfl

theorem newRevokeMessage_all (K : Constants) (E : Env) (l : List MsgStruct) :
    (newRevokeMessage K E l).all postsNoCommand = true := by
  have hfold : ∀ (l : List MsgStruct) (st : RevokeState),
      st.effects.all postsNoCommand = true →
      (l.foldl (newRevokeStep K E) st).effects.all postsNoCommand = true := by
    intro l
    induction l with
    | nil => intro st h; exact h
    | cons w ws ih => intro st h; exact ih _ (newRevokeStep_all K E st w h)
  unfold newRevokeMessage
  simp only [List.all_append, hfold l {} rfl, Bool.true_and, Bool.and_eq_true]
  constructor
  · split
    · exact quoteRevokeCalls_all K E _ _
    · rfl
  · rw [List.all_eq_true]
    intro e he
    obtain ⟨g, _, hg⟩ := List.mem_flatMap.mp he
    exact List.all_eq_true.mp (quoteRevokeCalls_all K E _ _) e hg

theorem reactionModifierStep_all (K : Constants) (E : Env) (acc : List Effect)
    (w : MsgStruct) (h : acc.all postsNoCommand = true) :
    (reactionModifierStep K E acc w).all postsNoCommand = true := by
  unfold reactionModifierStep
  split
  · exact h
  · split
    · split
      · split <;> simp [List.all_append, h, postsNoCommand]
      · simp [List.all_append, h, postsNoCommand]
    · split
      · split
        · simp [List.all_append, h, postsNoCommand]
        · split
          · split <;> simp [List.all_append, h, postsNoCommand]
          · simp [List.all_append, h, postsNoCommand]
      · simp [List.all_append, h, postsNoCommand]

theorem doReactionMsgModifierFrom_all (K : Constants) (E : Env) (l : List MsgStruct) :
    ∀ acc : List Effect, acc.all postsNoCommand = true →
      (doReactionMsgModifierFrom K E acc l).all postsNoCommand = true := by
  induction l with
  | nil => intro acc h; exact h
  | cons w ws ih =>
    intro acc h
    unfold doReactionMsgModifierFrom
    split
    · exact reactionModifierStep_all K E acc w h
    · exact ih _ (reactionModifierStep_all K E acc w h)

theorem doReactionMsgModifier_all (K : Constants) (E : Env) (l : List MsgStruct) :
    (doReactionMsgModifier K E l).all postsNoCommand = true :=
  doReactionMsgModifierFrom_all K E l [] rfl

theorem reactionDeleterStep_all (E : Env) (acc : List Effect) (w : MsgStruct)
    (h : acc.all postsNoCommand = true) :
    (reactionDeleterStep E acc w).all postsNoCommand = true := by
  unfold reactionDeleterStep
  split
  · exact h
  · split
    · simp [List.all_append, h, postsNoCommand]
    · split <;> simp [List.all_append, h, postsNoCommand]

theorem doReactionMsgDeleterFrom_all (E : Env) (l : List MsgStruct) :
    ∀ acc : List Effect, acc.all postsNoCommand = true →
      (doReactionMsgDeleterFrom E acc l).all postsNoCommand = true := by
  induction l with
  | nil => intro acc h; exact h
  | cons w ws ih =>
    intro acc h
    unfold doReactionMsgDeleterFrom
    split
    · exact reactionDeleterStep_all E acc w h
    · exact ih _ (reactionDeleterStep_all E acc w h)

theorem doReactionMsgDeleter_all (E : Env) (l : List MsgStruct) :
    (doReactionMsgDeleter E l).all postsNoCommand = true :=
  doReactionMsgDeleterFrom_all E l [] rfl

/-- Calls in sequence keep a property that both parts have. -/
theorem thenCalls_all (p : Effect → Bool) (done next : List Effect)
    (h1 : done.all p = true) (h2 : next.all p = true) :
    (thenCalls done next).all p = true := by
  unfold thenCalls
  split
  · exact h1
  · rw [List.all_append, h1, h2]
    rfl

theorem dispatch_all (K : Constants) (E : Env) (s : BatchState) :
    (dispatch K E s).all postsNoLoopCommand = true := by
  unfold dispatch
  exact thenCalls_all _ _ _ (thenCalls_all _ _ _ (thenCalls_all _ _ _ (thenCalls_all _ _ _
    (thenCalls_all _ _ _ (thenCalls_all _ _ _
      (doMsgReadStateFrom_all K E _ {} rfl)
      (all_of_postsNoCommand _ (DoGroupMsgReadState_all K E _)))
      (all_of_postsNoCommand _ (revokeMessage_all K E _)))
      (all_of_postsNoCommand _ (newMessageBroadcast_all E _)))
      (all_of_postsNoCommand _ (newRevokeMessage_all K E _)))
      (all_of_postsNoCommand _ (doReactionMsgModifier_all K E _)))
    (all_of_postsNoCommand _ (doReactionMsgDeleter_all E _))

theorem conversationCommands_all (newSet changed : GoMap LocalConversation) (t : Bool) :
    ((conversationCommands newSet changed t).map Effect.doUpdateConversation).all
      postsNoLoopCommand = true := by
  unfold conversationCommands
  rw [List.all_eq_true]
  intro e he
  obtain ⟨c, hc, rfl⟩ := List.mem_map.mp he
  simp only [List.mem_append] at hc
  rcases hc with (hc | hc) | hc
  · split at hc
    · simp only [List.mem_singleton] at hc; rw [hc]; rfl
    · simp at hc
  · split at hc
    · simp only [List.mem_singleton] at hc; rw [hc]; rfl
    · simp at hc
  · split at hc
    · simp only [List.mem_singleton] at hc; rw [hc]; rfl
    · simp at hc

theorem commit_trace (K : Constants) (E : Env) (updates : List Effect) (s : BatchState)
    (hup : updates.all postsNoLateCommand = true)
    (hs : s.effects.all postsNoLateCommand = true) :
    ∃ pre post,
      (commit K E updates s).trace K E =
        pre ++ Effect.BatchUpdateConversationList (commit K E updates s).updatedConversations ::
          Effect.BatchInsertConversationList (commit K E updates s).insertedConversations ::
          post ∧
      pre.all postsNoLateCommand = true ∧ post.all postsNoLoopCommand = true := by
  refine ⟨s.effects ++ (updates ++ insertCalls E s.insertMsg ++
      [Effect.BatchInsertExceptionMsgController (commit K E updates s).exceptionMsg]),
    Effect.BatchInsertConversationUnreadMessageList s.unreadMessages ::
      thenCalls (dispatch K E s)
        ((commit K E updates s).commands.map Effect.doUpdateConversation),
    ?_, ?_, ?_⟩
  · simp only [BatchResult.trace, commit, BatchResult.updatedConversations,
      BatchResult.insertedConversations, List.append_assoc, List.cons_append,
      List.nil_append, List.singleton_append]
  · simp only [List.all_append, hs, hup, insertCalls_early, List.all_cons, List.all_nil,
      postsNoLateCommand, Bool.and_self]
  · simp only [List.all_cons, postsNoLoopCommand, Bool.true_and]
    exact thenCalls_all _ _ _ (dispatch_all K E s) (conversationCommands_all _ _ _)

/-- C27 (counterexample). A batch with a `ConversationUnreadNotification` and a new message:
the commands `UnreadCountSetZero` and `ConChange` are posted by the loop, before any
store call of the commit; the batch update and the batch insert of conversations come
after them. -/
theorem emission_order_counterexample :
    ((doMsgNew constant unreadNoticeEnv [[unreadNotice, peerMsg "a" 600]]).trace constant
        unreadNoticeEnv).take 3 =
      [Effect.doUpdateConversation (ConCmd.UnreadCountSetZero "s_u2"),
       Effect.DeleteConversationUnreadMessageList "s_u2" 500,
       Effect.doUpdateConversation (ConCmd.ConChange ["s_u2"])] ∧
    (((doMsgNew constant unreadNoticeEnv [[unreadNotice, peerMsg "a" 600]]).trace constant
        unreadNoticeEnv).drop 3).map phaseOf =
      [Phase.updateMessages, Phase.insertMessages, Phase.insertExceptions,
       Phase.updateConversations, Phase.insertConversations, Phase.insertUnreadRows,
       Phase.other, Phase.other, Phase.other] := by
  decide

/-- C27 (amended). Emission order, in `doMsgNew` and `doSuperGroupMsgNew`: the calls of one
batch are a first part, then the batch update and the batch insert of conversations,
then a last part. No `NewConDirect`, `ConChangeDirect`, `ConversationLatestMsgHasRead` or
`TotalUnreadMessageChanged` command is in the first part: these commands are posted
after the conversation rows are committed. No `UnreadCountSetZero` or `ConChange`
command is in the last part: the commands of a `ConversationUnreadNotification` are
posted by the loop, before the commit. -/
theorem emission_order (K : Constants) (E : Env) (allMsg : List (List MsgData))
    (R : BatchResult) (hR : R = doMsgNew K E allMsg ∨ R = doSuperGroupMsgNew K E allMsg) :
    ∃ pre post,
      R.trace K E =
        pre ++ Effect.BatchUpdateConversationList R.updatedConversations ::
          Effect.BatchInsertConversationList R.insertedConversations :: post ∧
      pre.all postsNoLateCommand = true ∧ post.all postsNoLoopCommand = true := by
  rcases hR with rfl | rfl
  · exact commit_trace K E _ _ rfl
      (foldl_loopBody_early K E (contentSwitch K E) (classify K E)
        (fun v msg => (contentSwitch_early K E v msg).1)
        (fun s v ptr msg => (classify_special K E s v ptr msg).2) allMsg.flatten {} rfl)
  · exact commit_trace K E _ _ rfl
      (foldl_loopBody_early K E (superContentSwitch K E) (superClassify K E)
        (fun v msg => (contentSwitch_early K E v msg).2)
        (fun s v ptr msg => superClassify_effects K E s v ptr msg) allMsg.flatten {} rfl)

/-- C27 (amended) at scenario S3: the batch posts `ConChangeDirect` and
`TotalUnreadMessageChanged`, both after the batch update of the row of `s_u2`. -/
theorem emission_order_witness :
    ∃ pre post,
      (doMsgNew constant s3Env s3Batch).trace constant s3Env =
        pre ++ Effect.BatchUpdateConversationList [s3Row] ::
          Effect.BatchInsertConversationList [] :: post ∧
      pre.all postsNoLateCommand = true ∧ post.all postsNoLoopCommand = true :=
  emission_order constant s3Env s3Batch (doMsgNew constant s3Env s3Batch) (Or.inl rfl)

/-! ### Processing a batch again -/

theorem doMsgNewStep_of_storedDuplicate (K : Constants) (E : Env) (s : BatchState)
    (v : MsgData) (h : storedDuplicate K E v = true) :
    ∃ (effects : List Effect) (row : LocalErrChatLog),
      row.ClientMsgID = v.ClientMsgID ∧
      doMsgNewStep K E s v =
        { s with
          nextPtr := s.nextPtr + 1
          effects := s.effects ++ effects
          exceptionMsg := s.exceptionMsg ++ [row] } := by
  unfold storedDuplicate at h
  cases hcl : classified K E (contentSwitch K E) v with
  | none => rw [hcl] at h; cases h
  | some msg =>
    rw [hcl] at h
    simp only at h
    cases hf : E.GetMessageController msg with
    | none => rw [hf] at h; cases h
    | some m =>
      rw [hf] at h
      simp only [Bool.or_eq_true, decide_eq_true_eq] at h
      obtain ⟨hprep, _⟩ := classified_fields K E _ v msg hcl
      obtain ⟨_, hid, _, _, _⟩ := prepare_ok_fields K E v msg hprep
      refine ⟨(route K (contentSwitch K E) v msg).1, msgStructToLocalErrChatLog K msg, ?_, ?_⟩
      · rw [(msgStructToLocalErrChatLog_fields K msg).1, hid]
      · unfold doMsgNewStep
        rw [loopBody_of_classified K E _ _ s v msg hcl]
        unfold classify
        by_cases hs : v.SendID = E.loginUserID
        · have hseq : m.Seq ≠ 0 := by
            rcases h with h | h
            · exact absurd hs h
            · exact h
          simp only [hs, if_true, hf, hseq, if_false]
        · simp only [hs, if_false, hf]

theorem foldl_doMsgNewStep_of_storedDuplicate (K : Constants) (E : Env) (msgs : List MsgData) :
    ∀ s : BatchState, (∀ v ∈ msgs, storedDuplicate K E v = true) →
      ∃ (effects : List Effect) (rows : List LocalErrChatLog),
        rows.map (·.ClientMsgID) = msgs.map (·.ClientMsgID) ∧
        msgs.foldl (doMsgNewStep K E) s =
          { s with
            nextPtr := s.nextPtr + msgs.length
            effects := s.effects ++ effects
            exceptionMsg := s.exceptionMsg ++ rows } := by
  induction msgs with
  | nil => intro s _; exact ⟨[], [], rfl, by simp⟩
  | cons v vs ih =>
    intro s h
    obtain ⟨e1, row, hrow, hstep⟩ :=
      doMsgNewStep_of_storedDuplicate K E s v (h v (List.mem_cons_self _ _))
    obtain ⟨e2, rows, hrows, hfold⟩ :=
      ih (doMsgNewStep K E s v) fun w hw => h w (List.mem_cons_of_mem _ hw)
    refine ⟨e1 ++ e2, row :: rows, by simp [hrow, hrows], ?_⟩
    simp only [List.foldl_cons]
    rw [hfold, hstep]
    simp only [List.length_cons, List.append_assoc, List.singleton_append]
    congr 1
    omega

theorem hiddenOverlay_nil (hList : List LocalConversation) :
    hiddenOverlay hList [] = { newConversationSet := [] } := by
  unfold hiddenOverlay
  induction hList with
  | nil => rfl
  | cons h hs ih =>
    simp only [List.foldl_cons]
    have : overlayStep { newConversationSet := [] } h = { newConversationSet := [] } := by
      simp [overlayStep, GoMap.get?]
    rw [this]
    exact ih

/-- C23 (counterexample). Processing a batch twice differs from processing it once: the
message `n` has `IsHistory` unset, so the first run of `doMsgNew` writes no message row
and inserts the conversation `s_u2` with unread count 1; the second run, on the store
the first run left, does not find `n` either, counts it again and updates `s_u2` to
unread count 2, and hands the unread row of `n` to the store a second time. -/
theorem idempotence_counterexample :
    (doMsgNew constant sampleEnv [[nonHistoryMsg]]).loop.insertMsg = [] ∧
    (doMsgNew constant sampleEnv [[nonHistoryMsg]]).loop.updateMsg = [] ∧
    (doMsgNew constant sampleEnv [[nonHistoryMsg]]).updatedConversations = [] ∧
    (doMsgNew constant sampleEnv [[nonHistoryMsg]]).insertedConversations.map
      (fun r => (r.ConversationID, r.UnreadCount)) = [("s_u2", 1)] ∧
    (doMsgNew constant afterFirstRun [[nonHistoryMsg]]).updatedConversations.map
      (fun r => (r.ConversationID, r.UnreadCount)) = [("s_u2", 2)] ∧
    (doMsgNew constant afterFirstRun [[nonHistoryMsg]]).loop.unreadMessages =
      (doMsgNew constant sampleEnv [[nonHistoryMsg]]).loop.unreadMessages ∧
    (doMsgNew constant sampleEnv [[nonHistoryMsg]]).loop.unreadMessages.map
      (·.ClientMsgID) = ["n"] := by
  decide

/-- C23 (amended). Processing a batch again when its messages are stored: if every
message of the batch reaches classification and is found in the store, sent by another
user or stored with a `seq` other than 0, then `doMsgNew` writes no message row, no
conversation row and no unread row: the batch update and the batch insert of messages,
the batch update and the batch insert of conversations and the batch insert of unread
rows all carry the empty list, no row is inserted one by one, and the only rows handed
to the store are one exception row a message. -/
theorem reprocessing_stored_batch (K : Constants) (E : Env) (allMsg : List (List MsgData))
    (h : ∀ v ∈ allMsg.flatten, storedDuplicate K E v = true) :
    (doMsgNew K E allMsg).storeCalls =
      [Effect.BatchUpdateMessageList [],
       Effect.BatchInsertMessageListController [],
       Effect.BatchInsertExceptionMsgController (doMsgNew K E allMsg).exceptionMsg,
       Effect.BatchUpdateConversationList [],
       Effect.BatchInsertConversationList [],
       Effect.BatchInsertConversationUnreadMessageList []] ∧
    (doMsgNew K E allMsg).exceptionMsg.map (·.ClientMsgID) =
      allMsg.flatten.map (·.ClientMsgID) ∧
    (doMsgNew K E allMsg).loop.newMessages = [] := by
  obtain ⟨effects, rows, hrows, hfold⟩ :=
    foldl_doMsgNewStep_of_storedDuplicate K E allMsg.flatten {} h
  have hloop : doMsgNewLoop K E allMsg =
      { nextPtr := 0 + allMsg.flatten.length, effects := [] ++ effects,
        exceptionMsg := [] ++ rows } := hfold
  have hfb : insertFallback E [] [] = [] := rfl
  have hins : insertCalls E [] = [Effect.BatchInsertMessageListController []] := by
    unfold insertCalls
    split <;> rfl
  have hdiff : diff K E (listToMap E.GetAllConversationListDB) [] [] [] =
      { localMap := listToMap E.GetAllConversationListDB } := rfl
  have hexc : (doMsgNew K E allMsg).exceptionMsg = rows := by
    unfold doMsgNew
    rw [hloop]
    simp only [commit, hfb, List.append_nil, List.nil_append, ite_self]
  refine ⟨?_, by rw [hexc, hrows], ?_⟩
  · rw [hexc]
    unfold doMsgNew
    rw [hloop]
    simp only [commit, hins, hdiff, hiddenOverlay_nil, hfb, List.append_nil, List.nil_append,
      ite_self, mapConversationToList, GoMap.values, List.map_nil, phNewOf, List.foldl_nil,
      List.cons_append]
  · unfold doMsgNew
    rw [hloop]
    rfl

/-- C23 (amended) at the second delivery of the stored message `b`: the only row handed
to the store is the exception row of `b`. -/
theorem reprocessing_stored_batch_witness :
    (doMsgNew constant dupEnv redeliveredBatch).storeCalls =
      [Effect.BatchUpdateMessageList [],
       Effect.BatchInsertMessageListController [],
       Effect.BatchInsertExceptionMsgController
        (doMsgNew constant dupEnv redeliveredBatch).exceptionMsg,
       Effect.BatchUpdateConversationList [],
       Effect.BatchInsertConversationList [],
       Effect.BatchInsertConversationUnreadMessageList []] ∧
    (doMsgNew constant dupEnv redeliveredBatch).exceptionMsg.map (·.ClientMsgID) = ["b"] :=
  have h := reprocessing_stored_batch constant dupEnv redeliveredBatch (by decide)
  ⟨h.1, h.2.1⟩

end OpenIM
